import Mathlib

/-!
# Merlin server console (`pkg/cli/cli.go`)

A shallow embedding of the command handlers of the console, together with
theorems about what they do: the module menu's `run`, the agent menu's `set`,
`cmd`, `shell` and `execute-shellcode`, the main menu's `agent` and `interact`,
the three listener menus (`menuListener`, `menuListeners`, `menuListenerSetup`),
`confirm`, the index and slice expressions of the loop, and the loop of `Shell`
itself, one turn per line read (`shellStep`, `runShell`).

Effects are recorded as a trace of `Event`s: every call of `message`, every call
into the packages `agents`, `listeners` and `servers`, and every way a handler
can end the process (`exit()`, a run-time panic) appends one event.  The
packages themselves live outside `cli.go`; they are parameters of the model
(`AddJobFn`, `AgentsAPI`, `ListenersAPI`, `ConsoleAPI`), acting on an arbitrary world state
`σ`, so that every theorem holds for every behaviour of the job queue, the
agent registry and the listener manager.  A pointer is an `Option`: `none` is
nil, and a field access through it is the panic `nilDereference`.
-/

namespace Merlin

/-! ## Identifiers and strings -/

/-- A `uuid.UUID`: an array of sixteen bytes. -/
structure UUID where
  bytes : List (Fin 256)
  size : bytes.length = 16

instance : DecidableEq UUID := fun a b =>
  if h : a.bytes = b.bytes then isTrue (by cases a; cases b; cases h; rfl)
  else isFalse (fun e => h (congrArg UUID.bytes e))

/-- The digit table of `encoding/hex`: `"0123456789abcdef"[n]`. -/
def hexDigit (n : Nat) : Char :=
  match n with
  | 0 => '0' | 1 => '1' | 2 => '2' | 3 => '3'
  | 4 => '4' | 5 => '5' | 6 => '6' | 7 => '7'
  | 8 => '8' | 9 => '9' | 10 => 'a' | 11 => 'b'
  | 12 => 'c' | 13 => 'd' | 14 => 'e' | _ => 'f'

/-- The two digits `hex.Encode` writes for one byte: high nibble, low nibble. -/
def hexByte (b : Fin 256) : List Char :=
  [hexDigit (b.val / 16), hexDigit (b.val % 16)]

/-- The function `hex.Encode` over a slice of bytes. -/
def hexEncode : List (Fin 256) → List Char
  | [] => []
  | b :: bs => hexByte b ++ hexEncode bs

/-- The method `UUID.String`: the canonical form
`xxxxxxxx-xxxx-xxxx-xxxx-xxxxxxxxxxxx`, hex groups of bytes 0-3, 4-5, 6-7, 8-9
and 10-15 separated by dashes. -/
def UUID.String (u : UUID) : String :=
  String.mk
    (hexEncode (u.bytes.take 4) ++ '-' ::
      (hexEncode ((u.bytes.drop 4).take 2) ++ '-' ::
        (hexEncode ((u.bytes.drop 6).take 2) ++ '-' ::
          (hexEncode ((u.bytes.drop 8).take 2) ++ '-' ::
            hexEncode (u.bytes.drop 10)))))

/-- The identifier whose sixteen bytes are all `0xff`: the all-agents target. -/
def UUID.broadcast : UUID := ⟨List.replicate 16 255, rfl⟩

/-- The lower-case mappings of `unicode.ToLower` outside ASCII, as runs
`(lo, hi, stride, image of lo)`: a character `n` with `lo <= n <= hi` and
`n - lo` a multiple of `stride` is mapped to `image of lo + (n - lo)`.  These are
the simple lower-case mappings of the Unicode Character Database, version 14.0
(`U+0130` to `i`, `U+212A` to `k`, ...).  Go carries the table of the Unicode
version of its release; the mapping of a character is the same in all of
them. -/
def lowerRanges : List (Nat × Nat × Nat × Nat) :=
  [(192, 214, 1, 224), (216, 222, 1, 248), (256, 302, 2, 257), (304, 304, 1, 105),
   (306, 310, 2, 307), (313, 327, 2, 314), (330, 374, 2, 331), (376, 376, 1, 255),
   (377, 381, 2, 378), (385, 385, 1, 595), (386, 388, 2, 387), (390, 390, 1, 596),
   (391, 391, 1, 392), (393, 394, 1, 598), (395, 395, 1, 396), (398, 398, 1, 477),
   (399, 399, 1, 601), (400, 400, 1, 603), (401, 401, 1, 402), (403, 403, 1, 608),
   (404, 404, 1, 611), (406, 406, 1, 617), (407, 407, 1, 616), (408, 408, 1, 409),
   (412, 412, 1, 623), (413, 413, 1, 626), (415, 415, 1, 629), (416, 420, 2, 417),
   (422, 422, 1, 640), (423, 423, 1, 424), (425, 425, 1, 643), (428, 428, 1, 429),
   (430, 430, 1, 648), (431, 431, 1, 432), (433, 434, 1, 650), (435, 437, 2, 436),
   (439, 439, 1, 658), (440, 440, 1, 441), (444, 444, 1, 445), (452, 452, 1, 454),
   (453, 453, 1, 454), (455, 455, 1, 457), (456, 456, 1, 457), (458, 458, 1, 460),
   (459, 475, 2, 460), (478, 494, 2, 479), (497, 497, 1, 499), (498, 500, 2, 499),
   (502, 502, 1, 405), (503, 503, 1, 447), (504, 542, 2, 505), (544, 544, 1, 414),
   (546, 562, 2, 547), (570, 570, 1, 11365), (571, 571, 1, 572), (573, 573, 1, 410),
   (574, 574, 1, 11366), (577, 577, 1, 578), (579, 579, 1, 384), (580, 580, 1, 649),
   (581, 581, 1, 652), (582, 590, 2, 583), (880, 882, 2, 881), (886, 886, 1, 887),
   (895, 895, 1, 1011), (902, 902, 1, 940), (904, 906, 1, 941), (908, 908, 1, 972),
   (910, 911, 1, 973), (913, 929, 1, 945), (931, 939, 1, 963), (975, 975, 1, 983),
   (984, 1006, 2, 985), (1012, 1012, 1, 952), (1015, 1015, 1, 1016), (1017, 1017, 1, 1010),
   (1018, 1018, 1, 1019), (1021, 1023, 1, 891), (1024, 1039, 1, 1104), (1040, 1071, 1, 1072),
   (1120, 1152, 2, 1121), (1162, 1214, 2, 1163), (1216, 1216, 1, 1231), (1217, 1229, 2, 1218),
   (1232, 1326, 2, 1233), (1329, 1366, 1, 1377), (4256, 4293, 1, 11520), (4295, 4295, 1, 11559),
   (4301, 4301, 1, 11565), (5024, 5103, 1, 43888), (5104, 5109, 1, 5112), (7312, 7354, 1, 4304),
   (7357, 7359, 1, 4349), (7680, 7828, 2, 7681), (7838, 7838, 1, 223), (7840, 7934, 2, 7841),
   (7944, 7951, 1, 7936), (7960, 7965, 1, 7952), (7976, 7983, 1, 7968), (7992, 7999, 1, 7984),
   (8008, 8013, 1, 8000), (8025, 8031, 2, 8017), (8040, 8047, 1, 8032), (8072, 8079, 1, 8064),
   (8088, 8095, 1, 8080), (8104, 8111, 1, 8096), (8120, 8121, 1, 8112), (8122, 8123, 1, 8048),
   (8124, 8124, 1, 8115), (8136, 8139, 1, 8050), (8140, 8140, 1, 8131), (8152, 8153, 1, 8144),
   (8154, 8155, 1, 8054), (8168, 8169, 1, 8160), (8170, 8171, 1, 8058), (8172, 8172, 1, 8165),
   (8184, 8185, 1, 8056), (8186, 8187, 1, 8060), (8188, 8188, 1, 8179), (8486, 8486, 1, 969),
   (8490, 8490, 1, 107), (8491, 8491, 1, 229), (8498, 8498, 1, 8526), (8544, 8559, 1, 8560),
   (8579, 8579, 1, 8580), (9398, 9423, 1, 9424), (11264, 11311, 1, 11312),
   (11360, 11360, 1, 11361), (11362, 11362, 1, 619), (11363, 11363, 1, 7549),
   (11364, 11364, 1, 637), (11367, 11371, 2, 11368), (11373, 11373, 1, 593),
   (11374, 11374, 1, 625), (11375, 11375, 1, 592), (11376, 11376, 1, 594),
   (11378, 11378, 1, 11379), (11381, 11381, 1, 11382), (11390, 11391, 1, 575),
   (11392, 11490, 2, 11393), (11499, 11501, 2, 11500), (11506, 11506, 1, 11507),
   (42560, 42604, 2, 42561), (42624, 42650, 2, 42625), (42786, 42798, 2, 42787),
   (42802, 42862, 2, 42803), (42873, 42875, 2, 42874), (42877, 42877, 1, 7545),
   (42878, 42886, 2, 42879), (42891, 42891, 1, 42892), (42893, 42893, 1, 613),
   (42896, 42898, 2, 42897), (42902, 42920, 2, 42903), (42922, 42922, 1, 614),
   (42923, 42923, 1, 604), (42924, 42924, 1, 609), (42925, 42925, 1, 620), (42926, 42926, 1, 618),
   (42928, 42928, 1, 670), (42929, 42929, 1, 647), (42930, 42930, 1, 669),
   (42931, 42931, 1, 43859), (42932, 42946, 2, 42933), (42948, 42948, 1, 42900),
   (42949, 42949, 1, 642), (42950, 42950, 1, 7566), (42951, 42953, 2, 42952),
   (42960, 42960, 1, 42961), (42966, 42968, 2, 42967), (42997, 42997, 1, 42998),
   (65313, 65338, 1, 65345), (66560, 66599, 1, 66600), (66736, 66771, 1, 66776),
   (66928, 66964, 2, 66967), (66929, 66937, 2, 66968), (66941, 66953, 2, 66980),
   (66957, 66961, 2, 66996), (66965, 66965, 1, 67004), (68736, 68786, 1, 68800),
   (71840, 71871, 1, 71872), (93760, 93791, 1, 93792), (125184, 125217, 1, 125218)]

/-- The function `unicode.ToLower`: `A`-`Z` to `a`-`z` in ASCII, the table
above elsewhere, every other character unchanged. -/
def lowerRune (c : Char) : Char :=
  if c.toNat < 128 then c.toLower
  else
    match lowerRanges.find? (fun r =>
      decide (r.1 ≤ c.toNat) && decide (c.toNat ≤ r.2.1) && (c.toNat - r.1) % r.2.2.1 == 0) with
    | some r => Char.ofNat (r.2.2.2 + (c.toNat - r.1))
    | none => c

/-- The function `strings.ToLower`: `unicode.ToLower` on every character.  A Lean
string is a sequence of Unicode scalar values, so a Go string that is not valid
UTF-8 is outside the model. -/
def ToLower (s : String) : String :=
  String.mk (s.data.map lowerRune)

/-! ## The agent registry, modules and the job queue -/

/-- The part of an `agents.agent` record the console reads. -/
structure Agent where
  Platform : String
  ID : UUID
deriving DecidableEq

/-- The map `agents.Agents`, as the sequence of entries in the order one
`range` loop visits them.  In a map every key occurs once: see `Registry.WF`. -/
abbrev Registry := List (UUID × Agent)

/-- Keys of a map are pairwise distinct. -/
def Registry.WF (reg : Registry) : Prop := (reg.map Prod.fst).Nodup

instance (reg : Registry) : Decidable reg.WF := by
  unfold Registry.WF
  infer_instance

/-- The fields of `modules.Module` read by `cli.go`: those of the `run` command,
and `Path` of the `reload` command. -/
structure Module where
  Name : String
  Agent : UUID
  Platform : String
  Type_ : String
  Path : List String := []

/-- The signature of `agents.AddJob(agentID, jobType, jobArgs)`: it returns a
job identifier and an error (`none` is `nil`) and may change the world. -/
abbrev AddJobFn (σ : Type) := σ → UUID → String → List String → (String × Option String) × σ

/-! ## Listeners and servers -/

/-- A `map[string]string` of listener options, as the sequence of its entries in
the order a `range` loop visits them. -/
abbrev Options := List (String × String)

/-- Modelled from the spec: the values `Server.Status()` reports.  The constants
`servers.SERVER_STATE_RUNNING`, `SERVER_STATE_STOPPED` and `SERVER_STATE_CLOSED`
are declared outside `cli.go`; `Configured` stands for every other value. -/
inductive ServerState
  | Configured
  | Running
  | Stopped
  | Closed
deriving DecidableEq, Repr

/-- What a non-nil `*listeners.Listener` points to: the fields the console
reads.  `Server` identifies the server instance behind the interface value. -/
structure Listener where
  Name : String
  ID : UUID
  Description : String
  Server : Nat
deriving DecidableEq

/-! ## Messages and events -/

/-- One argument of a `fmt.Sprintf` call. -/
inductive Arg
  | str (s : String)
  | uuid (u : UUID)
  /-- The expression `time.Now().UTC().Format(time.RFC3339)`. -/
  | now
  /-- An integer printed with `%d`. -/
  | int (n : Int)
deriving DecidableEq

/-- The text handed to `message`: a string expression, or a `fmt.Sprintf` call
kept as format and arguments (the clock has no value in the model). -/
inductive Text
  | lit (s : String)
  | Sprintf (format : String) (args : List Arg)
deriving DecidableEq

/-- What a command handler does that the outside can see. -/
inductive Event
  /-- A call `message(level, text)`. -/
  | message (level : String) (text : Text)
  /-- A call `agents.AddJob(agentID, jobType, jobArgs)`. -/
  | AddJob (agentID : UUID) (jobType : String) (jobArgs : List String)
  /-- A call `agents.RemoveAgent(agentID)`. -/
  | RemoveAgent (agentID : UUID)
  /-- A call `listeners.Remove(name)`. -/
  | Remove (name : String)
  /-- A call `listeners.New(options)`; `none` is the nil map. -/
  | New (options : Option Options)
  /-- A call `l.Restart(options)`. -/
  | Restart (l : Listener) (options : Option Options)
  /-- A call `l.SetOption(key, value)`. -/
  | SetOption (l : Listener) (key : String) (value : String)
  /-- A call `Server.Start()` on the server with this identity. -/
  | ServerStart (server : Nat)
  /-- A call `Server.Stop()` on the server with this identity. -/
  | ServerStop (server : Nat)
  /-- The command `exec.Command(name, arg...)` run on the host. -/
  | executeCommand (name : String) (arg : List String)
  /-- A table rendered on the console. -/
  | table (header : List String) (rows : List (List String))
  /-- One of the help menus, named by its caption. -/
  | help (caption : String)
  /-- The call `exit()`: the process ends. -/
  | exit
  /-- A run-time panic: the process ends. -/
  | panic (reason : String)
  /-- A call `shellcode.Parse(options)`. -/
  | Parse (options : Options)
  /-- A call of another function outside `cli.go`, named with its package. -/
  | call (function : String) (args : List String)
  /-- Text written to the console without `message` (`color.Blue` and the like). -/
  | print (text : Text)
deriving DecidableEq

/-- The note `Created job %s for agent %s at %s`. -/
def createdJob (m : String) (id : UUID) : Event :=
  .message "note" (.Sprintf "Created job %s for agent %s at %s" [.str m, .uuid id, .now])

/-- The note emitted for an agent whose platform differs from the module's. -/
def skippingJob (modulePlatform : String) (id : UUID) (agentPlatform : String) : Event :=
  .message "note"
    (.Sprintf "Module platform %s does not match agent %s platform %s. Skipping job..."
      [.str modulePlatform, .uuid id, .str agentPlatform])

/-- The warning of the `default` case of the module-type switch. -/
def invalidModuleType (ty : String) : Event :=
  .message "warn" (.Sprintf "Invalid module type: %s" [.str ty])

/-- The first of the two warnings emitted when `AddJob` returned an error. -/
def addJobFailed : Event :=
  .message "warn" (.lit "There was an error adding the job to the specified agent")

/-- The warning of the broadcast branch when the registry is empty. -/
def noAgents : Event :=
  .message "warn" (.lit "there are 0 available agents, no jobs were created")

/-- The warning emitted when `Run` returned no command. -/
def noCommand (name : String) : Event :=
  .message "warn"
    (.Sprintf "The %s module did not return a command to task an agent with" [.str name])

/-! ## The module menu: `run` (cli.go, lines 221-279) -/

/-- The variables `m` and `err` of the `run` case, and the world. -/
structure Vars (σ : Type) where
  world : σ
  m : String
  err : Option String

/-- The type switch on `strings.ToLower(shellModule.Type)` (lines 246-253 and
264-271) for the run result `r0 :: rs`, where `r[0] = r0` and `r[1:] = rs`:
`standard` and `extended` assign `m, err` from `AddJob`; the `default` case
warns and assigns nothing. -/
def typeSwitch {σ : Type} (AddJob : AddJobFn σ) (ty : String) (id : UUID)
    (r0 : String) (rs : List String) (v : Vars σ) : Vars σ × List Event :=
  if ToLower ty = "standard" then
    let res := AddJob v.world id "cmd" (r0 :: rs)
    ({ world := res.2, m := res.1.1, err := res.1.2 }, [Event.AddJob id "cmd" (r0 :: rs)])
  else if ToLower ty = "extended" then
    let res := AddJob v.world id r0 rs
    ({ world := res.2, m := res.1.1, err := res.1.2 }, [Event.AddJob id r0 rs])
  else
    (v, [invalidModuleType ty])

/-- The report after the switch (lines 254-260 and 272-278): two warnings when
`err != nil`, the `Created job` note otherwise. -/
def report {σ : Type} (id : UUID) (v : Vars σ) : List Event :=
  match v.err with
  | some e => [addJobFailed, .message "warn" (.lit e)]
  | none => [createdJob v.m id]

/-- One submission: the type switch followed by the report. -/
def submit {σ : Type} (AddJob : AddJobFn σ) (ty : String) (id : UUID)
    (r0 : String) (rs : List String) (v : Vars σ) : Vars σ × List Event :=
  let sw := typeSwitch AddJob ty id r0 rs v
  (sw.1, sw.2 ++ report id sw.1)

/-- The loop `for id := range agents.Agents` (lines 240-261): an agent of
another platform is skipped with a note (`continue`), every other agent gets
one submission.  `m` and `err` live across iterations. -/
def broadcastLoop {σ : Type} (AddJob : AddJobFn σ) (mod : Module)
    (r0 : String) (rs : List String) : Registry → Vars σ → Vars σ × List Event
  | [], v => (v, [])
  | (id, a) :: rest, v =>
    if ToLower a.Platform ≠ ToLower mod.Platform then
      let tl := broadcastLoop AddJob mod r0 rs rest v
      (tl.1, skippingJob mod.Platform id a.Platform :: tl.2)
    else
      let hd := submit AddJob mod.Type_ id r0 rs v
      let tl := broadcastLoop AddJob mod r0 rs rest hd.1
      (tl.1, hd.2 ++ tl.2)

/-- The test of line 235: the module's target is the all-agents sentinel. -/
def isBroadcast (mod : Module) : Bool :=
  ToLower mod.Agent.String = "ffffffff-ffff-ffff-ffff-ffffffffffff"

/-- The `run` command of the module menu.  `runResult` is what
`shellModule.Run()` returned, `agentsMap` is `agents.Agents`; the result is the
world after the command and the events in order. -/
def moduleRun {σ : Type} (AddJob : AddJobFn σ) (mod : Module)
    (runResult : List String × Option String) (agentsMap : Registry) (w : σ) :
    σ × List Event :=
  match runResult.2 with
  | some e => (w, [.message "warn" (.lit e)])
  | none =>
    match runResult.1 with
    | [] => (w, [noCommand mod.Name])
    | r0 :: rs =>
      if isBroadcast mod then
        if agentsMap.length ≤ 0 then
          (w, [noAgents])
        else
          let res := broadcastLoop AddJob mod r0 rs agentsMap { world := w, m := "", err := none }
          (res.1.world, res.2)
      else
        let res := submit AddJob mod.Type_ mod.Agent r0 rs { world := w, m := "", err := none }
        (res.1.world, res.2)

/-! ## The agent menu: `set` (cli.go, lines 493-566) -/

/-- The two kinds of `strconv.NumError` cause. -/
inductive NumError
  | ErrSyntax
  | ErrRange
deriving DecidableEq, Repr

/-- The digit loop of `strconv.ParseUint(s, 10, 64)`: a character that is not a
decimal digit is a syntax error; `n >= cutoff` (`cutoff = maxUint64/10 + 1`)
and a sum that wraps around or exceeds `maxVal` are range errors with value
`maxVal`.  Unsigned 64-bit arithmetic is explicit. -/
def parseUintLoop : List Char → Nat → Nat × Option NumError
  | [], n => (n, none)
  | c :: cs, n =>
    if 48 ≤ c.toNat ∧ c.toNat ≤ 57 then
      if n ≥ 1844674407370955162 then (2 ^ 64 - 1, some .ErrRange)
      else
        let n10 := n * 10 % 2 ^ 64
        let n1 := (n10 + (c.toNat - 48)) % 2 ^ 64
        if n1 < n10 ∨ n1 > 2 ^ 64 - 1 then (2 ^ 64 - 1, some .ErrRange)
        else parseUintLoop cs n1
    else (0, some .ErrSyntax)

/-- The function `strconv.ParseUint(s, 10, 64)`: the empty string is a syntax
error. -/
def ParseUint (s : List Char) : Nat × Option NumError :=
  match s with
  | [] => (0, some .ErrSyntax)
  | _ => parseUintLoop s 0

/-- The function `strconv.ParseInt(s, 10, 64)`: an optional sign, then
`ParseUint`; a syntax error is passed on, a magnitude of `1 << 63` or more
(more than `1 << 63` after a minus sign) is a range error. -/
def ParseInt (s : String) : Int × Option NumError :=
  match s.data with
  | [] => (0, some .ErrSyntax)
  | c :: cs =>
    let neg : Bool := c = '-'
    let rest := if c = '+' ∨ c = '-' then cs else c :: cs
    let un := ParseUint rest
    if un.2 = some .ErrSyntax then (0, some .ErrSyntax)
    else if !neg && un.1 ≥ 2 ^ 63 then (2 ^ 63 - 1, some .ErrRange)
    else if neg && un.1 > 2 ^ 63 then (-(2 ^ 63), some .ErrRange)
    else (if neg then -(un.1 : Int) else (un.1 : Int), none)

/-- The pattern shared by the `set` cases: `m, err := agents.AddJob(shellAgent,
jobType, cmd[1:])`, then a warning built by `onError` from `err.Error()` or the
`Created job` note. -/
def addJobAndReport {σ : Type} (AddJob : AddJobFn σ) (shellAgent : UUID) (jobType : String)
    (jobArgs : List String) (onError : String → Text) (w : σ) : σ × List Event :=
  let res := AddJob w shellAgent jobType jobArgs
  (res.2, Event.AddJob shellAgent jobType jobArgs ::
    (match res.1.2 with
     | some e => [Event.message "warn" (onError e)]
     | none => [createdJob res.1.1 shellAgent]))

/-- The `set` command of the agent menu, for the tokenised line `cmd` with
`cmd[0] = "set"`.  Only `killdate` parses its value before the job is added. -/
def agentSet {σ : Type} (AddJob : AddJobFn σ) (shellAgent : UUID) (cmd : List String) (w : σ) :
    σ × List Event :=
  match cmd with
  | _ :: p :: args =>
    if p = "ja3" then
      if 0 < args.length then
        addJobAndReport AddJob shellAgent "ja3" (p :: args)
          (fun e => .Sprintf "there was an error creating a job for the JA3 signature:\r\n%s"
            [.str e]) w
      else (w, [])
    else if p = "killdate" then
      match args with
      | v :: _ =>
        if (ParseInt v).2 ≠ none then
          (w, [.message "warn" (.Sprintf "There was an error converting %s to an int64" [.str v]),
               .message "info" (.lit ("Kill date takes in a UNIX epoch timestamp such as" ++
                 " 811123200 for September 15, 1995"))])
        else
          addJobAndReport AddJob shellAgent "killdate" (p :: args)
            (fun e => .Sprintf
              "There was an error adding a killdate agent control message:\r\n%s" [.str e]) w
      | [] => (w, [])
    else if p = "maxretry" then
      if 0 < args.length then addJobAndReport AddJob shellAgent "maxretry" (p :: args) .lit w
      else (w, [])
    else if p = "padding" then
      if 0 < args.length then addJobAndReport AddJob shellAgent "padding" (p :: args) .lit w
      else (w, [])
    else if p = "sleep" then
      if 0 < args.length then addJobAndReport AddJob shellAgent "sleep" (p :: args) .lit w
      else (w, [])
    else if p = "skew" then
      if 0 < args.length then addJobAndReport AddJob shellAgent "skew" (p :: args) .lit w
      else (w, [])
    else (w, [])
  | _ => (w, [])

/-! ## The agent menu: `cmd` and `shell` (cli.go, lines 315-324 and 567-576) -/

/-- The `cmd` command of the agent menu for the tokenised line `cmd`: with
`len(cmd) > 1` the job `("cmd", cmd[1:])` is added to the current agent. -/
def agentCmd {σ : Type} (AddJob : AddJobFn σ) (shellAgent : UUID) (cmd : List String) (w : σ) :
    σ × List Event :=
  match cmd with
  | _ :: a :: args =>
    let res := AddJob w shellAgent "cmd" (a :: args)
    (res.2, Event.AddJob shellAgent "cmd" (a :: args) ::
      (match res.1.2 with
       | some e => [Event.message "warn" (.lit e)]
       | none => [createdJob res.1.1 shellAgent]))
  | _ => (w, [])

/-- The `shell` command of the agent menu for the tokenised line `cmd`. -/
def agentShell {σ : Type} (AddJob : AddJobFn σ) (shellAgent : UUID) (cmd : List String) (w : σ) :
    σ × List Event :=
  match cmd with
  | _ :: a :: args =>
    let res := AddJob w shellAgent "cmd" (a :: args)
    (res.2, Event.AddJob shellAgent "cmd" (a :: args) ::
      (match res.1.2 with
       | some e => [Event.message "warn" (.lit e)]
       | none => [createdJob res.1.1 shellAgent]))
  | _ => (w, [])

/-! ## Console input: `confirm` (cli.go, lines 1458-1476) -/

/-- The function `strings.Join(elems, sep)`. -/
def Join : List String → String → String
  | [], _ => ""
  | [a], _ => a
  | a :: b :: rest, sep => a ++ sep ++ Join (b :: rest) sep

/-- The function `strings.Trim(s, cutset)`: the leading and the trailing
characters that occur in `cutset` are removed. -/
def Trim (s : String) (cutset : String) : String :=
  String.mk (((s.data.dropWhile fun c => cutset.data.contains c).reverse.dropWhile
    fun c => cutset.data.contains c).reverse)

/-- The function `confirm`, for what `reader.ReadString` returned: the line read
and the read error.  A read error is reported and the line is used all the same.
The result is the answer and the messages. -/
def confirm (stdin : String × Option String) : Bool × List Event :=
  let warned : List Event :=
    match stdin.2 with
    | some e =>
      [.message "warn" (.Sprintf "There was an error reading the input:\r\n%s" [.str e])]
    | none => []
  let response := Trim (ToLower stdin.1) "\r\n"
  ((["y", "yes", "-y", "-Y"].any fun m => decide (response = m)), warned)

/-! ## The console state -/

/-- The global variables of `cli.go` the handlers below read and write.
`shellListener` is a pointer: `none` is nil.  `shellListenerOptions` is a map:
`none` is the nil map.  The prompt and the completer are not modelled. -/
structure Shell where
  shellMenuContext : String
  shellAgent : UUID
  shellListener : Option Listener
  shellListenerOptions : Option Options
deriving DecidableEq

/-- What a handler leaves behind: the console state, the world and the events in
order.  After an `exit` or `panic` event nothing else happens. -/
structure Outcome (σ : Type) where
  shell : Shell
  world : σ
  out : List Event

/-- The panic of a field access or method call through a nil pointer. -/
def nilDereference : Event := .panic "invalid memory address or nil pointer dereference"

/-- The panic of an index expression outside the slice. -/
def indexOutOfRange : Event := .panic "index out of range"

/-- The panic of an assignment into a nil map. -/
def nilMapAssignment : Event := .panic "assignment to entry in nil map"

/-- The statement `if err != nil { message("warn", err.Error()) }`. -/
def errorWarning (err : Option String) : List Event :=
  match err with
  | some e => [.message "warn" (.lit e)]
  | none => []

/-- The function `menuSetMain`. -/
def menuSetMain (sh : Shell) : Shell := { sh with shellMenuContext := "main" }

/-- The `exit` and `quit` cases of every menu: `exit()` at once when `cmd[1]`
lower-cases to `-y`, otherwise after `confirm`. -/
def exitCommand (args : List String) (stdin : String × Option String) : List Event :=
  let ask := confirm stdin
  match args with
  | a :: _ => if ToLower a = "-y" then [.exit] else ask.2 ++ (if ask.1 then [.exit] else [])
  | [] => ask.2 ++ (if ask.1 then [.exit] else [])

/-! ## The agent menu: `execute-shellcode` (cli.go, lines 348-410) -/

/-- The two messages of a method that needs a process identifier and got no
shellcode after it. -/
def notEnoughArguments (usage : String) : List Event :=
  [.message "warn" (.lit "Not enough arguments. Try using the help command"),
   .message "info" (.lit usage)]

/-- The switch on `strings.ToLower(cmd[1])` (lines 351-388) for
`cmd[2] = a1` and `cmd[3:] = rest`: the options map it fills, as the entries
`method`, `pid`, `shellcode`, and the messages it emits.  The map stays empty
for an unknown method and for a method that lacks its shellcode. -/
def shellcodeSwitch (m : String) (a1 : String) (rest : List String) : Options × List Event :=
  if ToLower m = "self" then
    ([("method", "self"), ("pid", ""), ("shellcode", Join (a1 :: rest) " ")], [])
  else if ToLower m = "remote" then
    if 0 < rest.length then
      ([("method", "remote"), ("pid", a1), ("shellcode", Join rest " ")], [])
    else ([], notEnoughArguments "execute-shellcode remote <pid> <shellcode>")
  else if ToLower m = "rtlcreateuserthread" then
    if 0 < rest.length then
      ([("method", "rtlcreateuserthread"), ("pid", a1), ("shellcode", Join rest " ")], [])
    else ([], notEnoughArguments "execute-shellcode RtlCreateUserThread <pid> <shellcode>")
  else if ToLower m = "userapc" then
    if 0 < rest.length then
      ([("method", "userapc"), ("pid", a1), ("shellcode", Join rest " ")], [])
    else ([], notEnoughArguments "execute-shellcode UserAPC <pid> <shellcode>")
  else ([], [.message "warn" (.lit "invalid method provided")])

/-- The `execute-shellcode` command of the agent menu for the tokenised line
`cmd`.  `ShellcodeParse` is `shellcode.Parse`, a function of another package.
With a non-empty options map it is called; on success the job
`(sh[0], sh[1:])` is added to the current agent. -/
def agentExecuteShellcode {σ : Type} (ShellcodeParse : σ → Options → List String × Option String)
    (AddJob : AddJobFn σ) (shellAgent : UUID) (cmd : List String) (w : σ) : σ × List Event :=
  match cmd with
  | _ :: m :: a1 :: rest =>
    let built := shellcodeSwitch m a1 rest
    if 0 < built.1.length then
      let res := ShellcodeParse w built.1
      match res.2 with
      | some e =>
        (w, built.2 ++ [Event.Parse built.1, Event.message "warn"
          (.Sprintf "there was an error parsing the shellcode:\r\n%s" [.str e])])
      | none =>
        match res.1 with
        | [] => (w, built.2 ++ [Event.Parse built.1, indexOutOfRange])
        | s0 :: srest =>
          let job := AddJob w shellAgent s0 srest
          (job.2, built.2 ++ [Event.Parse built.1, Event.AddJob shellAgent s0 srest,
            (match job.1.2 with
             | some e => Event.message "warn" (.lit e)
             | none => createdJob job.1.1 shellAgent)])
    else (w, built.2)
  | _ =>
    (w, [.message "warn" (.lit "not enough arguments were provided"),
         .message "info" (.lit "execute-shellcode self <shellcode>"),
         .message "info" (.lit "execute-shellcode remote <pid> <shellcode>"),
         .message "info" (.lit "execute-shellcode RtlCreateUserThread <pid> <shellcode>")])

/-! ## The main menu: `agent` and `interact` (cli.go, lines 115-118, 135-140, 651-710) -/

/-- The functions of other packages that `menuAgent` calls: `uuid.FromString`
(`none` is an error) and `agents.RemoveAgent`. -/
structure AgentsAPI (σ : Type) where
  FromString : String → Option UUID
  RemoveAgent : σ → UUID → Option String × σ

/-- The function `menuSetAgent`: every entry of `agents.Agents` whose `ID` field
equals `agentID` makes it the current agent and enters the agent menu. -/
def menuSetAgent (agentID : UUID) (agentsMap : Registry) (sh : Shell) : Shell :=
  agentsMap.foldl
    (fun s e =>
      if agentID = e.2.ID then { s with shellAgent := agentID, shellMenuContext := "agent" }
      else s)
    sh

/-- The function `menuAgent`.  Of the table of the `list` case only the header
and the identifier column are modelled. -/
def menuAgent {σ : Type} (api : AgentsAPI σ) (agentsMap : Registry) (cmd : List String)
    (sh : Shell) (w : σ) : Outcome σ :=
  match cmd with
  | [] => ⟨sh, w, [indexOutOfRange]⟩
  | cmd0 :: args =>
    if cmd0 = "list" then
      ⟨sh, w, [.table ["Agent GUID", "Platform", "User", "Host", "Transport", "Status"]
        (agentsMap.map fun e => [e.1.String])]⟩
    else if cmd0 = "interact" then
      match args with
      | s :: _ =>
        match api.FromString s with
        | none =>
          ⟨sh, w, [.message "warn"
            (.Sprintf "There was an error interacting with agent %s" [.str s])]⟩
        | some i => ⟨menuSetAgent i agentsMap sh, w, []⟩
      | [] => ⟨sh, w, []⟩
    else if cmd0 = "remove" then
      match args with
      | s :: _ =>
        match api.FromString s with
        | none =>
          ⟨sh, w, [.message "warn"
            (.Sprintf "There was an error interacting with agent %s" [.str s])]⟩
        | some i =>
          let res := api.RemoveAgent w i
          ⟨sh, res.2, Event.RemoveAgent i ::
            (match res.1 with
             | some e => [Event.message "warn" (.lit e)]
             | none => [Event.message "info"
                 (.Sprintf "Agent %s was removed from the server at %s" [.str s, .now])])⟩
      | [] => ⟨sh, w, []⟩
    else ⟨sh, w, []⟩

/-- The `agent` case of the main menu: `menuAgent(cmd[1:])` when `len(cmd) > 1`. -/
def mainAgent {σ : Type} (api : AgentsAPI σ) (agentsMap : Registry) (cmd : List String)
    (sh : Shell) (w : σ) : Outcome σ :=
  match cmd with
  | _ :: a :: args => menuAgent api agentsMap (a :: args) sh w
  | _ => ⟨sh, w, []⟩

/-- The `interact` case of the main menu: `menuAgent` on `interact` followed by
`cmd[1]` when `len(cmd) > 1`. -/
def mainInteract {σ : Type} (api : AgentsAPI σ) (agentsMap : Registry) (cmd : List String)
    (sh : Shell) (w : σ) : Outcome σ :=
  match cmd with
  | _ :: a :: _ => menuAgent api agentsMap ["interact", a] sh w
  | _ => ⟨sh, w, []⟩

/-! ## The listener menus (cli.go, lines 713-1078) -/

/-- The functions and methods of the packages `listeners` and `servers`, and
`exec`, that the listener menus call, over a world `σ`.  An error result `none`
is `nil`; a listener result `none` is the nil pointer; an options result `none`
is the nil map.  `GetProtocol` stands for
`servers.GetProtocol(Server.GetProtocol())`, and `CombinedOutput` for running
`exec.Command(name, arg...)`. -/
structure ListenersAPI (σ : Type) where
  Exists : σ → String → Bool
  GetListenerByName : σ → String → Option Listener × Option String
  Remove : σ → String → Option String × σ
  New : σ → Option Options → (Option Listener × Option String) × σ
  Restart : σ → Listener → Option Options → Option String × σ
  GetConfiguredOptions : σ → Listener → Option Options
  SetOption : σ → Listener → String → String → Option String × σ
  GetListenerTypes : List String
  GetListenerOptions : String → Option Options
  Listeners : σ → List Listener
  Status : σ → Nat → ServerState
  Start : σ → Nat → Option String × σ
  Stop : σ → Nat → Option String × σ
  GetInterface : σ → Nat → String
  GetPort : σ → Nat → Int
  GetProtocol : σ → Nat → String
  GetStateString : ServerState → String
  CombinedOutput : σ → String → List String → (String × Option String) × σ

/-- The goroutine `go func() { err := X.Server.Start(); if err != nil {
message("warn", err.Error()) } }()`, run at once: the model does not interleave
it with what follows. -/
def startServer {σ : Type} (api : ListenersAPI σ) (server : Nat) (w : σ) : σ × List Event :=
  let res := api.Start w server
  (res.2, Event.ServerStart server :: errorWarning res.1)

/-- The statement `err := l.Server.Stop()` with its report: a warning, or the
success message built from `format` and the listener's name. -/
def stopServer {σ : Type} (api : ListenersAPI σ) (l : Listener) (format : String) (w : σ) :
    σ × List Event :=
  let res := api.Stop w l.Server
  (res.2, Event.ServerStop l.Server ::
    (match res.1 with
     | some e => [Event.message "warn" (.lit e)]
     | none => [Event.message "success" (.Sprintf format [.str l.Name])]))

/-- The `default` case of a menu: the line is run on the host with
`executeCommand`, which reports the error or the output. -/
def executeSystem {σ : Type} (api : ListenersAPI σ) (cmd0 : String) (args : List String)
    (w : σ) : σ × List Event :=
  let res := api.CombinedOutput w cmd0 args
  (res.2, [Event.message "info" (.lit "Executing system command..."),
    Event.executeCommand cmd0 args,
    (match res.1.2 with
     | some e => Event.message "warn" (.lit e)
     | none => Event.message "success" (.Sprintf "%s" [.str res.1.1]))])

/-- The rows of an options table. -/
def optionRows (options : Option Options) : List (List String) :=
  (options.getD []).map fun e => [e.1, e.2]

/-- The assignment `m[k] = v` on a map that is not nil. -/
def setKey (m : Options) (k : String) (v : String) : Options :=
  if m.any (fun e => decide (e.1 = k)) then m.map (fun e => if e.1 = k then (k, v) else e)
  else m ++ [(k, v)]

/-- The loop of the `set` case of `menuListener` over the option names
(lines 774-784). -/
def listenerSetLoop {σ : Type} (api : ListenersAPI σ) (l : Listener) (key : String)
    (v : String) : List String → σ → σ × List Event
  | [], w => (w, [])
  | k :: ks, w =>
    if key = k then
      let res := api.SetOption w l k v
      let tl := listenerSetLoop api l key v ks res.2
      (tl.1, Event.SetOption l k v ::
        (match res.1 with
         | some e => Event.message "warn" (.lit e)
         | none => Event.message "success" (.Sprintf "set %s to: %s" [.str k, .str v])) :: tl.2)
    else listenerSetLoop api l key v ks w

/-- The function `menuListener`, for the tokenised line `cmd` and the console
input `stdin` that `confirm` would read. -/
def menuListener {σ : Type} (api : ListenersAPI σ) (cmd : List String)
    (stdin : String × Option String) (sh : Shell) (w : σ) : Outcome σ :=
  match cmd with
  | [] => ⟨sh, w, [indexOutOfRange]⟩
  | cmd0 :: args =>
    let c := ToLower cmd0
    if c = "back" then ⟨{ sh with shellMenuContext := "listenersmain" }, w, []⟩
    else if c = "delete" then
      match sh.shellListener with
      | none => ⟨sh, w, [nilDereference]⟩
      | some l =>
        let name := l.Name
        let ask := confirm stdin
        if ask.1 then
          let res := api.Remove w l.Name
          ⟨{ sh with shellListener := none, shellListenerOptions := none,
                     shellMenuContext := "listenersmain" },
            res.2,
            ask.2 ++ Event.Remove l.Name :: errorWarning res.1 ++
              [Event.message "success" (.Sprintf "%s listener deleted" [.str name])]⟩
        else ⟨sh, w, ask.2⟩
    else if c = "exit" ∨ c = "quit" then ⟨sh, w, exitCommand args stdin⟩
    else if c = "help" then ⟨sh, w, [.help "Listener Help Menu"]⟩
    else if c = "info" ∨ c = "show" then
      match sh.shellListener with
      | none => ⟨sh, w, [nilDereference]⟩
      | some l =>
        ⟨sh, w, [Event.message "info" (.Sprintf "%s Listener Options" [.str l.Name]),
          Event.table ["Name", "Value"]
            (optionRows (api.GetConfiguredOptions w l) ++
              [["Status", api.GetStateString (api.Status w l.Server)]])]⟩
    else if c = "main" then ⟨menuSetMain sh, w, []⟩
    else if c = "restart" then
      match sh.shellListener with
      | none => ⟨sh, w, [nilDereference]⟩
      | some l =>
        let res := api.Restart w l sh.shellListenerOptions
        match res.1 with
        | some e => ⟨sh, res.2, [Event.Restart l sh.shellListenerOptions,
            Event.message "warn" (.lit e)]⟩
        | none =>
          let st := startServer api l.Server res.2
          ⟨sh, st.1, Event.Restart l sh.shellListenerOptions ::
            Event.message "success"
              (.Sprintf "%s listener was successfully restarted" [.str l.Name]) :: st.2⟩
    else if c = "set" then
      match args with
      | key :: vs =>
        match sh.shellListener with
        | none => ⟨sh, w, [nilDereference]⟩
        | some l =>
          let res := listenerSetLoop api l key (Join vs " ")
            ((api.GetConfiguredOptions w l).getD [] |>.map Prod.fst) w
          ⟨sh, res.1, res.2⟩
      | [] => ⟨sh, w, []⟩
    else if c = "start" then
      match sh.shellListener with
      | none => ⟨sh, w, [nilDereference]⟩
      | some l =>
        match api.Status w l.Server with
        | .Running => ⟨sh, w, [Event.message "note" (.lit "the server is already running")]⟩
        | .Closed | .Stopped =>
          let res := api.Restart w l sh.shellListenerOptions
          let st := startServer api l.Server res.2
          ⟨sh, st.1, Event.Restart l sh.shellListenerOptions :: errorWarning res.1 ++
            Event.message "success"
              (.Sprintf "%s listener was successfully restarted" [.str l.Name]) :: st.2⟩
        | _ =>
          ⟨sh, w, [Event.message "warn" (.Sprintf "unhandled server status: %s"
            [.str (api.GetStateString (api.Status w l.Server))])]⟩
    else if c = "status" then
      match sh.shellListener with
      | none => ⟨sh, w, [nilDereference]⟩
      | some l =>
        ⟨sh, w, [Event.message "info" (.lit (api.GetStateString (api.Status w l.Server)))]⟩
    else if c = "stop" then
      match sh.shellListener with
      | none => ⟨sh, w, [nilDereference]⟩
      | some l =>
        if api.Status w l.Server = .Running then
          let res := stopServer api l "%s listener was stopped" w
          ⟨sh, res.1, res.2⟩
        else ⟨sh, w, [Event.message "note" (.lit "this listener is not running")]⟩
    else
      let res := executeSystem api cmd0 args w
      ⟨sh, res.1, res.2⟩

/-- The body shared by the listeners-menu `delete` case once the name exists
(lines 844-854): after `confirm`, `listeners.Remove(name)`, a warning on error,
then the success message and the reset of the current listener. -/
def deleteNamed {σ : Type} (api : ListenersAPI σ) (name : String)
    (stdin : String × Option String) (sh : Shell) (w : σ) : Outcome σ :=
  let ask := confirm stdin
  if ask.1 then
    let res := api.Remove w name
    ⟨{ sh with shellListener := none, shellListenerOptions := none,
               shellMenuContext := "listenersmain" },
      res.2,
      ask.2 ++ Event.Remove name :: errorWarning res.1 ++
        [Event.message "success" (.Sprintf "%s listener deleted" [.str name])]⟩
  else ⟨sh, w, ask.2⟩

/-- The loop of the `use` case of `menuListeners` over the listener types
(lines 974-982), for `cmd[1] = proto`. -/
def useLoop {σ : Type} (api : ListenersAPI σ) (proto : String) :
    List String → Shell → Shell × List Event
  | [], sh => (sh, [])
  | v :: vs, sh =>
    if ToLower proto = v then
      match api.GetListenerOptions proto with
      | none => ({ sh with shellListenerOptions := none }, [nilMapAssignment])
      | some m =>
        useLoop api proto vs
          { sh with shellListenerOptions := some (setKey m "Protocol" (ToLower proto)),
                    shellMenuContext := "listenersetup" }
    else useLoop api proto vs sh

/-- The function `menuListeners`, for the tokenised line `cmd` and the console
input `stdin` that `confirm` would read. -/
def menuListeners {σ : Type} (api : ListenersAPI σ) (cmd : List String)
    (stdin : String × Option String) (sh : Shell) (w : σ) : Outcome σ :=
  match cmd with
  | [] => ⟨sh, w, [indexOutOfRange]⟩
  | cmd0 :: args =>
    let c := ToLower cmd0
    if c = "exit" ∨ c = "quit" then ⟨sh, w, exitCommand args stdin⟩
    else if c = "delete" then
      if 0 < args.length then
        if api.Exists w (Join args " ") then deleteNamed api (Join args " ") stdin sh w
        else ⟨sh, w, []⟩
      else ⟨sh, w, []⟩
    else if c = "help" then ⟨sh, w, [.help "Listeners Help Menu"]⟩
    else if c = "info" then
      if 0 < args.length then
        match api.GetListenerByName w (Join args " ") with
        | (_, some e) => ⟨sh, w, [Event.message "warn" (.lit e)]⟩
        | (none, none) => ⟨sh, w, [nilDereference]⟩
        | (some t, none) =>
          ⟨sh, w, [Event.message "info" (.Sprintf "%s Listener Options" [.str (Join args " ")]),
            Event.table ["Name", "Value"] (optionRows (api.GetConfiguredOptions w t))]⟩
      else ⟨sh, w, []⟩
    else if c = "interact" then
      if 0 < args.length then
        if api.Exists w (Join args " ") then
          let got := api.GetListenerByName w (Join args " ")
          match got.1 with
          | none => ⟨{ sh with shellListener := none }, w, errorWarning got.2 ++ [nilDereference]⟩
          | some l =>
            ⟨{ sh with shellListener := some l,
                       shellListenerOptions := api.GetConfiguredOptions w l,
                       shellMenuContext := "listener" },
              w, errorWarning got.2⟩
        else
          ⟨sh, w, [Event.message "warn"
            (.Sprintf "invalid listener name: %s" [.str (Join args " ")])]⟩
      else ⟨sh, w, [Event.message "note" (.lit "you must select a listener to interact with")]⟩
    else if c = "list" then
      ⟨sh, w, [Event.table ["Name", "Interface", "Port", "Protocol", "Status", "Description"]
        ((api.Listeners w).map fun v =>
          [v.Name, api.GetInterface w v.Server, toString (api.GetPort w v.Server),
           api.GetProtocol w v.Server, api.GetStateString (api.Status w v.Server),
           v.Description])]⟩
    else if c = "main" ∨ c = "back" then ⟨menuSetMain sh, w, []⟩
    else if c = "start" then
      if 0 < args.length then
        match api.GetListenerByName w (Join args " ") with
        | (_, some e) => ⟨sh, w, [Event.message "warn" (.lit e)]⟩
        | (none, none) => ⟨sh, w, [nilDereference]⟩
        | (some t, none) =>
          match api.Status w t.Server with
          | .Running =>
            match sh.shellListener with
            | none => ⟨sh, w, [nilDereference]⟩
            | some cur =>
              ⟨sh, w, [Event.message "note"
                (.Sprintf "%s listener already running" [.str cur.Name])]⟩
          | .Stopped =>
            match sh.shellListener with
            | none => ⟨sh, w, [nilDereference]⟩
            | some cur =>
              let st := startServer api t.Server w
              ⟨sh, st.1, Event.message "success"
                (.Sprintf "%s listener was successfully started" [.str cur.Name]) :: st.2⟩
          | .Closed =>
            let res := api.Restart w t (api.GetConfiguredOptions w t)
            match sh.shellListener with
            | none =>
              ⟨sh, res.2, Event.Restart t (api.GetConfiguredOptions w t) ::
                errorWarning res.1 ++ [nilDereference]⟩
            | some cur =>
              let st := startServer api cur.Server res.2
              ⟨sh, st.1, Event.Restart t (api.GetConfiguredOptions w t) ::
                errorWarning res.1 ++
                Event.message "success"
                  (.Sprintf "%s listener was successfully started" [.str cur.Name]) :: st.2⟩
          | _ =>
            ⟨sh, w, [Event.message "warn" (.Sprintf "Server is in an unhandled state: %s"
              [.str (api.GetStateString (api.Status w t.Server))])]⟩
      else ⟨sh, w, []⟩
    else if c = "stop" then
      if 0 < args.length then
        let got := api.GetListenerByName w (Join args " ")
        match got.1 with
        | none => ⟨sh, w, errorWarning got.2 ++ [nilDereference]⟩
        | some l =>
          match api.Status w l.Server with
          | .Stopped =>
            ⟨sh, w, errorWarning got.2 ++
              [Event.message "note" (.Sprintf "%s listener is not running" [.str l.Name])]⟩
          | .Running =>
            let res := stopServer api l "%s listener stopped" w
            ⟨sh, res.1, errorWarning got.2 ++ res.2⟩
          | _ =>
            ⟨sh, w, errorWarning got.2 ++
              [Event.message "warn" (.Sprintf "Server is in an unhandled state: %s"
                [.str (api.GetStateString (api.Status w l.Server))])]⟩
      else ⟨sh, w, []⟩
    else if c = "use" then
      match args with
      | proto :: _ =>
        let res := useLoop api proto api.GetListenerTypes sh
        ⟨res.1, w, res.2⟩
      | [] => ⟨sh, w, []⟩
    else
      let res := executeSystem api cmd0 args w
      ⟨sh, res.1, res.2⟩

/-- The loop of the `set` case of `menuListenerSetup` over the option names
(lines 1030-1035): the entry named `cmd[1]` is assigned and reported. -/
def setupSetLoop (key : String) (v : String) : List String → Options → Options × List Event
  | [], m => (m, [])
  | k :: ks, m =>
    if key = k then
      let tl := setupSetLoop key v ks (setKey m k v)
      (tl.1, Event.message "success" (.Sprintf "set %s to: %s" [.str k, .str v]) :: tl.2)
    else setupSetLoop key v ks m

/-- The function `menuListenerSetup`, for the tokenised line `cmd` and the
console input `stdin` that `confirm` would read. -/
def menuListenerSetup {σ : Type} (api : ListenersAPI σ) (cmd : List String)
    (stdin : String × Option String) (sh : Shell) (w : σ) : Outcome σ :=
  match cmd with
  | [] => ⟨sh, w, [indexOutOfRange]⟩
  | cmd0 :: args =>
    let c := ToLower cmd0
    if c = "back" then ⟨{ sh with shellMenuContext := "listenersmain" }, w, []⟩
    else if c = "exit" ∨ c = "quit" then ⟨sh, w, exitCommand args stdin⟩
    else if c = "help" then ⟨sh, w, [.help "Listener Setup Help Menu"]⟩
    else if c = "info" ∨ c = "show" then
      ⟨sh, w, [Event.message "info" (.lit "Listener Options"),
        Event.table ["Name", "Value"] (optionRows sh.shellListenerOptions)]⟩
    else if c = "main" then ⟨menuSetMain sh, w, []⟩
    else if c = "set" then
      match args, sh.shellListenerOptions with
      | key :: vs, some m =>
        let res := setupSetLoop key (Join vs " ") (m.map Prod.fst) m
        ⟨{ sh with shellListenerOptions := some res.1 }, w, res.2⟩
      | _, _ => ⟨sh, w, []⟩
    else if c = "start" ∨ c = "run" ∨ c = "execute" then
      let res := api.New w sh.shellListenerOptions
      match res.1.2 with
      | some e =>
        ⟨{ sh with shellListener := res.1.1 }, res.2,
          [Event.New sh.shellListenerOptions, Event.message "warn" (.lit e)]⟩
      | none =>
        match res.1.1 with
        | none =>
          ⟨{ sh with shellListener := none }, res.2,
            [Event.New sh.shellListenerOptions, nilDereference]⟩
        | some l =>
          let st := startServer api l.Server res.2
          ⟨{ sh with shellListener := some l }, st.1,
            Event.New sh.shellListenerOptions ::
            Event.message "success"
              (.Sprintf
                "%s s listener was created with an ID of: %s\r\nStarted %s listener on %s:%d"
                [.str l.Name, .uuid l.ID, .str (api.GetProtocol res.2 l.Server),
                 .str (api.GetInterface res.2 l.Server), .int (api.GetPort res.2 l.Server)]) ::
            st.2⟩
    else if c = "stop" then
      match sh.shellListener with
      | none => ⟨sh, w, [nilDereference]⟩
      | some l =>
        if api.Status w l.Server = .Running then
          let res := stopServer api l "%s listener was stopped" w
          ⟨sh, res.1, res.2⟩
        else ⟨sh, w, [Event.message "note" (.lit "this listener is not running")]⟩
    else
      let res := executeSystem api cmd0 args w
      ⟨sh, res.1, res.2⟩

/-! ## The main, module and agent menus, and one turn of `Shell`
(cli.go, lines 51-57, 89-649 and 1080-1099) -/

/-- The console state of the whole loop: the variables of `Shell` above and
`shellModule`. -/
structure Console where
  shell : Shell
  shellModule : Module

/-- What one turn of the loop leaves behind. -/
structure Step (σ : Type) where
  console : Console
  world : σ
  out : List Event

/-- The outcome of a handler that does not touch `shellModule`. -/
def Outcome.withModule {σ : Type} (o : Outcome σ) (m : Module) : Step σ :=
  ⟨⟨o.shell, m⟩, o.world, o.out⟩

/-- The functions of other packages that the main, module and agent menus call
besides those of `AgentsAPI` and `ListenersAPI`.  `Create` stands for
`modules.Create(path.Join(core.CurrentDir, "data", "modules", name+".json"))`;
`SetAgent`, `SetOption` and `Run` are the methods of `shellModule`, the first two
returning the module they leave behind; `Stat` is `os.Stat` (`none` is no
error); `Version` and `Banner` are constants. -/
structure ConsoleAPI (σ : Type) where
  AddJob : AddJobFn σ
  ShellwordsParse : String → List String × Option String
  Stat : σ → String → Option String
  ShellcodeParse : σ → Options → List String × Option String
  GetAgentStatus : σ → UUID → String
  Create : σ → String → Module × Option String
  SetAgent : Module → String → (String × Option String) × Module
  SetOption : Module → String → Option (List String) → (String × Option String) × Module
  Run : σ → Module → List String × Option String
  Version : String
  Banner : String

/-- The predicate `unicode.IsSpace`. -/
def isSpace (c : Char) : Bool :=
  [9, 10, 11, 12, 13, 32, 133, 160, 5760, 8232, 8233, 8239, 8287, 12288].contains c.toNat ||
    (8192 ≤ c.toNat && c.toNat ≤ 8202)

/-- The loop of `strings.Fields`: `cur` holds the characters of the field being
read, last first. -/
def fieldsLoop : List Char → List Char → List String
  | [], cur => if cur = [] then [] else [String.mk cur.reverse]
  | ch :: rest, cur =>
    if isSpace ch then
      if cur = [] then fieldsLoop rest [] else String.mk cur.reverse :: fieldsLoop rest []
    else fieldsLoop rest (ch :: cur)

/-- The function `strings.Fields`. -/
def Fields (s : String) : List String := fieldsLoop s.data []

/-- The function `strings.TrimSpace`. -/
def TrimSpace (s : String) : String :=
  String.mk ((s.data.dropWhile isSpace).reverse.dropWhile isSpace).reverse

/-- The function `strings.TrimSuffix`. -/
def TrimSuffix (s : String) (suffix : String) : String :=
  if suffix.data.isSuffixOf s.data then
    String.mk (s.data.take (s.data.length - suffix.data.length))
  else s

/-- The function `menuSetModule` (lines 1080-1093). -/
def menuSetModule {σ : Type} (capi : ConsoleAPI σ) (cmd : String) (c : Console) (w : σ) :
    Console × List Event :=
  if 0 < cmd.length then
    let res := capi.Create w cmd
    match res.2 with
    | some e => (c, [.call "modules.Create" [cmd], .message "warn" (.lit e)])
    | none =>
      (⟨{ c.shell with shellMenuContext := "module" }, res.1⟩, [.call "modules.Create" [cmd]])
  else (c, [])

/-- The function `menuUse` (lines 633-649). -/
def menuUse {σ : Type} (capi : ConsoleAPI σ) (cmd : List String) (c : Console) (w : σ) :
    Console × List Event :=
  match cmd with
  | [] => (c, [.print (.lit "[-]Invalid 'use' command")])
  | cmd0 :: args =>
    if cmd0 = "module" then
      match args with
      | name :: _ => menuSetModule capi name c w
      | [] => (c, [.message "warn" (.lit "Invalid module")])
    else if cmd0 = "" then (c, [])
    else (c, [.print (.lit "[-]Invalid 'use' command")])

/-- The `set` case of the main menu (lines 155-174), for `cmd[1:]`.  The flags
`core.Verbose` and `core.Debug` are recorded as calls. -/
def mainSet (args : List String) : List Event :=
  match args with
  | k :: v :: _ =>
    if k = "verbose" then
      if ToLower v = "true" then
        [.call "core.Verbose" ["true"], .message "success" (.lit "Verbose output enabled")]
      else if ToLower v = "false" then
        [.call "core.Verbose" ["false"], .message "success" (.lit "Verbose output disabled")]
      else []
    else if k = "debug" then
      if ToLower v = "true" then
        [.call "core.Debug" ["true"], .message "success" (.lit "Debug output enabled")]
      else if ToLower v = "false" then
        [.call "core.Debug" ["false"], .message "success" (.lit "Debug output disabled")]
      else []
    else []
  | _ => []

/-- The main menu (lines 113-187). -/
def mainMenu {σ : Type} (lapi : ListenersAPI σ) (aapi : AgentsAPI σ) (capi : ConsoleAPI σ)
    (agentsMap : Registry) (cmd : List String) (stdin : String × Option String)
    (c : Console) (w : σ) : Step σ :=
  match cmd with
  | [] => ⟨c, w, [indexOutOfRange]⟩
  | cmd0 :: args =>
    if cmd0 = "agent" then (mainAgent aapi agentsMap cmd c.shell w).withModule c.shellModule
    else if cmd0 = "banner" then
      ⟨c, w, [.print (.lit capi.Banner), .print (.Sprintf "\t\t   Version: %s" [.str capi.Version])]⟩
    else if cmd0 = "help" ∨ cmd0 = "?" then ⟨c, w, [.help "Main Menu Help"]⟩
    else if cmd0 = "exit" ∨ cmd0 = "quit" then ⟨c, w, exitCommand args stdin⟩
    else if cmd0 = "interact" then
      (mainInteract aapi agentsMap cmd c.shell w).withModule c.shellModule
    else if cmd0 = "listeners" then
      ⟨⟨{ c.shell with shellMenuContext := "listenersmain" }, c.shellModule⟩, w, []⟩
    else if cmd0 = "remove" then
      match args with
      | a :: _ => (menuAgent aapi agentsMap ["remove", a] c.shell w).withModule c.shellModule
      | [] => ⟨c, w, []⟩
    else if cmd0 = "sessions" then
      (menuAgent aapi agentsMap ["list"] c.shell w).withModule c.shellModule
    else if cmd0 = "set" then ⟨c, w, mainSet args⟩
    else if cmd0 = "use" then
      let res := menuUse capi args c w
      ⟨res.1, w, res.2⟩
    else if cmd0 = "version" then
      ⟨c, w, [.print (.Sprintf "Merlin version: %s" [.str capi.Version])]⟩
    else if cmd0 = "" then ⟨c, w, []⟩
    else
      let res := executeSystem lapi cmd0 args w
      ⟨c, res.1, res.2⟩

/-- The report of a `SetAgent` or `SetOption` call of the module menu. -/
def moduleReport (res : String × Option String) : Event :=
  match res.2 with
  | some e => .message "warn" (.lit e)
  | none => .message "success" (.lit res.1)

/-- The module menu (lines 188-310); its `run` case is `moduleRun`. -/
def moduleMenu {σ : Type} (lapi : ListenersAPI σ) (capi : ConsoleAPI σ)
    (agentsMap : Registry) (cmd : List String) (stdin : String × Option String)
    (c : Console) (w : σ) : Step σ :=
  match cmd with
  | [] => ⟨c, w, [indexOutOfRange]⟩
  | cmd0 :: args =>
    if cmd0 = "show" then
      match args with
      | a :: _ =>
        if a = "info" then ⟨c, w, [.call "shellModule.ShowInfo" []]⟩
        else if a = "options" then ⟨c, w, [.call "shellModule.ShowOptions" []]⟩
        else ⟨c, w, []⟩
      | [] => ⟨c, w, []⟩
    else if cmd0 = "info" then ⟨c, w, [.call "shellModule.ShowInfo" []]⟩
    else if cmd0 = "set" then
      match args with
      | k :: v :: vs =>
        let res :=
          if k = "Agent" then capi.SetAgent c.shellModule v
          else capi.SetOption c.shellModule k (some (v :: vs))
        ⟨⟨c.shell, res.2⟩, w, [moduleReport res.1]⟩
      | _ => ⟨c, w, []⟩
    else if cmd0 = "reload" then
      let res := menuSetModule capi (TrimSuffix (Join c.shellModule.Path "/") ".json") c w
      ⟨res.1, w, res.2⟩
    else if cmd0 = "run" then
      let res := moduleRun capi.AddJob c.shellModule (capi.Run w c.shellModule) agentsMap w
      ⟨c, res.1, res.2⟩
    else if cmd0 = "back" ∨ cmd0 = "main" then ⟨⟨menuSetMain c.shell, c.shellModule⟩, w, []⟩
    else if cmd0 = "exit" ∨ cmd0 = "quit" then ⟨c, w, exitCommand args stdin⟩
    else if cmd0 = "unset" then
      match args with
      | k :: _ =>
        let res := capi.SetOption c.shellModule k none
        ⟨⟨c.shell, res.2⟩, w, [moduleReport res.1]⟩
      | [] => ⟨c, w, []⟩
    else if cmd0 = "?" ∨ cmd0 = "help" then ⟨c, w, [.help "Module Menu Help"]⟩
    else
      let res := executeSystem lapi cmd0 args w
      ⟨c, res.1, res.2⟩

/-- The warning of the agent menu for a line `shellwords.Parse` rejects. -/
def parseWarning (line : String) (e : String) : Event :=
  .message "warn"
    (.Sprintf "There was an error parsing command line argments: %s\r\n%s" [.str line, .str e])

/-- The cases `ls` and `cd` of the agent menu (lines 435-478): with arguments the
job carries what `shellwords.Parse` makes of the whole line, without arguments
the tokens themselves under the job type `bare`. -/
def agentListing {σ : Type} (capi : ConsoleAPI σ) (jobType : String) (bare : String)
    (line : String) (cmd : List String) (shellAgent : UUID) (w : σ) : σ × List Event :=
  if 1 < cmd.length then
    let parsed := capi.ShellwordsParse (Join cmd " ")
    match parsed.2 with
    | some e => (w, [parseWarning line e])
    | none => addJobAndReport capi.AddJob shellAgent jobType parsed.1 .lit w
  else addJobAndReport capi.AddJob shellAgent bare cmd .lit w

/-- The case `download` of the agent menu (lines 325-347). -/
def agentDownload {σ : Type} (capi : ConsoleAPI σ) (line : String) (cmd : List String)
    (shellAgent : UUID) (w : σ) : σ × List Event :=
  if 2 ≤ cmd.length then
    let parsed := capi.ShellwordsParse (Join (cmd.drop 1) " ")
    match parsed.2 with
    | some e => (w, [parseWarning line e])
    | none =>
      if 1 ≤ parsed.1.length then
        addJobAndReport capi.AddJob shellAgent "download" (parsed.1.take 1) .lit w
      else (w, [])
  else
    (w, [.message "warn" (.lit "Invalid command"),
         .message "info" (.lit "download <remote_file_path>")])

/-- The case `upload` of the agent menu (lines 590-619). -/
def agentUpload {σ : Type} (capi : ConsoleAPI σ) (line : String) (cmd : List String)
    (shellAgent : UUID) (w : σ) : σ × List Event :=
  if 3 ≤ cmd.length then
    let parsed := capi.ShellwordsParse (Join (cmd.drop 1) " ")
    match parsed.2 with
    | some e => (w, [parseWarning line e])
    | none =>
      match parsed.1 with
      | src :: dst :: _ =>
        match capi.Stat w src with
        | some e =>
          (w, [.message "warn"
            (.Sprintf "There was an error accessing the source upload file:\r\n%s" [.str e])])
        | none => addJobAndReport capi.AddJob shellAgent "upload" [src, dst] .lit w
      | _ => (w, [])
  else
    (w, [.message "warn" (.lit "Invalid command"),
         .message "info" (.lit "upload local_file_path remote_file_path")])

/-- The agent menu (lines 311-626).  The colour of the `status` line is not
modelled. -/
def agentMenu {σ : Type} (lapi : ListenersAPI σ) (capi : ConsoleAPI σ)
    (line : String) (cmd : List String) (stdin : String × Option String)
    (c : Console) (w : σ) : Step σ :=
  match cmd with
  | [] => ⟨c, w, [indexOutOfRange]⟩
  | cmd0 :: args =>
    let id := c.shell.shellAgent
    let stay : σ × List Event → Step σ := fun res => ⟨c, res.1, res.2⟩
    if cmd0 = "back" then ⟨⟨menuSetMain c.shell, c.shellModule⟩, w, []⟩
    else if cmd0 = "cmd" then stay (agentCmd capi.AddJob id cmd w)
    else if cmd0 = "download" then stay (agentDownload capi line cmd id w)
    else if cmd0 = "execute-shellcode" then
      stay (agentExecuteShellcode capi.ShellcodeParse capi.AddJob id cmd w)
    else if cmd0 = "exit" ∨ cmd0 = "quit" then ⟨c, w, exitCommand args stdin⟩
    else if cmd0 = "?" ∨ cmd0 = "help" then ⟨c, w, [.help "Agent Help Menu"]⟩
    else if cmd0 = "info" then ⟨c, w, [.call "agents.ShowInfo" [id.String]]⟩
    else if cmd0 = "kill" then
      let res := addJobAndReport capi.AddJob id "kill" cmd .lit w
      ⟨⟨menuSetMain c.shell, c.shellModule⟩, res.1, res.2⟩
    else if cmd0 = "ls" then stay (agentListing capi "ls" cmd0 line cmd id w)
    else if cmd0 = "cd" then stay (agentListing capi "cd" "cd" line cmd id w)
    else if cmd0 = "pwd" then stay (addJobAndReport capi.AddJob id "pwd" cmd .lit w)
    else if cmd0 = "main" then ⟨⟨menuSetMain c.shell, c.shellModule⟩, w, []⟩
    else if cmd0 = "set" then stay (agentSet capi.AddJob id cmd w)
    else if cmd0 = "shell" then stay (agentShell capi.AddJob id cmd w)
    else if cmd0 = "status" then ⟨c, w, [.print (.lit (capi.GetAgentStatus w id))]⟩
    else if cmd0 = "upload" then stay (agentUpload capi line cmd id w)
    else
      let res := executeSystem lapi cmd0 args w
      ⟨c, res.1, res.2⟩

/-- The body of the loop of `Shell` after the line is read and tokenised (lines
105-628): `line` is the trimmed line and `cmd` its fields. -/
def shellStep {σ : Type} (lapi : ListenersAPI σ) (aapi : AgentsAPI σ) (capi : ConsoleAPI σ)
    (agentsMap : Registry) (line : String) (cmd : List String)
    (stdin : String × Option String) (c : Console) (w : σ) : Step σ :=
  if 0 < cmd.length then
    if c.shell.shellMenuContext = "listener" then
      (menuListener lapi cmd stdin c.shell w).withModule c.shellModule
    else if c.shell.shellMenuContext = "listenersmain" then
      (menuListeners lapi cmd stdin c.shell w).withModule c.shellModule
    else if c.shell.shellMenuContext = "listenersetup" then
      (menuListenerSetup lapi cmd stdin c.shell w).withModule c.shellModule
    else if c.shell.shellMenuContext = "main" then
      mainMenu lapi aapi capi agentsMap cmd stdin c w
    else if c.shell.shellMenuContext = "module" then
      moduleMenu lapi capi agentsMap cmd stdin c w
    else if c.shell.shellMenuContext = "agent" then
      agentMenu lapi capi line cmd stdin c w
    else ⟨c, w, []⟩
  else ⟨c, w, []⟩

/-- What the loop meets in one turn: the line read, the answer a `confirm` would
read, the registry `agents.Agents` and the world at that moment. -/
structure Input (σ : Type) where
  line : String
  stdin : String × Option String
  agentsMap : Registry
  world : σ

/-- One turn of the loop for a line read without error (lines 89-628). -/
def shellTurn {σ : Type} (lapi : ListenersAPI σ) (aapi : AgentsAPI σ) (capi : ConsoleAPI σ)
    (i : Input σ) (c : Console) : Step σ :=
  shellStep lapi aapi capi i.agentsMap (TrimSpace i.line) (Fields (TrimSpace i.line))
    i.stdin c i.world

/-- An `exit` or a panic: the process ends. -/
def Event.endsProcess : Event → Bool
  | .exit => true
  | .panic _ => true
  | _ => false

/-- The values of the global variables when `Shell` starts (lines 51-57): the
zero module, the zero identifier, no listener, the nil map, context `main`. -/
def initialConsole : Console :=
  ⟨⟨"main", ⟨List.replicate 16 0, rfl⟩, none, none⟩,
   { Name := "", Agent := ⟨List.replicate 16 0, rfl⟩, Platform := "", Type_ := "" }⟩

/-- The console state after the turns `inputs` from the state `c`; the world of
each turn is whatever the input says it is.  The turn in which the process ends
is the last one. -/
def runShell {σ : Type} (lapi : ListenersAPI σ) (aapi : AgentsAPI σ) (capi : ConsoleAPI σ) :
    List (Input σ) → Console → Console
  | [], c => c
  | i :: rest, c =>
    let s := shellTurn lapi aapi capi i c
    if s.out.any Event.endsProcess then s.console else runShell lapi aapi capi rest s.console

/-! ## Index and slice expressions (cli.go, lines 102-1078)

The functions below follow the control flow of `Shell` and of the menu handlers
and evaluate nothing but the length guards, the switches on the words of the
line, and the index and slice expressions over the tokenised line `cmd` and over
the result `r` of `shellModule.Run()`.  Each expression of the source is one
call of `indexAt` or `sliceAt`, tagged with its line; the result is `true` when
every expression that is reached is within bounds.  A condition that depends on
data from outside the line (an error value, a map key, a server state) is not
evaluated: the expressions of both branches are checked.  The expressions over
the results of `shellwords.Parse` and `shellcode.Parse` are not part of it. -/

/-- The index expression `xs[i]` of line `line` is within bounds. -/
def indexAt (_line : Nat) (xs : List String) (i : Nat) : Bool := decide (i < xs.length)

/-- The slice expression `xs[i:]` of line `line` is within bounds. -/
def sliceAt (_line : Nat) (xs : List String) (i : Nat) : Bool := decide (i ≤ xs.length)

/-- The word `xs[i]` where a switch needs its value. -/
def word (xs : List String) (i : Nat) : String := xs.getD i ""

/-- The `default` case of a menu: `executeCommand(cmd[0], cmd[1:])` when
`len(cmd) > 1`, `executeCommand(cmd[0], x)` otherwise. -/
def boundsDefault (line : Nat) (cmd : List String) : Bool :=
  if 1 < cmd.length then indexAt line cmd 0 && sliceAt line cmd 1 else indexAt (line + 3) cmd 0

/-- The `exit` and `quit` cases: `cmd[1]` under `len(cmd) > 1`. -/
def boundsExit (line : Nat) (cmd : List String) : Bool :=
  if 1 < cmd.length then indexAt line cmd 1 else true

/-- The expressions of `menuUse` (lines 633-649). -/
def boundsMenuUse (cmd : List String) : Bool :=
  if 0 < cmd.length then
    indexAt 635 cmd 0 &&
    (if word cmd 0 = "module" then (if 1 < cmd.length then indexAt 638 cmd 1 else true)
     else true)
  else true

/-- The expressions of `menuAgent` (lines 651-699). -/
def boundsMenuAgent (cmd : List String) : Bool :=
  indexAt 652 cmd 0 &&
  (if word cmd 0 = "list" then true
   else if word cmd 0 = "interact" then
     (if 1 < cmd.length then indexAt 676 cmd 1 && indexAt 678 cmd 1 else true)
   else if word cmd 0 = "remove" then
     (if 1 < cmd.length then indexAt 685 cmd 1 && indexAt 687 cmd 1 && indexAt 694 cmd 1
      else true)
   else true)

/-- The expressions of `menuListener` (lines 713-826). -/
def boundsMenuListener (cmd : List String) : Bool :=
  indexAt 714 cmd 0 &&
  (let c := ToLower (word cmd 0)
   if c = "back" ∨ c = "delete" then true
   else if c = "exit" ∨ c = "quit" then boundsExit 734 cmd
   else if c = "help" ∨ c = "info" ∨ c = "show" ∨ c = "main" ∨ c = "restart" then true
   else if c = "set" then
     (if 2 ≤ cmd.length then indexAt 775 cmd 1 && sliceAt 776 cmd 2 else true)
   else if c = "start" ∨ c = "status" ∨ c = "stop" then true
   else boundsDefault 820 cmd)

/-- The expressions of `menuListeners` (lines 829-993). -/
def boundsMenuListeners (cmd : List String) : Bool :=
  indexAt 830 cmd 0 &&
  (let c := ToLower (word cmd 0)
   if c = "exit" ∨ c = "quit" then boundsExit 833 cmd
   else if c = "delete" then (if 2 ≤ cmd.length then sliceAt 842 cmd 1 else true)
   else if c = "help" then true
   else if c = "info" then (if 2 ≤ cmd.length then sliceAt 861 cmd 1 else true)
   else if c = "interact" then (if 2 ≤ cmd.length then sliceAt 883 cmd 1 else true)
   else if c = "list" ∨ c = "main" ∨ c = "back" then true
   else if c = "start" then (if 2 ≤ cmd.length then sliceAt 921 cmd 1 else true)
   else if c = "stop" then (if 2 ≤ cmd.length then sliceAt 954 cmd 1 else true)
   else if c = "use" then
     (if 2 ≤ cmd.length then
        indexAt 975 cmd 1 && indexAt 976 cmd 1 && indexAt 977 cmd 1 && indexAt 980 cmd 1
      else true)
   else boundsDefault 987 cmd)

/-- The expressions of `menuListenerSetup` (lines 996-1078). -/
def boundsMenuListenerSetup (cmd : List String) : Bool :=
  indexAt 997 cmd 0 &&
  (let c := ToLower (word cmd 0)
   if c = "back" then true
   else if c = "exit" ∨ c = "quit" then boundsExit 1004 cmd
   else if c = "help" ∨ c = "info" ∨ c = "show" ∨ c = "main" then true
   else if c = "set" then
     (if 2 ≤ cmd.length then
        indexAt 1031 cmd 1 && sliceAt 1032 cmd 2 && sliceAt 1033 cmd 2
      else true)
   else if c = "start" ∨ c = "run" ∨ c = "execute" ∨ c = "stop" then true
   else boundsDefault 1072 cmd)

/-- The expressions of the main menu (lines 114-187), with those of the handlers
it calls. -/
def boundsMain (cmd : List String) : Bool :=
  indexAt 114 cmd 0 &&
  (let c := word cmd 0
   if c = "agent" then
     (if 1 < cmd.length then sliceAt 117 cmd 1 && boundsMenuAgent (cmd.drop 1) else true)
   else if c = "banner" ∨ c = "help" ∨ c = "?" then true
   else if c = "exit" ∨ c = "quit" then boundsExit 128 cmd
   else if c = "interact" then
     (if 1 < cmd.length then indexAt 138 cmd 1 && boundsMenuAgent ["interact", word cmd 1]
      else true)
   else if c = "listeners" then true
   else if c = "remove" then
     (if 1 < cmd.length then indexAt 148 cmd 1 && boundsMenuAgent ["remove", word cmd 1]
      else true)
   else if c = "sessions" then boundsMenuAgent ["list"]
   else if c = "set" then
     (if 2 < cmd.length then
        indexAt 155 cmd 1 &&
        (if word cmd 1 = "verbose" then indexAt 157 cmd 2 && indexAt 160 cmd 2
         else if word cmd 1 = "debug" then indexAt 165 cmd 2 && indexAt 168 cmd 2
         else true)
      else true)
   else if c = "use" then sliceAt 175 cmd 1 && boundsMenuUse (cmd.drop 1)
   else if c = "version" ∨ c = "" then true
   else boundsDefault 182 cmd)

/-- The expressions of the module menu (lines 189-310); `r` is the result of
`shellModule.Run()`, indexed after the guard `len(r) <= 0` on lines 250 and
268. -/
def boundsModule (cmd : List String) (r : List String) : Bool :=
  indexAt 189 cmd 0 &&
  (let c := word cmd 0
   if c = "show" then (if 1 < cmd.length then indexAt 192 cmd 1 else true)
   else if c = "info" then true
   else if c = "set" then
     (if 2 < cmd.length then
        indexAt 203 cmd 1 &&
        (if word cmd 1 = "Agent" then indexAt 204 cmd 2
         else indexAt 211 cmd 1 && sliceAt 211 cmd 2)
      else true)
   else if c = "reload" then true
   else if c = "run" then
     (if r.length ≤ 0 then true
      else indexAt 250 r 0 && sliceAt 250 r 1 && indexAt 268 r 0 && sliceAt 268 r 1)
   else if c = "back" ∨ c = "main" then true
   else if c = "exit" ∨ c = "quit" then boundsExit 284 cmd
   else if c = "unset" then (if 2 ≤ cmd.length then indexAt 293 cmd 1 else true)
   else if c = "?" ∨ c = "help" then true
   else boundsDefault 305 cmd)

/-- The expressions of one of the methods `remote`, `rtlcreateuserthread`,
`userapc` of `execute-shellcode`: `cmd[2]` and `cmd[3:]` under `len(cmd) > 3`. -/
def boundsMethod (line : Nat) (cmd : List String) : Bool :=
  if 3 < cmd.length then indexAt line cmd 2 && sliceAt (line + 1) cmd 3 else true

/-- The expression `cmd[1:]` of an agent `set` case under `len(cmd) > 2`. -/
def boundsSetCase (line : Nat) (cmd : List String) : Bool :=
  if 2 < cmd.length then sliceAt line cmd 1 else true

/-- The expressions of the agent menu (lines 312-626). -/
def boundsAgentMenu (cmd : List String) : Bool :=
  indexAt 312 cmd 0 &&
  (let c := word cmd 0
   if c = "back" then true
   else if c = "cmd" then (if 1 < cmd.length then sliceAt 317 cmd 1 else true)
   else if c = "download" then (if 2 ≤ cmd.length then sliceAt 327 cmd 1 else true)
   else if c = "execute-shellcode" then
     (if 2 < cmd.length then
        indexAt 351 cmd 1 &&
        (let m := ToLower (word cmd 1)
         if m = "self" then sliceAt 355 cmd 2
         else if m = "remote" then boundsMethod 359 cmd
         else if m = "rtlcreateuserthread" then boundsMethod 369 cmd
         else if m = "userapc" then boundsMethod 379 cmd
         else true)
      else true)
   else if c = "exit" ∨ c = "quit" then boundsExit 413 cmd
   else if c = "?" ∨ c = "help" ∨ c = "info" then true
   else if c = "kill" then (if 0 < cmd.length then sliceAt 426 cmd 0 else true)
   else if c = "ls" then (if 1 < cmd.length then sliceAt 438 cmd 0 else indexAt 451 cmd 0)
   else if c = "cd" then (if 1 < cmd.length then sliceAt 462 cmd 0 else true)
   else if c = "pwd" ∨ c = "main" then true
   else if c = "set" then
     (if 1 < cmd.length then
        indexAt 495 cmd 1 &&
        (let p := word cmd 1
         if p = "ja3" then boundsSetCase 498 cmd
         else if p = "killdate" then
           (if 2 < cmd.length then
              indexAt 508 cmd 2 && indexAt 511 cmd 2 && sliceAt 516 cmd 1
            else true)
         else if p = "maxretry" then boundsSetCase 527 cmd
         else if p = "padding" then boundsSetCase 537 cmd
         else if p = "sleep" then boundsSetCase 547 cmd
         else if p = "skew" then boundsSetCase 557 cmd
         else true)
      else true)
   else if c = "shell" then (if 1 < cmd.length then sliceAt 569 cmd 1 else true)
   else if c = "status" then true
   else if c = "upload" then (if 3 ≤ cmd.length then sliceAt 590 cmd 1 else true)
   else boundsDefault 621 cmd)

/-- The expressions of one turn of the loop of `Shell` (lines 102-631) in the
menu `context`, for the tokenised line `cmd`: nothing is evaluated for an empty
line, and the handler of the menu is called with `cmd`. -/
def boundsShell (context : String) (cmd : List String) (r : List String) : Bool :=
  if 0 < cmd.length then
    if context = "listener" then boundsMenuListener cmd
    else if context = "listenersmain" then boundsMenuListeners cmd
    else if context = "listenersetup" then boundsMenuListenerSetup cmd
    else if context = "main" then boundsMain cmd
    else if context = "module" then boundsModule cmd r
    else if context = "agent" then boundsAgentMenu cmd
    else true
  else true

/-- The commands one turn of `Shell` passes to `menuListener`, `menuListeners`,
`menuListenerSetup` and `menuAgent` (lines 106-152). -/
def handlerCalls (context : String) (cmd : List String) : List (List String) :=
  if 0 < cmd.length then
    if context = "listener" ∨ context = "listenersmain" ∨ context = "listenersetup" then [cmd]
    else if context = "main" then
      if word cmd 0 = "agent" then (if 1 < cmd.length then [cmd.drop 1] else [])
      else if word cmd 0 = "interact" then
        (if 1 < cmd.length then [["interact", word cmd 1]] else [])
      else if word cmd 0 = "remove" then
        (if 1 < cmd.length then [["remove", word cmd 1]] else [])
      else if word cmd 0 = "sessions" then [["list"]]
      else []
    else []
  else []

/-! ## Observations on a trace -/

/-- The `AddJob` calls of a trace, in order: agent, job type, arguments. -/
def jobsOf : List Event → List (UUID × String × List String)
  | [] => []
  | .AddJob id c args :: es => (id, c, args) :: jobsOf es
  | .message _ _ :: es => jobsOf es
  | .RemoveAgent _ :: es => jobsOf es
  | .Remove _ :: es => jobsOf es
  | .New _ :: es => jobsOf es
  | .Restart _ _ :: es => jobsOf es
  | .SetOption _ _ _ :: es => jobsOf es
  | .ServerStart _ :: es => jobsOf es
  | .ServerStop _ :: es => jobsOf es
  | .executeCommand _ _ :: es => jobsOf es
  | .table _ _ :: es => jobsOf es
  | .help _ :: es => jobsOf es
  | .exit :: es => jobsOf es
  | .panic _ :: es => jobsOf es
  | .Parse _ :: es => jobsOf es
  | .call _ _ :: es => jobsOf es
  | .print _ :: es => jobsOf es

/-- A message of level `warn`. -/
def Event.isWarn : Event → Bool
  | .message level _ => level = "warn"
  | _ => false

/-- A `Created job` note, for any job and agent. -/
def Event.isCreatedJob : Event → Bool
  | .message level (.Sprintf format _) =>
    level = "note" ∧ format = "Created job %s for agent %s at %s"
  | _ => false

/-- The agent a `Skipping job` note is about; `none` for every other event. -/
def Event.skippedAgent : Event → Option UUID
  | .message level (.Sprintf format [_, .uuid id, _]) =>
    if level = "note" ∧
        format = "Module platform %s does not match agent %s platform %s. Skipping job..."
    then some id else none
  | _ => none

/-- The loop's platform test passes for this registry entry. -/
def platformMatches (mod : Module) (e : UUID × Agent) : Bool :=
  ToLower e.2.Platform = ToLower mod.Platform

/-- The results `AddJob` returns for a sequence of calls made one after the
other from world `w`. -/
def resultsOf {σ : Type} (AddJob : AddJobFn σ) :
    List (UUID × String × List String) → σ → List (String × Option String)
  | [], _ => []
  | (id, c, args) :: js, w =>
    (AddJob w id c args).1 :: resultsOf AddJob js (AddJob w id c args).2

/-- The world after a sequence of `AddJob` calls made one after the other from
world `w`. -/
def replayJobs {σ : Type} (AddJob : AddJobFn σ) :
    List (UUID × String × List String) → σ → σ
  | [], w => w
  | j :: js, w => replayJobs AddJob js (AddJob w j.1 j.2.1 j.2.2).2

/-- The `Created job` notes that belong to a sequence of calls and their
results: one per call that returned no error, carrying the returned job
identifier and the agent of the call. -/
def createdNotes :
    List (UUID × String × List String) → List (String × Option String) → List Event
  | j :: js, (m, none) :: rs => createdJob m j.1 :: createdNotes js rs
  | _ :: js, (_, some _) :: rs => createdNotes js rs
  | _, _ => []

/-- The `AddJob` call one submission makes to agent `id` for the run result
`r0 :: rs`: none when the module type is neither `standard` nor `extended`. -/
def callsFor (ty : String) (id : UUID) (r0 : String) (rs : List String) :
    List (UUID × String × List String) :=
  if ToLower ty = "standard" then [(id, "cmd", r0 :: rs)]
  else if ToLower ty = "extended" then [(id, r0, rs)]
  else []

/-- The servers on which `Server.Start()` was called, in order. -/
def startsOf (tr : List Event) : List Nat :=
  tr.filterMap fun e => match e with
    | .ServerStart s => some s
    | _ => none

/-- The servers on which `Server.Stop()` was called, in order. -/
def stopsOf (tr : List Event) : List Nat :=
  tr.filterMap fun e => match e with
    | .ServerStop s => some s
    | _ => none

/-- The names `listeners.Remove` was called with, in order. -/
def removesOf (tr : List Event) : List String :=
  tr.filterMap fun e => match e with
    | .Remove name => some name
    | _ => none

/-- A call of `Restart`. -/
def Event.isRestart : Event → Bool
  | .Restart _ _ => true
  | _ => false

/-- A run-time panic. -/
def Event.isPanic : Event → Bool
  | .panic _ => true
  | _ => false

/-- A message of level `success`. -/
def Event.isSuccess : Event → Bool
  | .message level _ => level = "success"
  | _ => false

/-- A command handed to the host operating system. -/
def Event.isExecuteCommand : Event → Bool
  | .executeCommand _ _ => true
  | _ => false

/-- A decimal digit. -/
def isDecimalDigit (c : Char) : Bool := 48 ≤ c.toNat ∧ c.toNat ≤ 57

/-- The number a sequence of decimal digits denotes. -/
def decimalValue (ds : List Char) : Nat :=
  ds.foldl (fun n c => n * 10 + (c.toNat - 48)) 0

/-- The string is a base-10 signed 64-bit integer: an optional sign followed by
one or more decimal digits, denoting a number from `-2^63` to `2^63 - 1`. -/
def isInt64Literal (v : String) : Bool :=
  match v.data with
  | [] => false
  | c :: cs =>
    if c = '-' then !cs.isEmpty && cs.all isDecimalDigit && decide (decimalValue cs ≤ 2 ^ 63)
    else if c = '+' then
      !cs.isEmpty && cs.all isDecimalDigit && decide (decimalValue cs < 2 ^ 63)
    else (c :: cs).all isDecimalDigit && decide (decimalValue (c :: cs) < 2 ^ 63)

/-- The option maps `shellcode.Parse` was called with, in order. -/
def parsesOf (tr : List Event) : List Options :=
  tr.filterMap fun e => match e with
    | .Parse o => some o
    | _ => none

/-- The options the command `execute-shellcode m a1 ... ak` is to hand to
`shellcode.Parse`, in the words of the help menu: `self` takes the shellcode
`a1 ... ak` (`k >= 1`); `remote`, `rtlcreateuserthread` and `userapc` take the
process identifier `a1` and the shellcode `a2 ... ak` (`k >= 2`); the method is
matched ignoring case.  Every other command line has no options. -/
def expectedShellcodeOptions (m : String) (as : List String) : Option Options :=
  if ToLower m = "self" then
    if 1 ≤ as.length then some [("method", "self"), ("pid", ""), ("shellcode", Join as " ")]
    else none
  else if ToLower m = "remote" ∨ ToLower m = "rtlcreateuserthread" ∨ ToLower m = "userapc" then
    match as with
    | a1 :: a2 :: rest =>
      some [("method", ToLower m), ("pid", a1), ("shellcode", Join (a2 :: rest) " ")]
    | _ => none
  else none

/-! ## Sample data -/

/-- The identifier all of whose bytes are `b`. -/
def UUID.ofByte (b : Fin 256) : UUID := ⟨List.replicate 16 b, by simp⟩

/-- A job queue that numbers jobs and never fails; the world is a counter. -/
def countingQueue : AddJobFn Nat :=
  fun w _ _ _ => (("job" ++ toString w, none), w + 1)

/-- A job queue that rejects every call made from an odd world. -/
def flakyQueue : AddJobFn Nat :=
  fun w _ _ _ => if w % 2 = 1 then (("", some "agent not found"), w + 1)
    else (("job" ++ toString w, none), w + 1)

/-- A module for the `windows` platform with the given target and type. -/
def sampleModule (target : UUID) (ty : String) : Module :=
  { Name := "whoami", Agent := target, Platform := "windows", Type_ := ty }

/-- A registry of two windows agents and one linux agent. -/
def sampleRegistry : Registry :=
  [(UUID.ofByte 1, ⟨"Windows", UUID.ofByte 1⟩), (UUID.ofByte 2, ⟨"linux", UUID.ofByte 2⟩),
   (UUID.ofByte 3, ⟨"windows", UUID.ofByte 3⟩)]

/-- A registry of one agent whose platform is `WINDOWS` written with the dotted
capital `I`, `U+0130`. -/
def dottedRegistry : Registry := [(UUID.ofByte 4, ⟨"W\u0130NDOWS", UUID.ofByte 4⟩)]

/-- An agents package that recognises the canonical form of four identifiers
and removes nothing. -/
def sampleAgents : AgentsAPI Nat where
  FromString s := ([1, 2, 3, 9].map UUID.ofByte).find? fun u => decide (u.String = s)
  RemoveAgent w _ := (some "agent not found", w)

/-- A world of listeners for the samples: each listener with the state of its
server. -/
abbrev SampleWorld := List (Listener × ServerState)

/-- The state of the server `server` becomes `st`. -/
def setState (w : SampleWorld) (server : Nat) (st : ServerState) : SampleWorld :=
  w.map fun e => if e.1.Server = server then (e.1, st) else e

/-- A listener manager over `SampleWorld`: a listener that is running cannot be
removed, `Restart` leaves the server stopped, `Start` and `Stop` succeed. -/
def sampleListeners : ListenersAPI SampleWorld where
  Exists w name := w.any fun e => decide (e.1.Name = name)
  GetListenerByName w name :=
    match w.find? fun e => decide (e.1.Name = name) with
    | some e => (some e.1, none)
    | none => (none, some "invalid listener name")
  Remove w name :=
    match w.find? fun e => decide (e.1.Name = name) with
    | some e =>
      if e.2 = .Running then (some "the listener is still running", w)
      else (none, w.filter fun x => decide (x.1.Name ≠ name))
    | none => (some "invalid listener name", w)
  New w _ := ((none, some "a listener with this name already exists"), w)
  Restart w l _ := (none, setState w l.Server .Stopped)
  GetConfiguredOptions _ l := some [("Name", l.Name), ("Protocol", "h2")]
  SetOption w _ _ _ := (none, w)
  GetListenerTypes := ["http", "https", "h2c", "http2", "http3"]
  GetListenerOptions p := some [("Name", "Default"), ("Protocol", p)]
  Listeners w := w.map Prod.fst
  Status w server :=
    match w.find? fun e => decide (e.1.Server = server) with
    | some e => e.2
    | none => .Closed
  Start w server := (none, setState w server .Running)
  Stop w server := (none, setState w server .Stopped)
  GetInterface _ _ := "127.0.0.1"
  GetPort _ _ := 443
  GetProtocol _ _ := "HTTP/2"
  GetStateString st :=
    match st with
    | .Configured => "Configured"
    | .Running => "Running"
    | .Stopped => "Stopped"
    | .Closed => "Closed"
  CombinedOutput w _ _ := (("", some "executable file not found"), w)

/-- The listener `alpha`, on server 1. -/
def alpha : Listener := { Name := "alpha", ID := UUID.ofByte 10, Description := "", Server := 1 }

/-- The listener `beta`, on server 2. -/
def beta : Listener := { Name := "beta", ID := UUID.ofByte 11, Description := "", Server := 2 }

/-- A world in which `alpha` is running and `beta` is closed. -/
def sampleWorld : SampleWorld := [(alpha, .Running), (beta, .Closed)]

/-- A world in which `alpha` is configured and `beta` is stopped. -/
def idleWorld : SampleWorld := [(alpha, .Configured), (beta, .Stopped)]

/-- The listener manager `sampleListeners` with a `Restart` that always fails. -/
def brokenRestart : ListenersAPI SampleWorld :=
  { sampleListeners with Restart := fun w _ _ => (some "bind: address already in use", w) }

/-- A console in the menu `context` with the current listener `current`. -/
def sampleShell (context : String) (current : Option Listener) : Shell :=
  { shellMenuContext := context, shellAgent := UUID.ofByte 9, shellListener := current,
    shellListenerOptions := current.map fun l => [("Name", l.Name), ("Protocol", "h2")] }

/-- A `shellcode.Parse` that accepts shellcode of four characters or more. -/
def sampleParse : Nat → Options → List String × Option String :=
  fun _ o =>
    match o with
    | [(_, method), (_, pid), (_, code)] =>
      if 4 ≤ code.length then (["shellcode", method, pid, code], none)
      else ([], some "the shellcode is too short")
    | _ => ([], some "missing option")

/-- An agents interface over the sample listener world that accepts no
identifier. -/
def quietAgents : AgentsAPI SampleWorld where
  FromString := fun _ => none
  RemoveAgent := fun w _ => (none, w)

/-- A console interface over the sample listener world: every job is accepted,
`shellwords.Parse` returns the line as one word, every module can be created. -/
def quietConsole : ConsoleAPI SampleWorld where
  AddJob := fun w _ _ _ => (("job", none), w)
  ShellwordsParse := fun s => ([s], none)
  Stat := fun _ _ => none
  ShellcodeParse := fun _ _ => ([], some "no shellcode")
  GetAgentStatus := fun _ _ => "Active"
  Create := fun _ name =>
    ({ Name := name, Agent := UUID.broadcast, Platform := "linux", Type_ := "standard" }, none)
  SetAgent := fun m _ => (("", none), m)
  SetOption := fun m _ _ => (("", none), m)
  Run := fun _ _ => ([], none)
  Version := "0"
  Banner := ""

/-- Two turns from the start: into the listeners menu, then to the listener
`alpha`. -/
def sampleInputs : List (Input SampleWorld) :=
  [⟨"listeners", ("", none), [], idleWorld⟩, ⟨"  interact alpha ", ("", none), [], idleWorld⟩]

/-- A third turn: the current listener is deleted and the question answered with
`y`. -/
def deleteInput : Input SampleWorld := ⟨"delete", ("y\n", none), [], idleWorld⟩

/-! ## The canonical form of an identifier -/

theorem UUID.eq_of_bytes {a b : UUID} (h : a.bytes = b.bytes) : a = b := by
  cases a; cases b; cases h; rfl

theorem toLower_hexDigit (n : Nat) : lowerRune (hexDigit n) = hexDigit n := by
  unfold hexDigit
  split <;> decide

theorem map_toLower_hexEncode (bs : List (Fin 256)) :
    (hexEncode bs).map lowerRune = hexEncode bs := by
  induction bs with
  | nil => rfl
  | cons b bs ih => simp [hexEncode, hexByte, toLower_hexDigit, ih]

/-- Lower-casing the canonical form of an identifier changes nothing. -/
theorem ToLower_String (u : UUID) : ToLower u.String = u.String := by
  have hd : lowerRune '-' = '-' := by decide
  simp [ToLower, UUID.String, map_toLower_hexEncode, hd]

theorem hexDigit_eq_f {n : Nat} (h : n < 16) : hexDigit n = 'f' ↔ n = 15 := by
  interval_cases n <;> decide

theorem hexByte_eq_ff (b : Fin 256) : hexByte b = ['f', 'f'] ↔ b = 255 := by
  have h1 : b.val / 16 < 16 := by omega
  have h2 : b.val % 16 < 16 := by omega
  simp only [hexByte, List.cons.injEq, and_true, hexDigit_eq_f h1, hexDigit_eq_f h2]
  constructor
  · intro h; apply Fin.ext; show b.val = 255; omega
  · intro h; subst h; decide

theorem byte_ff (b : Fin 256) (h1 : hexDigit (b.val / 16) = 'f')
    (h2 : hexDigit (b.val % 16) = 'f') : b = 255 :=
  (hexByte_eq_ff b).1 (by simp [hexByte, h1, h2])

theorem sentinel_data : ("ffffffff-ffff-ffff-ffff-ffffffffffff" : String) =
    String.mk ['f','f','f','f','f','f','f','f','-','f','f','f','f','-','f','f','f','f','-',
      'f','f','f','f','-','f','f','f','f','f','f','f','f','f','f','f','f'] := by decide

/-- Only the identifier of sixteen `0xff` bytes has the sentinel as its
canonical form. -/
theorem String_eq_sentinel (u : UUID) :
    u.String = "ffffffff-ffff-ffff-ffff-ffffffffffff" ↔ u = UUID.broadcast := by
  constructor
  · intro h
    obtain ⟨bs, hs⟩ := u
    match bs, hs with
    | [b0,b1,b2,b3,b4,b5,b6,b7,b8,b9,b10,b11,b12,b13,b14,b15], _ =>
      rw [sentinel_data] at h
      have h2 := congrArg String.data h
      simp only [UUID.String, List.take, List.drop, hexEncode, hexByte, List.cons_append,
        List.nil_append, List.cons.injEq, and_true, true_and] at h2
      obtain ⟨a0, c0, a1, c1, a2, c2, a3, c3, a4, c4, a5, c5, a6, c6, a7, c7, a8, c8, a9, c9,
        a10, c10, a11, c11, a12, c12, a13, c13, a14, c14, a15, c15⟩ := h2
      apply UUID.eq_of_bytes
      simp only [UUID.broadcast, List.replicate, byte_ff _ a0 c0, byte_ff _ a1 c1,
        byte_ff _ a2 c2, byte_ff _ a3 c3, byte_ff _ a4 c4, byte_ff _ a5 c5, byte_ff _ a6 c6,
        byte_ff _ a7 c7, byte_ff _ a8 c8, byte_ff _ a9 c9, byte_ff _ a10 c10, byte_ff _ a11 c11,
        byte_ff _ a12 c12, byte_ff _ a13 c13, byte_ff _ a14 c14, byte_ff _ a15 c15]
  · intro h; subst h; decide

/-- The test of line 235 holds exactly for the all-agents identifier. -/
theorem isBroadcast_iff (mod : Module) :
    isBroadcast mod = true ↔ mod.Agent = UUID.broadcast := by
  simp [isBroadcast, ToLower_String, String_eq_sentinel]

/-! ## The `AddJob` calls of `run` -/

section Calls

variable {σ : Type} (AddJob : AddJobFn σ)

theorem jobsOf_append (a b : List Event) : jobsOf (a ++ b) = jobsOf a ++ jobsOf b := by
  induction a with
  | nil => rfl
  | cons e es ih => cases e <;> simp [jobsOf, ih]

theorem jobsOf_report (id : UUID) (v : Vars σ) : jobsOf (report id v) = [] := by
  unfold report
  split <;> rfl

theorem jobsOf_typeSwitch (ty : String) (id : UUID) (r0 : String) (rs : List String)
    (v : Vars σ) : jobsOf (typeSwitch AddJob ty id r0 rs v).2 = callsFor ty id r0 rs := by
  unfold typeSwitch callsFor
  split_ifs <;> rfl

theorem jobsOf_submit (ty : String) (id : UUID) (r0 : String) (rs : List String)
    (v : Vars σ) : jobsOf (submit AddJob ty id r0 rs v).2 = callsFor ty id r0 rs := by
  simp [submit, jobsOf_append, jobsOf_report, jobsOf_typeSwitch]

/-- The calls of the broadcast loop: one submission per entry that passes the
platform test, in iteration order. -/
theorem jobsOf_broadcastLoop (mod : Module) (r0 : String) (rs : List String)
    (reg : Registry) (v : Vars σ) :
    jobsOf (broadcastLoop AddJob mod r0 rs reg v).2 =
      (reg.filter (platformMatches mod)).flatMap (fun e => callsFor mod.Type_ e.1 r0 rs) := by
  induction reg generalizing v with
  | nil => rfl
  | cons e rest ih =>
    obtain ⟨id, a⟩ := e
    by_cases h : ToLower a.Platform = ToLower mod.Platform
    · simp [broadcastLoop, h, platformMatches, jobsOf_append, jobsOf_submit, ih]
    · simp [broadcastLoop, h, platformMatches, jobsOf, skippingJob, ih]

/-- The calls of `run` after `Run` returned `r0 :: rs` without error. -/
theorem jobsOf_moduleRun (mod : Module) (r0 : String) (rs : List String)
    (reg : Registry) (w : σ) :
    jobsOf (moduleRun AddJob mod (r0 :: rs, none) reg w).2 =
      if mod.Agent = UUID.broadcast then
        (reg.filter (platformMatches mod)).flatMap (fun e => callsFor mod.Type_ e.1 r0 rs)
      else callsFor mod.Type_ mod.Agent r0 rs := by
  by_cases hb : mod.Agent = UUID.broadcast
  · have hb2 : isBroadcast mod = true := (isBroadcast_iff mod).2 hb
    cases reg with
    | nil => simp [moduleRun, hb, hb2, jobsOf, noAgents]
    | cons e rest => simp [moduleRun, hb, hb2, jobsOf_broadcastLoop]
  · have hb2 : isBroadcast mod = false := by
      rw [← Bool.not_eq_true, isBroadcast_iff]; exact hb
    simp [moduleRun, hb, hb2, jobsOf_submit]

end Calls

/-! ## The world after `run` -/

theorem replayJobs_append {σ : Type} (AddJob : AddJobFn σ)
    (a b : List (UUID × String × List String)) (w : σ) :
    replayJobs AddJob (a ++ b) w = replayJobs AddJob b (replayJobs AddJob a w) := by
  induction a generalizing w with
  | nil => rfl
  | cons j js ih => simp [replayJobs, ih]

theorem world_typeSwitch {σ : Type} (AddJob : AddJobFn σ) (ty : String) (id : UUID)
    (r0 : String) (rs : List String) (v : Vars σ) :
    (typeSwitch AddJob ty id r0 rs v).1.world =
      replayJobs AddJob (callsFor ty id r0 rs) v.world := by
  unfold typeSwitch callsFor
  split_ifs <;> rfl

theorem world_submit {σ : Type} (AddJob : AddJobFn σ) (ty : String) (id : UUID)
    (r0 : String) (rs : List String) (v : Vars σ) :
    (submit AddJob ty id r0 rs v).1.world =
      replayJobs AddJob (callsFor ty id r0 rs) v.world := by
  simp [submit, world_typeSwitch]

/-- The world after the broadcast loop: `AddJob` applied once per entry that
passes the platform test, in iteration order. -/
theorem world_broadcastLoop {σ : Type} (AddJob : AddJobFn σ) (mod : Module) (r0 : String)
    (rs : List String) (reg : Registry) (v : Vars σ) :
    (broadcastLoop AddJob mod r0 rs reg v).1.world =
      replayJobs AddJob
        ((reg.filter (platformMatches mod)).flatMap (fun e => callsFor mod.Type_ e.1 r0 rs))
        v.world := by
  induction reg generalizing v with
  | nil => rfl
  | cons e rest ih =>
    obtain ⟨id, a⟩ := e
    by_cases h : ToLower a.Platform = ToLower mod.Platform
    · simp [broadcastLoop, h, platformMatches, replayJobs_append, world_submit, ih]
    · simp [broadcastLoop, h, platformMatches, ih]

/-- The world after `run`: the calls recorded in the trace, applied to the job
queue in order. -/
theorem world_moduleRun {σ : Type} (AddJob : AddJobFn σ) (mod : Module)
    (runResult : List String × Option String) (reg : Registry) (w : σ) :
    (moduleRun AddJob mod runResult reg w).1 =
      replayJobs AddJob (jobsOf (moduleRun AddJob mod runResult reg w).2) w := by
  obtain ⟨r, err⟩ := runResult
  cases err with
  | some e => rfl
  | none =>
    cases r with
    | nil => rfl
    | cons r0 rs =>
      rw [jobsOf_moduleRun]
      by_cases hb : mod.Agent = UUID.broadcast
      · have hb2 : isBroadcast mod = true := (isBroadcast_iff mod).2 hb
        rw [if_pos hb]
        cases reg with
        | nil => simp [moduleRun, hb2, replayJobs]
        | cons e rest => simp [moduleRun, hb2, world_broadcastLoop]
      · have hb2 : isBroadcast mod = false := by
          rw [← Bool.not_eq_true, isBroadcast_iff]; exact hb
        rw [if_neg hb]
        simp [moduleRun, hb2, world_submit]

/-! ## Registries -/

theorem Registry.WF.tail {e : UUID × Agent} {rest : Registry}
    (h : Registry.WF (e :: rest)) : Registry.WF rest := by
  unfold Registry.WF at h ⊢
  exact (List.nodup_cons.1 h).2

/-- In a map an identifier has one agent. -/
theorem Registry.WF.agent_unique {reg : Registry} (h : reg.WF) {id : UUID} {a b : Agent}
    (ha : (id, a) ∈ reg) (hb : (id, b) ∈ reg) : a = b := by
  have := List.inj_on_of_nodup_map h ha hb rfl
  exact (Prod.mk.inj this).2

/-- In a map the entries with a given key are that key's one entry. -/
theorem Registry.WF.filter_key {reg : Registry} (h : reg.WF) {id : UUID} {a : Agent}
    (ha : (id, a) ∈ reg) : reg.filter (fun e => decide (e.1 = id)) = [(id, a)] := by
  induction reg with
  | nil => cases ha
  | cons e rest ih =>
    have hnd := List.nodup_cons.1 h
    rcases List.mem_cons.1 ha with heq | hmem
    · subst heq
      have hnone : rest.filter (fun e => decide (e.1 = id)) = [] := by
        apply List.filter_eq_nil_iff.2
        intro x hx hxid
        exact hnd.1 (List.mem_map.2 ⟨x, hx, by simpa using hxid⟩)
      simp [List.filter_cons, hnone]
    · have hne : e.1 ≠ id := by
        intro he
        exact hnd.1 (List.mem_map.2 ⟨(id, a), hmem, he.symm⟩)
      simp [List.filter_cons, hne, ih (Registry.WF.tail h) hmem]

theorem callsFor_standard {ty : String} (h : ToLower ty = "standard") (id : UUID)
    (r0 : String) (rs : List String) : callsFor ty id r0 rs = [(id, "cmd", r0 :: rs)] := by
  simp [callsFor, h]

theorem callsFor_extended {ty : String} (h : ToLower ty = "extended") (id : UUID)
    (r0 : String) (rs : List String) : callsFor ty id r0 rs = [(id, r0, rs)] := by
  simp [callsFor, h]

theorem callsFor_invalid {ty : String} (h1 : ToLower ty ≠ "standard")
    (h2 : ToLower ty ≠ "extended") (id : UUID) (r0 : String) (rs : List String) :
    callsFor ty id r0 rs = [] := by
  simp [callsFor, h1, h2]

/-- The calls of a broadcast `run` of a `standard` module. -/
theorem jobsOf_broadcast_standard {σ : Type} (AddJob : AddJobFn σ) (mod : Module)
    (r0 : String) (rs : List String) (reg : Registry) (w : σ)
    (hall : mod.Agent = UUID.broadcast) (hty : ToLower mod.Type_ = "standard") :
    jobsOf (moduleRun AddJob mod (r0 :: rs, none) reg w).2 =
      (reg.filter (platformMatches mod)).map (fun e => (e.1, "cmd", r0 :: rs)) := by
  rw [jobsOf_moduleRun, if_pos hall]
  simp only [callsFor_standard hty]
  induction reg.filter (platformMatches mod) with
  | nil => rfl
  | cons e es ih => simp [List.flatMap_cons, ih]

/-! ## Broadcast of a `standard` module -/

/-- Claim C1. For `run` with the all-agents target, a non-empty run result `r` and
module type `standard` (ignoring case), over any registry: for each registered
agent whose platform equals the module's ignoring case, the `AddJob` calls
addressed to it are exactly the one call `("cmd", r)`; every `AddJob` call
made is `("cmd", r)` to a registered agent of matching platform; the calls are
those to the matching entries in iteration order; and the job queue the command
leaves behind is the one that `AddJob`, applied to these calls in that order
from the queue before, returns: the calls are made, not only reported. -/
theorem run_broadcast_standard_calls {σ : Type} (AddJob : AddJobFn σ) (mod : Module)
    (r : List String) (reg : Registry) (w : σ)
    (hall : mod.Agent = UUID.broadcast) (hr : r ≠ [])
    (hty : ToLower mod.Type_ = "standard") (hwf : reg.WF) :
    (∀ id a, (id, a) ∈ reg → ToLower a.Platform = ToLower mod.Platform →
      (jobsOf (moduleRun AddJob mod (r, none) reg w).2).filter (fun j => decide (j.1 = id))
        = [(id, "cmd", r)]) ∧
    (∀ j ∈ jobsOf (moduleRun AddJob mod (r, none) reg w).2,
      j.2 = ("cmd", r) ∧
        ∃ a, (j.1, a) ∈ reg ∧ ToLower a.Platform = ToLower mod.Platform) ∧
    jobsOf (moduleRun AddJob mod (r, none) reg w).2 =
      (reg.filter (platformMatches mod)).map (fun e => (e.1, "cmd", r)) ∧
    (moduleRun AddJob mod (r, none) reg w).1 =
      replayJobs AddJob ((reg.filter (platformMatches mod)).map (fun e => (e.1, "cmd", r))) w := by
  obtain ⟨r0, rs, rfl⟩ := List.exists_cons_of_ne_nil hr
  have hworld := world_moduleRun AddJob mod (r0 :: rs, none) reg w
  rw [jobsOf_broadcast_standard AddJob mod r0 rs reg w hall hty] at hworld
  rw [jobsOf_broadcast_standard AddJob mod r0 rs reg w hall hty]
  refine ⟨?_, ?_, rfl, hworld⟩
  · intro id a hmem hplat
    have hkey := hwf.filter_key hmem
    have hcomm : ((reg.filter (platformMatches mod)).map
          (fun e => (e.1, "cmd", r0 :: rs))).filter (fun j => decide (j.1 = id)) =
        ((reg.filter (fun e => decide (e.1 = id))).filter (platformMatches mod)).map
          (fun e => (e.1, "cmd", r0 :: rs)) := by
      rw [List.filter_map, List.filter_filter, List.filter_filter]
      congr 1
      apply List.filter_congr
      intro x _
      simp [Function.comp, Bool.and_comm]
    rw [hcomm, hkey]
    simp [platformMatches, hplat]
  · intro j hj
    obtain ⟨e, he, rfl⟩ := List.mem_map.1 hj
    obtain ⟨hreg, hpm⟩ := List.mem_filter.1 he
    exact ⟨rfl, e.2, hreg, by simpa [platformMatches] using hpm⟩

/-- Two windows agents and one linux agent: the agent with identifier 3 gets its
one call, and the counting queue has taken two jobs.  An agent whose platform is
written with the dotted capital `U+0130` matches `windows` too, as
`strings.ToLower` maps that letter to `i`. -/
theorem run_broadcast_standard_calls_witness :
    sampleRegistry.WF ∧
    (jobsOf (moduleRun countingQueue (sampleModule UUID.broadcast "Standard")
        (["whoami"], none) sampleRegistry 0).2).filter
      (fun j => decide (j.1 = UUID.ofByte 3)) = [(UUID.ofByte 3, "cmd", ["whoami"])] ∧
    (moduleRun countingQueue (sampleModule UUID.broadcast "Standard")
        (["whoami"], none) sampleRegistry 0).1 = 2 ∧
    jobsOf (moduleRun countingQueue (sampleModule UUID.broadcast "Standard")
        (["whoami"], none) dottedRegistry 0).2 = [(UUID.ofByte 4, "cmd", ["whoami"])] :=
  ⟨by decide,
   (run_broadcast_standard_calls countingQueue (sampleModule UUID.broadcast "Standard")
      ["whoami"] sampleRegistry 0 rfl (by decide) (by decide) (by decide)).1
      (UUID.ofByte 3) ⟨"windows", UUID.ofByte 3⟩ (by decide) (by decide),
   (run_broadcast_standard_calls countingQueue (sampleModule UUID.broadcast "Standard")
      ["whoami"] sampleRegistry 0 rfl (by decide) (by decide) (by decide)).2.2.2.trans
      (by decide),
   (run_broadcast_standard_calls countingQueue (sampleModule UUID.broadcast "Standard")
      ["whoami"] dottedRegistry 0 rfl (by decide) (by decide) (by decide)).2.2.1.trans
      (by decide)⟩

/-! ### Skip notices -/

theorem skipped_report {σ : Type} (id : UUID) (v : Vars σ) :
    (report id v).filterMap Event.skippedAgent = [] := by
  unfold report
  split <;> simp [Event.skippedAgent, addJobFailed, createdJob]

theorem skipped_typeSwitch {σ : Type} (AddJob : AddJobFn σ) (ty : String) (id : UUID)
    (r0 : String) (rs : List String) (v : Vars σ) :
    (typeSwitch AddJob ty id r0 rs v).2.filterMap Event.skippedAgent = [] := by
  unfold typeSwitch
  split_ifs <;> simp [Event.skippedAgent, invalidModuleType]

theorem skipped_submit {σ : Type} (AddJob : AddJobFn σ) (ty : String) (id : UUID)
    (r0 : String) (rs : List String) (v : Vars σ) :
    (submit AddJob ty id r0 rs v).2.filterMap Event.skippedAgent = [] := by
  simp [submit, List.filterMap_append, skipped_report, skipped_typeSwitch]

/-- The skip notices of the broadcast loop are about the entries that fail the
platform test, in iteration order. -/
theorem skipped_broadcastLoop {σ : Type} (AddJob : AddJobFn σ) (mod : Module)
    (r0 : String) (rs : List String) (reg : Registry) (v : Vars σ) :
    (broadcastLoop AddJob mod r0 rs reg v).2.filterMap Event.skippedAgent =
      (reg.filter (fun e => !platformMatches mod e)).map Prod.fst := by
  induction reg generalizing v with
  | nil => rfl
  | cons e rest ih =>
    obtain ⟨id, a⟩ := e
    by_cases h : ToLower a.Platform = ToLower mod.Platform
    · simp [broadcastLoop, h, platformMatches, List.filterMap_append, skipped_submit, ih]
    · simp [broadcastLoop, h, platformMatches, Event.skippedAgent, skippingJob, ih]

theorem mem_broadcastLoop_skippingJob {σ : Type} (AddJob : AddJobFn σ) (mod : Module)
    (r0 : String) (rs : List String) (reg : Registry) (v : Vars σ) (id : UUID) (a : Agent)
    (hmem : (id, a) ∈ reg) (hplat : ToLower a.Platform ≠ ToLower mod.Platform) :
    skippingJob mod.Platform id a.Platform ∈ (broadcastLoop AddJob mod r0 rs reg v).2 := by
  induction reg generalizing v with
  | nil => cases hmem
  | cons e rest ih =>
    obtain ⟨id2, a2⟩ := e
    rcases List.mem_cons.1 hmem with heq | hrest
    · cases heq
      simp [broadcastLoop, hplat]
    · by_cases h : ToLower a2.Platform = ToLower mod.Platform
      · simp only [broadcastLoop, h, ne_eq, not_true_eq_false, if_false]
        exact List.mem_append_right _ (ih _ hrest)
      · simp only [broadcastLoop, h, ne_eq, not_false_eq_true, if_true]
        exact List.mem_cons_of_mem _ (ih _ hrest)

/-- The trace of a broadcast `run` over a non-empty registry is the loop's. -/
theorem moduleRun_broadcast_cons {σ : Type} (AddJob : AddJobFn σ) (mod : Module)
    (r0 : String) (rs : List String) (e : UUID × Agent) (rest : Registry) (w : σ)
    (hall : mod.Agent = UUID.broadcast) :
    (moduleRun AddJob mod (r0 :: rs, none) (e :: rest) w).2 =
      (broadcastLoop AddJob mod r0 rs (e :: rest) { world := w, m := "", err := none }).2 := by
  have hb : isBroadcast mod = true := (isBroadcast_iff mod).2 hall
  simp [moduleRun, hb]

/-- The trace of a broadcast `run` over the empty registry. -/
theorem moduleRun_broadcast_nil {σ : Type} (AddJob : AddJobFn σ) (mod : Module)
    (r0 : String) (rs : List String) (w : σ) (hall : mod.Agent = UUID.broadcast) :
    (moduleRun AddJob mod (r0 :: rs, none) [] w).2 = [noAgents] := by
  have hb : isBroadcast mod = true := (isBroadcast_iff mod).2 hall
  simp [moduleRun, hb]

theorem skipped_moduleRun {σ : Type} (AddJob : AddJobFn σ) (mod : Module)
    (r0 : String) (rs : List String) (reg : Registry) (w : σ)
    (hall : mod.Agent = UUID.broadcast) :
    (moduleRun AddJob mod (r0 :: rs, none) reg w).2.filterMap Event.skippedAgent =
      (reg.filter (fun e => !platformMatches mod e)).map Prod.fst := by
  cases reg with
  | nil => rw [moduleRun_broadcast_nil AddJob mod r0 rs w hall]; rfl
  | cons e rest =>
    rw [moduleRun_broadcast_cons AddJob mod r0 rs e rest w hall, skipped_broadcastLoop]

/-- Claim C2 as written does not hold when `Run` returns no command.  The
registry holds two windows agents and the linux agent 2, the module is a
`standard` module for `windows` with the all-agents target.  When `Run` fails,
and when it returns nothing, the command ends before the loop over the agents:
the linux agent gets no skip notice, and no job is created although two agents
match. -/
theorem run_without_command_no_notice :
    (UUID.ofByte 2, Agent.mk "linux" (UUID.ofByte 2)) ∈ sampleRegistry ∧
    ToLower "linux" ≠ ToLower (sampleModule UUID.broadcast "standard").Platform ∧
    (sampleRegistry.filter (platformMatches (sampleModule UUID.broadcast "standard"))).length
      = 2 ∧
    moduleRun countingQueue (sampleModule UUID.broadcast "standard")
      (["whoami"], some "no such option") sampleRegistry 0 =
      (0, [.message "warn" (.lit "no such option")]) ∧
    ((moduleRun countingQueue (sampleModule UUID.broadcast "standard")
      (["whoami"], some "no such option") sampleRegistry 0).2.filterMap
        Event.skippedAgent).count (UUID.ofByte 2) = 0 ∧
    jobsOf (moduleRun countingQueue (sampleModule UUID.broadcast "standard")
      (["whoami"], some "no such option") sampleRegistry 0).2 = [] ∧
    moduleRun countingQueue (sampleModule UUID.broadcast "standard")
      ([], none) sampleRegistry 0 = (0, [noCommand "whoami"]) ∧
    ((moduleRun countingQueue (sampleModule UUID.broadcast "standard")
      ([], none) sampleRegistry 0).2.filterMap Event.skippedAgent).count (UUID.ofByte 2) = 0 := by
  decide

/-- Claim C2, amended. For a broadcast `run` of a `standard` module whose `Run`
returned a non-empty result `r` without error, over any registry: each
registered agent whose platform differs from the module's (ignoring case) gets
exactly one skip notice, which names the module platform, the agent and the
agent's platform; a matching agent gets none; the number of `AddJob` calls is
the number of matching agents and the number of skip notices is the number of
the others; and the job queue the command leaves behind is the one that
`AddJob`, applied to the calls of the trace in order from the queue before,
returns: the jobs are created, not only reported. -/
theorem run_broadcast_standard_skips {σ : Type} (AddJob : AddJobFn σ) (mod : Module)
    (r : List String) (reg : Registry) (w : σ)
    (hall : mod.Agent = UUID.broadcast) (hr : r ≠ [])
    (hty : ToLower mod.Type_ = "standard") (hwf : reg.WF) :
    (∀ id a, (id, a) ∈ reg → ToLower a.Platform ≠ ToLower mod.Platform →
      ((moduleRun AddJob mod (r, none) reg w).2.filterMap Event.skippedAgent).count id = 1 ∧
      skippingJob mod.Platform id a.Platform ∈ (moduleRun AddJob mod (r, none) reg w).2) ∧
    (∀ id a, (id, a) ∈ reg → ToLower a.Platform = ToLower mod.Platform →
      ((moduleRun AddJob mod (r, none) reg w).2.filterMap Event.skippedAgent).count id = 0) ∧
    (jobsOf (moduleRun AddJob mod (r, none) reg w).2).length =
      (reg.filter (platformMatches mod)).length ∧
    ((moduleRun AddJob mod (r, none) reg w).2.filterMap Event.skippedAgent).length =
      (reg.filter (fun e => !platformMatches mod e)).length ∧
    (moduleRun AddJob mod (r, none) reg w).1 =
      replayJobs AddJob ((reg.filter (platformMatches mod)).map (fun e => (e.1, "cmd", r))) w := by
  obtain ⟨r0, rs, rfl⟩ := List.exists_cons_of_ne_nil hr
  have hworld := world_moduleRun AddJob mod (r0 :: rs, none) reg w
  rw [jobsOf_broadcast_standard AddJob mod r0 rs reg w hall hty] at hworld
  rw [skipped_moduleRun AddJob mod r0 rs reg w hall,
    jobsOf_broadcast_standard AddJob mod r0 rs reg w hall hty]
  have hnd : ((reg.filter (fun e => !platformMatches mod e)).map Prod.fst).Nodup :=
    List.Nodup.sublist (List.Sublist.map _ (List.filter_sublist _)) hwf
  refine ⟨?_, ?_, by simp, by simp, hworld⟩
  · intro id a hmem hplat
    constructor
    · apply List.count_eq_one_of_mem hnd
      exact List.mem_map.2 ⟨(id, a), List.mem_filter.2 ⟨hmem, by simp [platformMatches, hplat]⟩, rfl⟩
    · cases reg with
      | nil => cases hmem
      | cons e rest =>
        rw [moduleRun_broadcast_cons AddJob mod r0 rs e rest w hall]
        exact mem_broadcastLoop_skippingJob AddJob mod r0 rs _ _ id a hmem hplat
  · intro id a hmem hplat
    apply List.count_eq_zero_of_not_mem
    intro hin
    obtain ⟨e, he, hid⟩ := List.mem_map.1 hin
    obtain ⟨hreg, hpm⟩ := List.mem_filter.1 he
    obtain ⟨id2, b⟩ := e
    cases hid
    have := hwf.agent_unique hmem hreg
    subst this
    simp [platformMatches, hplat] at hpm

/-- The example of the specification: two windows agents and one linux agent
give two jobs, which the counting queue has taken, and one skip notice. -/
theorem run_broadcast_standard_skips_witness :
    sampleRegistry.WF ∧
    (jobsOf (moduleRun countingQueue (sampleModule UUID.broadcast "standard")
        (["whoami"], none) sampleRegistry 0).2).length = 2 ∧
    ((moduleRun countingQueue (sampleModule UUID.broadcast "standard")
        (["whoami"], none) sampleRegistry 0).2.filterMap Event.skippedAgent).length = 1 ∧
    (moduleRun countingQueue (sampleModule UUID.broadcast "standard")
        (["whoami"], none) sampleRegistry 0).1 = 2 :=
  ⟨by decide,
   (run_broadcast_standard_skips countingQueue (sampleModule UUID.broadcast "standard")
      ["whoami"] sampleRegistry 0 rfl (by decide) (by decide) (by decide)).2.2.1.trans
      (by decide),
   (run_broadcast_standard_skips countingQueue (sampleModule UUID.broadcast "standard")
      ["whoami"] sampleRegistry 0 rfl (by decide) (by decide) (by decide)).2.2.2.1.trans
      (by decide),
   (run_broadcast_standard_skips countingQueue (sampleModule UUID.broadcast "standard")
      ["whoami"] sampleRegistry 0 rfl (by decide) (by decide) (by decide)).2.2.2.2.trans
      (by decide)⟩

/-! ## Single target, and the module type -/

/-- The outcome of `run` when `Run` returned an error. -/
theorem moduleRun_error {σ : Type} (AddJob : AddJobFn σ) (mod : Module)
    (r : List String) (e : String) (reg : Registry) (w : σ) :
    moduleRun AddJob mod (r, some e) reg w = (w, [.message "warn" (.lit e)]) := rfl

/-- The outcome of `run` when `Run` returned no command and no error. -/
theorem moduleRun_empty {σ : Type} (AddJob : AddJobFn σ) (mod : Module)
    (reg : Registry) (w : σ) :
    moduleRun AddJob mod ([], none) reg w = (w, [noCommand mod.Name]) := rfl

/-- Claim C3. For `run` with a target other than the all-agents identifier and a
non-empty run result `r`: the `AddJob` calls are exactly one call to the target,
`("cmd", r)` when the module type is `standard` and `(r[0], r[1:])` when it is
`extended` (ignoring case); and the job queue the command leaves behind is the
one this call of `AddJob` returns from the queue before: the call is made, not
only reported. -/
theorem run_single_calls {σ : Type} (AddJob : AddJobFn σ) (mod : Module)
    (r : List String) (reg : Registry) (w : σ)
    (hsingle : mod.Agent ≠ UUID.broadcast) (hr : r ≠ []) :
    (ToLower mod.Type_ = "standard" →
      jobsOf (moduleRun AddJob mod (r, none) reg w).2 = [(mod.Agent, "cmd", r)] ∧
      (moduleRun AddJob mod (r, none) reg w).1 = (AddJob w mod.Agent "cmd" r).2) ∧
    (ToLower mod.Type_ = "extended" →
      jobsOf (moduleRun AddJob mod (r, none) reg w).2 = [(mod.Agent, r.head hr, r.tail)] ∧
      (moduleRun AddJob mod (r, none) reg w).1 = (AddJob w mod.Agent (r.head hr) r.tail).2) := by
  obtain ⟨r0, rs, rfl⟩ := List.exists_cons_of_ne_nil hr
  have hworld := world_moduleRun AddJob mod (r0 :: rs, none) reg w
  rw [jobsOf_moduleRun, if_neg hsingle] at hworld ⊢
  constructor
  · intro h
    rw [callsFor_standard h] at hworld ⊢
    exact ⟨rfl, hworld⟩
  · intro h
    rw [callsFor_extended h] at hworld ⊢
    exact ⟨rfl, hworld⟩

theorem run_single_calls_witness :
    UUID.ofByte 7 ≠ UUID.broadcast ∧
    jobsOf (moduleRun countingQueue (sampleModule (UUID.ofByte 7) "EXTENDED")
      (["run", "a", "b"], none) sampleRegistry 0).2 = [(UUID.ofByte 7, "run", ["a", "b"])] ∧
    (moduleRun countingQueue (sampleModule (UUID.ofByte 7) "EXTENDED")
      (["run", "a", "b"], none) sampleRegistry 0).1 = 1 :=
  ⟨by decide,
   ((run_single_calls countingQueue (sampleModule (UUID.ofByte 7) "EXTENDED")
      ["run", "a", "b"] sampleRegistry 0 (by decide) (by decide)).2 (by decide)).1,
   ((run_single_calls countingQueue (sampleModule (UUID.ofByte 7) "EXTENDED")
      ["run", "a", "b"] sampleRegistry 0 (by decide) (by decide)).2 (by decide)).2.trans
      (by decide)⟩

/-- Claim C4. For `run` with a module type that is neither `standard` nor
`extended` (ignoring case), no `AddJob` call is made: whatever the target (one
agent or all agents), the registry and the result of `Run`. -/
theorem run_invalid_type_no_calls {σ : Type} (AddJob : AddJobFn σ) (mod : Module)
    (runResult : List String × Option String) (reg : Registry) (w : σ)
    (h1 : ToLower mod.Type_ ≠ "standard") (h2 : ToLower mod.Type_ ≠ "extended") :
    jobsOf (moduleRun AddJob mod runResult reg w).2 = [] := by
  obtain ⟨r, err⟩ := runResult
  cases err with
  | some e => rw [moduleRun_error]; rfl
  | none =>
    cases r with
    | nil => rw [moduleRun_empty]; rfl
    | cons r0 rs =>
      rw [jobsOf_moduleRun]
      split_ifs
      · simp [callsFor_invalid h1 h2]
      · exact callsFor_invalid h1 h2 _ _ _

theorem run_invalid_type_no_calls_witness :
    ToLower "bogus" ≠ "standard" ∧ ToLower "bogus" ≠ "extended" ∧
    jobsOf (moduleRun countingQueue (sampleModule UUID.broadcast "bogus")
      (["whoami"], none) sampleRegistry 0).2 = [] ∧
    jobsOf (moduleRun countingQueue (sampleModule (UUID.ofByte 7) "bogus")
      (["whoami"], none) sampleRegistry 0).2 = [] :=
  ⟨by decide, by decide,
   run_invalid_type_no_calls countingQueue (sampleModule UUID.broadcast "bogus")
      (["whoami"], none) sampleRegistry 0 (by decide) (by decide),
   run_invalid_type_no_calls countingQueue (sampleModule (UUID.ofByte 7) "bogus")
      (["whoami"], none) sampleRegistry 0 (by decide) (by decide)⟩

/-- With a module type that is neither `standard` nor `extended`, one submission
warns and then, `err` still being `nil`, emits the `Created job` note with the
job identifier `m` it started with. -/
theorem submit_invalid_type {σ : Type} (AddJob : AddJobFn σ) (ty : String) (id : UUID)
    (r0 : String) (rs : List String) (v : Vars σ)
    (h1 : ToLower ty ≠ "standard") (h2 : ToLower ty ≠ "extended") (herr : v.err = none) :
    submit AddJob ty id r0 rs v = (v, [invalidModuleType ty, createdJob v.m id]) := by
  simp [submit, typeSwitch, h1, h2, report, herr]

/-- With a target other than the all-agents identifier and a module type that
is neither `standard` nor `extended`, `run` warns and then reports a created job
whose identifier is empty; no job was added and the world is unchanged. -/
theorem run_single_invalid_type {σ : Type} (AddJob : AddJobFn σ) (mod : Module)
    (r0 : String) (rs : List String) (reg : Registry) (w : σ)
    (hsingle : mod.Agent ≠ UUID.broadcast)
    (h1 : ToLower mod.Type_ ≠ "standard") (h2 : ToLower mod.Type_ ≠ "extended") :
    moduleRun AddJob mod (r0 :: rs, none) reg w =
      (w, [invalidModuleType mod.Type_, createdJob "" mod.Agent]) := by
  have hb : isBroadcast mod = false := by
    rw [← Bool.not_eq_true, isBroadcast_iff]; exact hsingle
  simp [moduleRun, hb,
    submit_invalid_type AddJob mod.Type_ mod.Agent r0 rs ⟨w, "", none⟩ h1 h2 rfl]

/-- Claim C5 does not hold of the code.  With module type `bogus` the single-agent branch
emits the invalid-module-type warning and then a `Created job` note with an
empty job identifier; the broadcast branch does so for each agent of matching
platform. -/
theorem run_invalid_type_reports_created :
    (moduleRun countingQueue (sampleModule (UUID.ofByte 7) "bogus")
        (["whoami"], none) sampleRegistry 0).2 =
      [invalidModuleType "bogus", createdJob "" (UUID.ofByte 7)] ∧
    (moduleRun countingQueue (sampleModule UUID.broadcast "bogus")
        (["whoami"], none) sampleRegistry 0).2 =
      [invalidModuleType "bogus", createdJob "" (UUID.ofByte 1),
       skippingJob "windows" (UUID.ofByte 2) "linux",
       invalidModuleType "bogus", createdJob "" (UUID.ofByte 3)] := by
  decide

/-- Claim C6 does not hold of the code.  In a broadcast `run` of a module of type `bogus`
over two agents of matching platform, no `AddJob` call is made and yet two
`Created job` notes are emitted. -/
theorem run_broadcast_invalid_type_notes_without_calls :
    jobsOf (moduleRun countingQueue (sampleModule UUID.broadcast "bogus")
        (["whoami"], none) sampleRegistry 0).2 = [] ∧
    (moduleRun countingQueue (sampleModule UUID.broadcast "bogus")
        (["whoami"], none) sampleRegistry 0).2.countP Event.isCreatedJob = 2 := by
  decide

/-! ## Broadcast with no eligible agent -/

/-- When no entry passes the platform test the loop only emits skip notices and
leaves its variables alone. -/
theorem broadcastLoop_no_match {σ : Type} (AddJob : AddJobFn σ) (mod : Module)
    (r0 : String) (rs : List String) (reg : Registry) (v : Vars σ)
    (hnone : ∀ e ∈ reg, ToLower e.2.Platform ≠ ToLower mod.Platform) :
    broadcastLoop AddJob mod r0 rs reg v =
      (v, reg.map (fun e => skippingJob mod.Platform e.1 e.2.Platform)) := by
  induction reg with
  | nil => rfl
  | cons e rest ih =>
    obtain ⟨id, a⟩ := e
    have hhd : ToLower a.Platform ≠ ToLower mod.Platform := hnone (id, a) (List.mem_cons_self _ _)
    have htl := ih (fun x hx => hnone x (List.mem_cons_of_mem _ hx))
    simp [broadcastLoop, hhd, htl]

/-- Claim C7 does not hold of the code.  Over a registry holding one `linux` agent, a
broadcast `run` of a `windows` module matches no agent, and the trace is the one
skip notice: the "0 available agents" warning is not reported. -/
theorem run_broadcast_no_match_not_reported :
    (∀ e ∈ [(UUID.ofByte 2, Agent.mk "linux" (UUID.ofByte 2))],
      ToLower e.2.Platform ≠ ToLower (sampleModule UUID.broadcast "standard").Platform) ∧
    noAgents ∉ (moduleRun countingQueue (sampleModule UUID.broadcast "standard")
      (["whoami"], none) [(UUID.ofByte 2, Agent.mk "linux" (UUID.ofByte 2))] 0).2 := by
  decide

/-- Claim C7, amended. For every registry in which no agent's platform matches
the module's platform ignoring case, a broadcast `run` with a non-empty run
result makes no `AddJob` call and leaves the world unchanged; over the empty
registry it reports the "0 available agents" warning and nothing else, and over
a non-empty registry it reports one skip notice per registered agent and nothing
else. -/
theorem run_broadcast_no_match {σ : Type} (AddJob : AddJobFn σ) (mod : Module)
    (r : List String) (reg : Registry) (w : σ)
    (hall : mod.Agent = UUID.broadcast) (hr : r ≠ [])
    (hnone : ∀ e ∈ reg, ToLower e.2.Platform ≠ ToLower mod.Platform) :
    jobsOf (moduleRun AddJob mod (r, none) reg w).2 = [] ∧
    (moduleRun AddJob mod (r, none) reg w).1 = w ∧
    (reg = [] → (moduleRun AddJob mod (r, none) reg w).2 = [noAgents]) ∧
    (reg ≠ [] → (moduleRun AddJob mod (r, none) reg w).2 =
      reg.map (fun e => skippingJob mod.Platform e.1 e.2.Platform)) := by
  obtain ⟨r0, rs, rfl⟩ := List.exists_cons_of_ne_nil hr
  have hb : isBroadcast mod = true := (isBroadcast_iff mod).2 hall
  have hfil : reg.filter (platformMatches mod) = [] := by
    apply List.filter_eq_nil_iff.2
    intro e he
    simpa [platformMatches] using hnone e he
  refine ⟨?_, ?_, ?_, ?_⟩
  · rw [jobsOf_moduleRun, if_pos hall, hfil]; rfl
  · cases reg with
    | nil => simp [moduleRun, hb]
    | cons e rest => simp [moduleRun, hb, broadcastLoop_no_match AddJob mod r0 rs _ _ hnone]
  · intro h; subst h; exact moduleRun_broadcast_nil AddJob mod r0 rs w hall
  · intro h
    cases reg with
    | nil => exact absurd rfl h
    | cons e rest =>
      rw [moduleRun_broadcast_cons AddJob mod r0 rs e rest w hall,
        broadcastLoop_no_match AddJob mod r0 rs _ _ hnone]

theorem run_broadcast_no_match_witness :
    (moduleRun countingQueue (sampleModule UUID.broadcast "standard")
      (["whoami"], none) [(UUID.ofByte 2, Agent.mk "linux" (UUID.ofByte 2))] 0).2 =
      [skippingJob "windows" (UUID.ofByte 2) "linux"] ∧
    (moduleRun countingQueue (sampleModule UUID.broadcast "standard")
      (["whoami"], none) [] 0).2 = [noAgents] :=
  ⟨(run_broadcast_no_match countingQueue (sampleModule UUID.broadcast "standard")
      ["whoami"] [(UUID.ofByte 2, Agent.mk "linux" (UUID.ofByte 2))] 0 rfl (by decide) (by decide)).2.2.2
      (by decide),
   (run_broadcast_no_match countingQueue (sampleModule UUID.broadcast "standard")
      ["whoami"] [] 0 rfl (by decide) (by decide)).2.2.1 rfl⟩

/-! ## The sentinel is never a job target -/

theorem agent_of_mem_callsFor {ty : String} {id : UUID} {r0 : String} {rs : List String}
    {j : UUID × String × List String} (h : j ∈ callsFor ty id r0 rs) : j.1 = id := by
  unfold callsFor at h
  split_ifs at h <;> simp at h <;> simp [h]

/-- Claim C8. During `run`, provided no registered agent has the all-agents
identifier: the broadcast test of the code holds exactly when the module's
target is the all-agents identifier; in the broadcast branch every `AddJob` call
is addressed to an identifier enumerated from the registry; and no `AddJob` call
has the all-agents identifier `ffffffff-ffff-ffff-ffff-ffffffffffff` as its
agent argument. -/
theorem run_never_targets_sentinel {σ : Type} (AddJob : AddJobFn σ) (mod : Module)
    (runResult : List String × Option String) (reg : Registry) (w : σ)
    (hreg : ∀ e ∈ reg, e.1 ≠ UUID.broadcast) :
    (isBroadcast mod = true ↔ mod.Agent = UUID.broadcast) ∧
    (isBroadcast mod = true →
      ∀ j ∈ jobsOf (moduleRun AddJob mod runResult reg w).2, ∃ a, (j.1, a) ∈ reg) ∧
    (∀ j ∈ jobsOf (moduleRun AddJob mod runResult reg w).2,
      j.1 ≠ UUID.broadcast ∧ j.1.String ≠ "ffffffff-ffff-ffff-ffff-ffffffffffff") := by
  have key : ∀ j ∈ jobsOf (moduleRun AddJob mod runResult reg w).2,
      (mod.Agent = UUID.broadcast → ∃ a, (j.1, a) ∈ reg) ∧ j.1 ≠ UUID.broadcast := by
    obtain ⟨r, err⟩ := runResult
    cases err with
    | some e => rw [moduleRun_error]; intro j hj; cases hj
    | none =>
      cases r with
      | nil => rw [moduleRun_empty]; intro j hj; cases hj
      | cons r0 rs =>
        rw [jobsOf_moduleRun]
        intro j hj
        split_ifs at hj with hb
        · obtain ⟨e, he, hje⟩ := List.mem_flatMap.1 hj
          have hid := agent_of_mem_callsFor hje
          have hmem := (List.mem_filter.1 he).1
          exact ⟨fun _ => ⟨e.2, by rw [hid]; exact hmem⟩, by rw [hid]; exact hreg e hmem⟩
        · have hid := agent_of_mem_callsFor hj
          exact ⟨fun h => absurd h hb, by rw [hid]; exact hb⟩
  refine ⟨isBroadcast_iff mod, ?_, ?_⟩
  · intro hb j hj
    exact (key j hj).1 ((isBroadcast_iff mod).1 hb)
  · intro j hj
    exact ⟨(key j hj).2, fun h => (key j hj).2 ((String_eq_sentinel _).1 h)⟩

theorem run_never_targets_sentinel_witness :
    (∀ e ∈ sampleRegistry, e.1 ≠ UUID.broadcast) ∧
    (∀ j ∈ jobsOf (moduleRun countingQueue (sampleModule UUID.broadcast "standard")
        (["whoami"], none) sampleRegistry 0).2,
      j.1 ≠ UUID.broadcast ∧ j.1.String ≠ "ffffffff-ffff-ffff-ffff-ffffffffffff") :=
  ⟨by decide,
   (run_never_targets_sentinel countingQueue (sampleModule UUID.broadcast "standard")
      (["whoami"], none) sampleRegistry 0 (by decide)).2.2⟩

/-! ## `Run` failed or returned nothing -/

/-- Claim C9. For `run`: when `Run` returns an error or an empty result, no
`AddJob` call is made for any target and registry, the world is unchanged, and
the trace is exactly one message, a warning.  So an `AddJob` call is made only
after `Run` returned a non-empty result without error. -/
theorem run_failed_no_dispatch {σ : Type} (AddJob : AddJobFn σ) (mod : Module)
    (runResult : List String × Option String) (reg : Registry) (w : σ) :
    (runResult.2 ≠ none ∨ runResult.1 = [] →
      jobsOf (moduleRun AddJob mod runResult reg w).2 = [] ∧
      (moduleRun AddJob mod runResult reg w).1 = w ∧
      (moduleRun AddJob mod runResult reg w).2.length = 1 ∧
      (moduleRun AddJob mod runResult reg w).2.countP Event.isWarn = 1) ∧
    (jobsOf (moduleRun AddJob mod runResult reg w).2 ≠ [] →
      runResult.2 = none ∧ runResult.1 ≠ []) := by
  have main : runResult.2 ≠ none ∨ runResult.1 = [] →
      jobsOf (moduleRun AddJob mod runResult reg w).2 = [] ∧
      (moduleRun AddJob mod runResult reg w).1 = w ∧
      (moduleRun AddJob mod runResult reg w).2.length = 1 ∧
      (moduleRun AddJob mod runResult reg w).2.countP Event.isWarn = 1 := by
    obtain ⟨r, err⟩ := runResult
    intro h
    cases err with
    | some e => rw [moduleRun_error]; simp [jobsOf, Event.isWarn]
    | none =>
      rcases h with h | h
      · exact absurd rfl h
      · simp only at h
        subst h
        rw [moduleRun_empty]
        simp [jobsOf, Event.isWarn, noCommand]
  refine ⟨main, ?_⟩
  intro hjobs
  by_contra hcon
  apply hjobs
  apply (main _).1
  by_cases he : runResult.2 = none
  · right
    by_contra hr
    exact hcon ⟨he, hr⟩
  · exact Or.inl he

theorem run_failed_no_dispatch_witness :
    (jobsOf (moduleRun countingQueue (sampleModule UUID.broadcast "standard")
      (["whoami"], some "required option was not set") sampleRegistry 0).2 = [] ∧
     (moduleRun countingQueue (sampleModule UUID.broadcast "standard")
      (["whoami"], some "required option was not set") sampleRegistry 0).1 = 0 ∧
     (moduleRun countingQueue (sampleModule UUID.broadcast "standard")
      (["whoami"], some "required option was not set") sampleRegistry 0).2.length = 1 ∧
     (moduleRun countingQueue (sampleModule UUID.broadcast "standard")
      (["whoami"], some "required option was not set") sampleRegistry 0).2.countP
        Event.isWarn = 1) ∧
    (jobsOf (moduleRun countingQueue (sampleModule (UUID.ofByte 7) "standard")
      ([], none) sampleRegistry 0).2 = [] ∧
     (moduleRun countingQueue (sampleModule (UUID.ofByte 7) "standard")
      ([], none) sampleRegistry 0).1 = 0 ∧
     (moduleRun countingQueue (sampleModule (UUID.ofByte 7) "standard")
      ([], none) sampleRegistry 0).2.length = 1 ∧
     (moduleRun countingQueue (sampleModule (UUID.ofByte 7) "standard")
      ([], none) sampleRegistry 0).2.countP Event.isWarn = 1) :=
  ⟨(run_failed_no_dispatch countingQueue (sampleModule UUID.broadcast "standard")
      (["whoami"], some "required option was not set") sampleRegistry 0).1
      (Or.inl (by decide)),
   (run_failed_no_dispatch countingQueue (sampleModule (UUID.ofByte 7) "standard")
      ([], none) sampleRegistry 0).1 (Or.inr rfl)⟩

/-! ## Failure isolation in a broadcast of a valid module type -/

/-- With module type `standard` or `extended` one submission is one `AddJob`
call followed by the report of its result. -/
theorem submit_valid_type {σ : Type} (AddJob : AddJobFn σ) (ty : String) (id : UUID)
    (r0 : String) (rs : List String) (v : Vars σ)
    (hty : ToLower ty = "standard" ∨ ToLower ty = "extended") :
    ∃ c args, submit AddJob ty id r0 rs v =
      ({ world := (AddJob v.world id c args).2, m := (AddJob v.world id c args).1.1,
         err := (AddJob v.world id c args).1.2 },
       Event.AddJob id c args ::
        report id { world := (AddJob v.world id c args).2, m := (AddJob v.world id c args).1.1,
                    err := (AddJob v.world id c args).1.2 }) := by
  rcases hty with h | h
  · exact ⟨"cmd", r0 :: rs, by simp [submit, typeSwitch, h]⟩
  · exact ⟨r0, rs, by simp [submit, typeSwitch, h]⟩

/-- In the broadcast loop of a module of type `standard` or `extended`, the
`Created job` notes are those of the calls that returned no error, each with the
job identifier returned for its agent, and there are two warnings per call that
returned an error. -/
theorem broadcastLoop_reports {σ : Type} (AddJob : AddJobFn σ) (mod : Module)
    (r0 : String) (rs : List String) (reg : Registry) (v : Vars σ)
    (hty : ToLower mod.Type_ = "standard" ∨ ToLower mod.Type_ = "extended") :
    (broadcastLoop AddJob mod r0 rs reg v).2.filter Event.isCreatedJob =
      createdNotes (jobsOf (broadcastLoop AddJob mod r0 rs reg v).2)
        (resultsOf AddJob (jobsOf (broadcastLoop AddJob mod r0 rs reg v).2) v.world) ∧
    (broadcastLoop AddJob mod r0 rs reg v).2.countP Event.isWarn =
      2 * (resultsOf AddJob (jobsOf (broadcastLoop AddJob mod r0 rs reg v).2)
        v.world).countP (fun x => x.2.isSome) := by
  induction reg generalizing v with
  | nil => simp [broadcastLoop, jobsOf, createdNotes, resultsOf]
  | cons e rest ih =>
    obtain ⟨id, a⟩ := e
    by_cases h : ToLower a.Platform = ToLower mod.Platform
    · obtain ⟨c, args, hsub⟩ := submit_valid_type AddJob mod.Type_ id r0 rs v hty
      have ih2 := ih ⟨(AddJob v.world id c args).2, (AddJob v.world id c args).1.1,
        (AddJob v.world id c args).1.2⟩
      simp only [broadcastLoop, h, ne_eq, not_true_eq_false, if_false, hsub]
      generalize hres : AddJob v.world id c args = res at ih2 ⊢
      obtain ⟨⟨m, err⟩, w2⟩ := res
      cases err with
      | none =>
        simp only [report, List.cons_append, List.nil_append, jobsOf, resultsOf, hres,
          createdNotes]
        constructor
        · simp [List.filter_cons, Event.isCreatedJob, createdJob, ih2.1]
        · simp [List.countP_cons, Event.isWarn, createdJob, ih2.2]
      | some e =>
        simp only [report, List.cons_append, List.nil_append, jobsOf, resultsOf, hres,
          createdNotes]
        constructor
        · simp [List.filter_cons, Event.isCreatedJob, addJobFailed, jobsOf, ih2.1]
        · simp [List.countP_cons, Event.isWarn, addJobFailed, jobsOf, ih2.2]
          omega
    · have ih2 := ih v
      simp only [broadcastLoop, h, ne_eq, not_false_eq_true, if_true]
      constructor
      · simp [List.filter_cons, Event.isCreatedJob, skippingJob, jobsOf, ih2.1]
      · simp [List.countP_cons, Event.isWarn, skippingJob, jobsOf, ih2.2]

/-- Failure isolation.  In a broadcast `run` of a module of type
`standard` or `extended` over a non-empty registry: the `AddJob` calls are the
same for every job queue and world (so one agent's failure never prevents the
call for another); the `Created job` notes are those of the calls that returned
no error, each carrying the job identifier returned for its agent; and every
call that returned an error is reported by two warnings. -/
theorem run_broadcast_isolation {σ : Type} (AddJob : AddJobFn σ) (mod : Module)
    (r : List String) (reg : Registry) (w : σ)
    (hall : mod.Agent = UUID.broadcast) (hr : r ≠ []) (hreg : reg ≠ [])
    (hty : ToLower mod.Type_ = "standard" ∨ ToLower mod.Type_ = "extended") :
    (∀ (τ : Type) (AddJob2 : AddJobFn τ) (w2 : τ),
      jobsOf (moduleRun AddJob2 mod (r, none) reg w2).2 =
        jobsOf (moduleRun AddJob mod (r, none) reg w).2) ∧
    (moduleRun AddJob mod (r, none) reg w).2.filter Event.isCreatedJob =
      createdNotes (jobsOf (moduleRun AddJob mod (r, none) reg w).2)
        (resultsOf AddJob (jobsOf (moduleRun AddJob mod (r, none) reg w).2) w) ∧
    (moduleRun AddJob mod (r, none) reg w).2.countP Event.isWarn =
      2 * (resultsOf AddJob (jobsOf (moduleRun AddJob mod (r, none) reg w).2)
        w).countP (fun x => x.2.isSome) := by
  obtain ⟨r0, rs, rfl⟩ := List.exists_cons_of_ne_nil hr
  obtain ⟨e, rest, rfl⟩ := List.exists_cons_of_ne_nil hreg
  refine ⟨fun τ AddJob2 w2 => by rw [jobsOf_moduleRun, jobsOf_moduleRun], ?_⟩
  rw [moduleRun_broadcast_cons AddJob mod r0 rs e rest w hall]
  exact broadcastLoop_reports AddJob mod r0 rs (e :: rest) _ hty

theorem run_broadcast_isolation_witness :
    (moduleRun flakyQueue (sampleModule UUID.broadcast "extended")
      (["run", "a"], none) sampleRegistry 1).2.filter Event.isCreatedJob =
      [createdJob "job2" (UUID.ofByte 3)] ∧
    (moduleRun flakyQueue (sampleModule UUID.broadcast "extended")
      (["run", "a"], none) sampleRegistry 1).2.countP Event.isWarn = 2 :=
  ⟨(run_broadcast_isolation flakyQueue (sampleModule UUID.broadcast "extended")
      ["run", "a"] sampleRegistry 1 rfl (by decide) (by decide)
      (Or.inr (by decide))).2.1.trans (by decide),
   (run_broadcast_isolation flakyQueue (sampleModule UUID.broadcast "extended")
      ["run", "a"] sampleRegistry 1 rfl (by decide) (by decide)
      (Or.inr (by decide))).2.2.trans (by decide)⟩

/-! ## The agent menu: `set` -/

theorem jobsOf_addJobAndReport {σ : Type} (AddJob : AddJobFn σ) (shellAgent : UUID)
    (jobType : String) (jobArgs : List String) (onError : String → Text) (w : σ) :
    jobsOf (addJobAndReport AddJob shellAgent jobType jobArgs onError w).2 =
      [(shellAgent, jobType, jobArgs)] := by
  unfold addJobAndReport
  simp only [jobsOf]
  split <;> rfl

/-- For `set p v w...` with `p` one of `maxretry`, `padding`, `sleep`, `skew`,
the job is added with the arguments as typed: `v` is not parsed. -/
theorem agentSet_unvalidated {σ : Type} (AddJob : AddJobFn σ) (shellAgent : UUID)
    (c0 p v : String) (args : List String) (w : σ)
    (hp : p ∈ ["maxretry", "padding", "sleep", "skew"]) :
    jobsOf (agentSet AddJob shellAgent (c0 :: p :: v :: args) w).2 =
      [(shellAgent, p, p :: v :: args)] := by
  simp only [List.mem_cons, List.mem_singleton, List.not_mem_nil, or_false] at hp
  rcases hp with rfl | rfl | rfl | rfl <;>
    simp [agentSet, jobsOf_addJobAndReport]

theorem agentSet_unvalidated_witness :
    jobsOf (agentSet flakyQueue (UUID.ofByte 9) ["set", "padding", "many"] 1).2 =
      [(UUID.ofByte 9, "padding", ["padding", "many"])] :=
  agentSet_unvalidated flakyQueue (UUID.ofByte 9) "set" "padding" "many" [] 1 (by decide)

/-- Claim C10 does not hold of the code.  `set sleep abc`, `set skew abc`,
`set maxretry abc` and `set padding abc` each add a job to the current agent
with the value as typed and report it as created; of the five parameters only
`killdate` is parsed, and `set killdate abc` adds no job. -/
theorem set_unparsed_value_submitted :
    (agentSet countingQueue (UUID.ofByte 9) ["set", "sleep", "abc"] 0).2 =
      [Event.AddJob (UUID.ofByte 9) "sleep" ["sleep", "abc"],
       createdJob "job0" (UUID.ofByte 9)] ∧
    jobsOf (agentSet countingQueue (UUID.ofByte 9) ["set", "skew", "abc"] 0).2 =
      [(UUID.ofByte 9, "skew", ["skew", "abc"])] ∧
    jobsOf (agentSet countingQueue (UUID.ofByte 9) ["set", "maxretry", "abc"] 0).2 =
      [(UUID.ofByte 9, "maxretry", ["maxretry", "abc"])] ∧
    jobsOf (agentSet countingQueue (UUID.ofByte 9) ["set", "padding", "abc"] 0).2 =
      [(UUID.ofByte 9, "padding", ["padding", "abc"])] ∧
    jobsOf (agentSet countingQueue (UUID.ofByte 9) ["set", "killdate", "abc"] 0).2 = [] := by
  decide

/-! ## The agent menu: `set killdate` -/

theorem le_foldl_decimal (cs : List Char) (n : Nat) :
    n ≤ cs.foldl (fun n c => n * 10 + (c.toNat - 48)) n := by
  induction cs generalizing n with
  | nil => exact Nat.le_refl n
  | cons c cs ih =>
    simp only [List.foldl_cons]
    exact Nat.le_trans (by omega) (ih _)

/-- The digit loop succeeds on digits whose value fits in 64 bits, with that
value. -/
theorem parseUintLoop_ok (cs : List Char) (n : Nat)
    (hd : cs.all isDecimalDigit = true)
    (hv : cs.foldl (fun n c => n * 10 + (c.toNat - 48)) n < 2 ^ 64) :
    parseUintLoop cs n = (cs.foldl (fun n c => n * 10 + (c.toNat - 48)) n, none) := by
  induction cs generalizing n with
  | nil => rfl
  | cons c cs ih =>
    simp only [List.all_cons, Bool.and_eq_true, isDecimalDigit, decide_eq_true_eq] at hd
    simp only [List.foldl_cons] at hv ⊢
    have hle := le_foldl_decimal cs (n * 10 + (c.toNat - 48))
    have h64 : (2 : Nat) ^ 64 = 18446744073709551616 := by norm_num
    rw [h64] at hv
    have hn : ¬ n ≥ 1844674407370955162 := by omega
    have hmod1 : n * 10 % 2 ^ 64 = n * 10 := by rw [h64]; omega
    have hmod2 : (n * 10 + (c.toNat - 48)) % 2 ^ 64 = n * 10 + (c.toNat - 48) := by
      rw [h64]; omega
    have hstep : ¬ (n * 10 + (c.toNat - 48) < n * 10 ∨ n * 10 + (c.toNat - 48) > 2 ^ 64 - 1) := by
      rw [h64]; omega
    rw [parseUintLoop]
    simp only [hd.1, and_self, if_true, hn, if_false, hmod1, hmod2, hstep]
    exact ih _ hd.2 (by rw [h64]; exact hv)

/-- A range error of the digit loop comes with the value `maxUint64`. -/
theorem parseUintLoop_range (cs : List Char) (n : Nat)
    (h : (parseUintLoop cs n).2 = some .ErrRange) : (parseUintLoop cs n).1 = 2 ^ 64 - 1 := by
  induction cs generalizing n with
  | nil => simp [parseUintLoop] at h
  | cons c cs ih =>
    rw [parseUintLoop] at h ⊢
    dsimp only at h ⊢
    split_ifs at h ⊢ with h1 h2 h3
    · rfl
    · rfl
    · exact ih _ h
    · simp at h

/-- When the digit loop succeeds from a 64-bit value, the characters are digits
and the result is their value, which fits in 64 bits. -/
theorem parseUintLoop_none (cs : List Char) (n : Nat) (hn : n < 2 ^ 64)
    (h : (parseUintLoop cs n).2 = none) :
    cs.all isDecimalDigit = true ∧
      (parseUintLoop cs n).1 = cs.foldl (fun n c => n * 10 + (c.toNat - 48)) n ∧
      cs.foldl (fun n c => n * 10 + (c.toNat - 48)) n < 2 ^ 64 := by
  induction cs generalizing n with
  | nil => exact ⟨rfl, rfl, hn⟩
  | cons c cs ih =>
    have h64 : (2 : Nat) ^ 64 = 18446744073709551616 := by norm_num
    rw [parseUintLoop] at h ⊢
    dsimp only at h ⊢
    split_ifs at h ⊢ with h1 h2 h3
    · have hmod1 : n * 10 % 2 ^ 64 = n * 10 := by rw [h64]; omega
      have hlt : (n * 10 + (c.toNat - 48)) % 2 ^ 64 = n * 10 + (c.toNat - 48) := by
        rw [hmod1] at h3
        rw [h64] at h3 ⊢
        omega
      rw [hmod1, hlt] at h ⊢
      have := ih (n * 10 + (c.toNat - 48)) (by rw [← hlt]; exact Nat.mod_lt _ (by norm_num)) h
      simp only [List.all_cons, List.foldl_cons, Bool.and_eq_true, isDecimalDigit,
        decide_eq_true_eq]
      exact ⟨⟨h1, this.1⟩, this.2⟩

/-- The function `ParseUint` returns no error exactly on a non-empty sequence of
digits whose value fits in 64 bits, and then returns that value. -/
theorem ParseUint_none_iff (cs : List Char) :
    (ParseUint cs).2 = none ↔
      cs ≠ [] ∧ cs.all isDecimalDigit = true ∧ decimalValue cs < 2 ^ 64 := by
  cases cs with
  | nil => simp [ParseUint]
  | cons c cs =>
    simp only [ParseUint, ne_eq, reduceCtorEq, not_false_eq_true, true_and]
    constructor
    · intro h
      have := parseUintLoop_none (c :: cs) 0 (by norm_num) h
      exact ⟨this.1, this.2.2⟩
    · intro h
      rw [parseUintLoop_ok (c :: cs) 0 h.1 h.2]

theorem ParseUint_value (cs : List Char) (h : (ParseUint cs).2 = none) :
    (ParseUint cs).1 = decimalValue cs := by
  cases cs with
  | nil => simp [ParseUint] at h
  | cons c cs => exact (parseUintLoop_none (c :: cs) 0 (by norm_num) h).2.1

theorem ParseUint_range (cs : List Char) (h : (ParseUint cs).2 = some .ErrRange) :
    (ParseUint cs).1 = 2 ^ 64 - 1 := by
  cases cs with
  | nil => simp [ParseUint] at h
  | cons c cs => exact parseUintLoop_range (c :: cs) 0 h

/-- The function `ParseInt` returns no error exactly on the base-10 signed
64-bit integers. -/
theorem ParseInt_none_iff (v : String) : (ParseInt v).2 = none ↔ isInt64Literal v = true := by
  have h63 : (2 : Nat) ^ 63 = 9223372036854775808 := by norm_num
  have h64 : (2 : Nat) ^ 64 = 18446744073709551616 := by norm_num
  unfold ParseInt isInt64Literal
  cases hdata : v.data with
  | nil => simp
  | cons c cs =>
    dsimp only
    have key : ∀ (neg : Bool) (rest : List Char),
        ((if (ParseUint rest).2 = some NumError.ErrSyntax then
            ((0 : Int), some NumError.ErrSyntax)
          else if (!neg && decide ((ParseUint rest).1 ≥ 2 ^ 63)) = true then
            (2 ^ 63 - 1, some NumError.ErrRange)
          else if (neg && decide ((ParseUint rest).1 > 2 ^ 63)) = true then
            (-(2 ^ 63), some NumError.ErrRange)
          else (if neg = true then -((ParseUint rest).1 : Int)
            else ((ParseUint rest).1 : Int), none)).2 = none) ↔
        (rest ≠ [] ∧ rest.all isDecimalDigit = true ∧
          (if neg = true then decimalValue rest ≤ 2 ^ 63 else decimalValue rest < 2 ^ 63)) := by
      intro neg rest
      constructor
      · intro h
        split_ifs at h with e1 e2 e3 e4
        all_goals
          have hnone : (ParseUint rest).2 = none := by
            cases hu : (ParseUint rest).2 with
            | none => rfl
            | some e =>
              cases e with
              | ErrSyntax => exact absurd hu e1
              | ErrRange =>
                have hr := ParseUint_range rest hu
                rw [h64] at hr
                cases neg <;> simp [hr] at e2 e3
          obtain ⟨hne, hdig, _⟩ := (ParseUint_none_iff rest).1 hnone
          have hval := ParseUint_value rest hnone
          rw [hval] at e2 e3
          refine ⟨hne, hdig, ?_⟩
          cases neg
          · simpa using e2
          · simpa using e3
      · rintro ⟨hne, hdig, hval⟩
        have hlt : decimalValue rest < 2 ^ 64 := by
          rw [h64]; rw [h63] at hval
          cases neg
          · simp at hval; omega
          · simp at hval; omega
        have hnone := (ParseUint_none_iff rest).2 ⟨hne, hdig, hlt⟩
        have hv := ParseUint_value rest hnone
        rw [hnone, hv]
        cases neg
        · simp at hval; simp [Nat.not_le.2 hval]
        · simp at hval; simp [Nat.not_lt.2 hval]
    by_cases hm : c = '-'
    · subst hm
      have := key true cs
      simp only [if_true, decide_True, or_true, Bool.and_eq_true, Bool.not_eq_true',
        List.isEmpty_eq_false, decide_eq_true_eq, ne_eq] at this ⊢
      simpa [and_assoc] using this
    · by_cases hp : c = '+'
      · subst hp
        have := key false cs
        simp only [hm, if_false, decide_False, decide_True, true_or, if_true, Bool.and_eq_true,
          Bool.not_eq_true', List.isEmpty_eq_false, decide_eq_true_eq, ne_eq] at this ⊢
        simpa [and_assoc] using this
      · have := key false (c :: cs)
        simp only [hm, hp, if_false, decide_False, or_self, Bool.and_eq_true,
          decide_eq_true_eq, ne_eq] at this ⊢
        simpa using this

/-- Claim C11. For `set killdate v w...` in the agent menu: if `v` is a base-10
signed 64-bit integer the `AddJob` calls are exactly the one call
`AddJob(currentAgent, "killdate", ["killdate", v, w...])`, the job queue the
command leaves behind is the one this call returns from the queue before, and
the trace is the call followed by its report (the note with the job identifier
the call returned, or the warning with its error); otherwise the world is
unchanged and the trace is the conversion warning followed by the UNIX-epoch
hint, with no `AddJob` call.  So that call is made if and only if `v` parses. -/
theorem set_killdate_parsed {σ : Type} (AddJob : AddJobFn σ) (shellAgent : UUID)
    (c0 v : String) (ws : List String) (w : σ) :
    (isInt64Literal v = true →
      jobsOf (agentSet AddJob shellAgent (c0 :: "killdate" :: v :: ws) w).2 =
        [(shellAgent, "killdate", "killdate" :: v :: ws)] ∧
      (agentSet AddJob shellAgent (c0 :: "killdate" :: v :: ws) w).1 =
        (AddJob w shellAgent "killdate" ("killdate" :: v :: ws)).2 ∧
      (agentSet AddJob shellAgent (c0 :: "killdate" :: v :: ws) w).2 =
        [Event.AddJob shellAgent "killdate" ("killdate" :: v :: ws),
          (match (AddJob w shellAgent "killdate" ("killdate" :: v :: ws)).1.2 with
           | some e => Event.message "warn" (.Sprintf
               "There was an error adding a killdate agent control message:\r\n%s" [.str e])
           | none =>
             createdJob (AddJob w shellAgent "killdate" ("killdate" :: v :: ws)).1.1
               shellAgent)]) ∧
    (isInt64Literal v = false →
      agentSet AddJob shellAgent (c0 :: "killdate" :: v :: ws) w =
        (w, [.message "warn" (.Sprintf "There was an error converting %s to an int64" [.str v]),
             .message "info" (.lit ("Kill date takes in a UNIX epoch timestamp such as" ++
               " 811123200 for September 15, 1995"))])) ∧
    ((shellAgent, "killdate", "killdate" :: v :: ws) ∈
        jobsOf (agentSet AddJob shellAgent (c0 :: "killdate" :: v :: ws) w).2 ↔
      isInt64Literal v = true) := by
  have hyes : isInt64Literal v = true →
      jobsOf (agentSet AddJob shellAgent (c0 :: "killdate" :: v :: ws) w).2 =
        [(shellAgent, "killdate", "killdate" :: v :: ws)] := by
    intro h
    have hp := (ParseInt_none_iff v).2 h
    simp [agentSet, hp, jobsOf_addJobAndReport]
  have hno : isInt64Literal v = false →
      agentSet AddJob shellAgent (c0 :: "killdate" :: v :: ws) w =
        (w, [.message "warn" (.Sprintf "There was an error converting %s to an int64" [.str v]),
             .message "info" (.lit ("Kill date takes in a UNIX epoch timestamp such as" ++
               " 811123200 for September 15, 1995"))]) := by
    intro h
    have hp : (ParseInt v).2 ≠ none := by
      intro hc
      rw [(ParseInt_none_iff v).1 hc] at h
      exact Bool.noConfusion h
    simp [agentSet, hp]
  have hrun : isInt64Literal v = true →
      agentSet AddJob shellAgent (c0 :: "killdate" :: v :: ws) w =
        addJobAndReport AddJob shellAgent "killdate" ("killdate" :: v :: ws)
          (fun e => .Sprintf
            "There was an error adding a killdate agent control message:\r\n%s" [.str e]) w := by
    intro h
    have hp := (ParseInt_none_iff v).2 h
    simp [agentSet, hp]
  refine ⟨fun h => ⟨hyes h, ?_, ?_⟩, hno, ?_⟩
  · rw [hrun h]
    rfl
  · rw [hrun h]
    unfold addJobAndReport
    dsimp only
    cases (AddJob w shellAgent "killdate" ("killdate" :: v :: ws)).1.2 <;> rfl
  constructor
  · intro hmem
    by_contra hc
    rw [hno (by simpa using hc)] at hmem
    simp [jobsOf] at hmem
  · intro h
    rw [hyes h]
    exact List.mem_singleton.2 rfl

theorem set_killdate_parsed_witness :
    jobsOf (agentSet countingQueue (UUID.ofByte 9)
        ["set", "killdate", "-9223372036854775808", "x"] 0).2 =
      [(UUID.ofByte 9, "killdate", ["killdate", "-9223372036854775808", "x"])] ∧
    (agentSet countingQueue (UUID.ofByte 9)
        ["set", "killdate", "-9223372036854775808", "x"] 0).1 = 1 ∧
    jobsOf (agentSet countingQueue (UUID.ofByte 9)
        ["set", "killdate", "9223372036854775808"] 0).2 = [] :=
  ⟨((set_killdate_parsed countingQueue (UUID.ofByte 9) "set" "-9223372036854775808" ["x"] 0).1
      (by decide)).1,
   ((set_killdate_parsed countingQueue (UUID.ofByte 9) "set" "-9223372036854775808" ["x"] 0).1
      (by decide)).2.1.trans (by decide),
   by rw [(set_killdate_parsed countingQueue (UUID.ofByte 9) "set" "9223372036854775808"
      [] 0).2.1 (by decide)]; rfl⟩

/-! ## The agent menu: `cmd` and `shell` -/

/-- Lower-casing an ASCII character never yields the letter `Y`. -/
theorem ascii_toLower_ne_upperY (c : Char) : c.toLower ≠ 'Y' := by
  unfold Char.toLower
  dsimp only
  split_ifs with h
  · generalize c.toNat = n at h
    obtain ⟨h1, h2⟩ := h
    interval_cases n <;> decide
  · intro hc
    subst hc
    exact h (by decide)

set_option maxRecDepth 100000 in
/-- Every image in the table lies above the ASCII capitals. -/
theorem lowerRanges_image : ∀ r ∈ lowerRanges, 89 < r.2.2.2 := by
  decide

theorem ofNat_ne_upperY (m : Nat) (h : 89 < m) : Char.ofNat m ≠ 'Y' := by
  intro hc
  by_cases hv : m.isValidChar
  · have h1 : Char.ofNat m = Char.ofNatAux m hv := by
      unfold Char.ofNat; rw [dif_pos hv]
    have hlt : m < 4294967296 := by
      rcases hv with h | ⟨_, h⟩ <;> omega
    have h2 : (Char.ofNatAux m hv).toNat = m := by
      simp [Char.ofNatAux, Char.toNat, UInt32.toNat, Nat.mod_eq_of_lt hlt]
    have h3 : (Char.ofNat m).toNat = 89 := by rw [hc]; decide
    rw [h1, h2] at h3
    omega
  · have h1 : Char.ofNat m = '\x00' := by
      unfold Char.ofNat; rw [dif_neg hv]; rfl
    rw [h1] at hc
    revert hc
    decide

/-- Lower-casing never yields the letter `Y`. -/
theorem toLower_ne_upperY (c : Char) : lowerRune c ≠ 'Y' := by
  unfold lowerRune
  split_ifs with h
  · exact ascii_toLower_ne_upperY c
  · split
    · rename_i r hr
      exact ofNat_ne_upperY _ (by
        have := lowerRanges_image r (List.mem_of_find?_eq_some hr)
        omega)
    · intro hc
      subst hc
      exact h (by decide)

theorem mem_data_Trim {x : Char} {s cutset : String} (h : x ∈ (Trim s cutset).data) :
    x ∈ s.data := by
  unfold Trim at h
  simp only [List.mem_reverse] at h
  have h1 := (List.dropWhile_sublist _).subset h
  rw [List.mem_reverse] at h1
  exact (List.dropWhile_sublist _).subset h1

/-- A lower-cased and trimmed response is never `-Y`. -/
theorem Trim_ToLower_ne (s cutset : String) : Trim (ToLower s) cutset ≠ "-Y" := by
  intro h
  have hmem : 'Y' ∈ (Trim (ToLower s) cutset).data := by
    rw [h]; decide
  have h2 := mem_data_Trim hmem
  simp only [ToLower, List.mem_map] at h2
  obtain ⟨c, _, hc⟩ := h2
  exact toLower_ne_upperY c hc

/-- Claim C20. The function `confirm` returns true exactly when the response,
lower-cased and with carriage returns and newlines removed from both ends, is
`y`, `yes` or `-y`; so the empty response and a response with surrounding spaces
give false, and `YES` followed by the line end gives true. -/
theorem confirm_true_iff (stdin : String × Option String) :
    ((confirm stdin).1 = true ↔ Trim (ToLower stdin.1) "\r\n" ∈ ["y", "yes", "-y"]) ∧
    (confirm ("", none)).1 = false ∧
    (confirm ("\n", none)).1 = false ∧
    (confirm (" y \r\n", none)).1 = false ∧
    (confirm ("YES\r\n", none)).1 = true ∧
    (confirm ("-Y\n", none)).1 = true := by
  refine ⟨?_, by decide, by decide, by decide, by decide, by decide⟩
  have hne := Trim_ToLower_ne stdin.1 "\r\n"
  simp [confirm, hne]

/-! ## The main menu: `interact` -/

/-- The console after an agent was selected. -/
theorem menuSetAgent_fixed (i : UUID) (reg : Registry) (sh : Shell)
    (h1 : sh.shellAgent = i) (h2 : sh.shellMenuContext = "agent") :
    menuSetAgent i reg sh = sh := by
  induction reg with
  | nil => rfl
  | cons e rest ih =>
    have hstep : (if i = e.2.ID then
        { sh with shellAgent := i, shellMenuContext := "agent" } else sh) = sh := by
      split_ifs
      · cases sh; simp only at h1 h2; subst h1; subst h2; rfl
      · rfl
    unfold menuSetAgent at ih ⊢
    rw [List.foldl_cons, hstep]
    exact ih

/-- When no agent has the identifier, `menuSetAgent` changes nothing. -/
theorem menuSetAgent_of_not_mem (i : UUID) (reg : Registry) (sh : Shell)
    (h : ∀ e ∈ reg, e.2.ID ≠ i) : menuSetAgent i reg sh = sh := by
  induction reg with
  | nil => rfl
  | cons e rest ih =>
    have hne : ¬ i = e.2.ID := fun hc => h e (List.mem_cons_self _ _) hc.symm
    unfold menuSetAgent at ih ⊢
    rw [List.foldl_cons, if_neg hne]
    exact ih (fun x hx => h x (List.mem_cons_of_mem _ hx))

/-- When an agent has the identifier, `menuSetAgent` makes it the current agent
and enters the agent menu. -/
theorem menuSetAgent_of_mem (i : UUID) (reg : Registry) (sh : Shell)
    (h : ∃ e ∈ reg, e.2.ID = i) :
    menuSetAgent i reg sh = { sh with shellAgent := i, shellMenuContext := "agent" } := by
  induction reg with
  | nil => obtain ⟨e, he, _⟩ := h; cases he
  | cons e rest ih =>
    by_cases hhd : i = e.2.ID
    · have := menuSetAgent_fixed i rest
        { sh with shellAgent := i, shellMenuContext := "agent" } rfl rfl
      unfold menuSetAgent at this ⊢
      rw [List.foldl_cons, if_pos hhd]
      exact this
    · have hrest : ∃ x ∈ rest, x.2.ID = i := by
        obtain ⟨x, hx, hxi⟩ := h
        rcases List.mem_cons.1 hx with rfl | hx2
        · exact absurd hxi.symm hhd
        · exact ⟨x, hx2, hxi⟩
      unfold menuSetAgent at ih ⊢
      rw [List.foldl_cons, if_neg hhd]
      exact ih hrest

/-- Claim C18. For `interact s` in the main menu and for `agent interact s`: if
`s` is not a valid UUID, or is the identifier of no agent in the registry, the
console state (menu context and current agent included) is left unchanged; if
`s` is the identifier `i` of a registered agent, the menu context becomes
`agent`, the current agent becomes `i`, and nothing else of the state changes. -/
theorem interact_selects_registered_agent {σ : Type} (api : AgentsAPI σ) (reg : Registry)
    (c0 c1 s : String) (rest : List String) (sh : Shell) (w : σ) :
    ((api.FromString s = none ∨ ∃ i, api.FromString s = some i ∧ ∀ e ∈ reg, e.2.ID ≠ i) →
      (mainInteract api reg (c0 :: s :: rest) sh w).shell = sh ∧
      (mainAgent api reg (c1 :: "interact" :: s :: rest) sh w).shell = sh) ∧
    (∀ i, api.FromString s = some i → (∃ e ∈ reg, e.2.ID = i) →
      (mainInteract api reg (c0 :: s :: rest) sh w).shell =
        { sh with shellAgent := i, shellMenuContext := "agent" } ∧
      (mainAgent api reg (c1 :: "interact" :: s :: rest) sh w).shell =
        { sh with shellAgent := i, shellMenuContext := "agent" }) := by
  constructor
  · rintro (h | ⟨i, hi, hno⟩)
    · simp [mainInteract, mainAgent, menuAgent, h]
    · simp [mainInteract, mainAgent, menuAgent, hi, menuSetAgent_of_not_mem i reg sh hno]
  · intro i hi hmem
    simp [mainInteract, mainAgent, menuAgent, hi, menuSetAgent_of_mem i reg sh hmem]

theorem interact_selects_registered_agent_witness :
    ((mainInteract sampleAgents sampleRegistry ["interact", "not-a-uuid"]
        (sampleShell "main" none) 0).shell = sampleShell "main" none ∧
     (mainAgent sampleAgents sampleRegistry ["agent", "interact", "not-a-uuid"]
        (sampleShell "main" none) 0).shell = sampleShell "main" none) ∧
    ((mainInteract sampleAgents sampleRegistry
        ["interact", "09090909-0909-0909-0909-090909090909"]
        (sampleShell "main" none) 0).shell = sampleShell "main" none ∧
     (mainAgent sampleAgents sampleRegistry
        ["agent", "interact", "09090909-0909-0909-0909-090909090909"]
        (sampleShell "main" none) 0).shell = sampleShell "main" none) ∧
    ((mainInteract sampleAgents sampleRegistry
        ["interact", "03030303-0303-0303-0303-030303030303"]
        (sampleShell "main" none) 0).shell =
        { sampleShell "main" none with
          shellAgent := UUID.ofByte 3, shellMenuContext := "agent" } ∧
     (mainAgent sampleAgents sampleRegistry
        ["agent", "interact", "03030303-0303-0303-0303-030303030303"]
        (sampleShell "main" none) 0).shell =
        { sampleShell "main" none with
          shellAgent := UUID.ofByte 3, shellMenuContext := "agent" }) :=
  ⟨(interact_selects_registered_agent sampleAgents sampleRegistry "interact" "agent"
      "not-a-uuid" [] (sampleShell "main" none) 0).1 (Or.inl (by decide)),
   (interact_selects_registered_agent sampleAgents sampleRegistry "interact" "agent"
      "09090909-0909-0909-0909-090909090909" [] (sampleShell "main" none) 0).1
      (Or.inr ⟨UUID.ofByte 9, by decide, by decide⟩),
   (interact_selects_registered_agent sampleAgents sampleRegistry "interact" "agent"
      "03030303-0303-0303-0303-030303030303" [] (sampleShell "main" none) 0).2
      (UUID.ofByte 3) (by decide) ⟨(UUID.ofByte 3, ⟨"windows", UUID.ofByte 3⟩), by decide, rfl⟩⟩

/-! ## The listener menus: `stop` -/

theorem stopsOf_stopServer {σ : Type} (api : ListenersAPI σ) (l : Listener) (format : String)
    (w : σ) : stopsOf (stopServer api l format w).2 = [l.Server] := by
  unfold stopServer
  cases api.Stop w l.Server with
  | mk err w2 => cases err <;> rfl

/-- The `stop` case of `menuListenerSetup`. -/
theorem menuListenerSetup_stop {σ : Type} (api : ListenersAPI σ) (cmd0 : String)
    (args : List String) (stdin : String × Option String) (sh : Shell) (w : σ)
    (hc : ToLower cmd0 = "stop") :
    menuListenerSetup api (cmd0 :: args) stdin sh w =
      match sh.shellListener with
      | none => ⟨sh, w, [nilDereference]⟩
      | some l =>
        if api.Status w l.Server = .Running then
          ⟨sh, (stopServer api l "%s listener was stopped" w).1,
            (stopServer api l "%s listener was stopped" w).2⟩
        else ⟨sh, w, [Event.message "note" (.lit "this listener is not running")]⟩ := by
  unfold menuListenerSetup
  simp only [hc]
  rw [if_neg (by decide), if_neg (by decide), if_neg (by decide), if_neg (by decide),
    if_neg (by decide), if_neg (by decide), if_neg (by decide), if_pos trivial]

/-- The statement `err := l.Server.Stop()` with its report, written out. -/
theorem stopServer_eq {σ : Type} (api : ListenersAPI σ) (l : Listener) (format : String)
    (w : σ) :
    stopServer api l format w =
      ((api.Stop w l.Server).2,
        [Event.ServerStop l.Server,
          (match (api.Stop w l.Server).1 with
           | some e => Event.message "warn" (.lit e)
           | none => Event.message "success" (.Sprintf format [.str l.Name]))]) := by
  unfold stopServer
  dsimp only
  cases (api.Stop w l.Server).1 <;> rfl

/-- Claim C13. For the `stop` command of the listener menu and of the
listener-setup menu with a current listener `L`, and for `stop <name>` of the
listeners menu when the name resolves to `L`: if the server of `L` is running,
`Server.Stop` is called once, on that server, the world the command leaves
behind is the one this call of `Stop` returns, and the trace is the call
followed by its report (the warning with the error of `Stop`, or the success
message); in every other state the world is unchanged and the trace is a single
message, the not-running note (or, in the listeners menu, the unhandled-state
warning for a state that is neither running nor stopped), so `Server.Stop` is
not called and no success is reported. -/
theorem stop_only_when_running {σ : Type} (api : ListenersAPI σ) (cmd0 : String)
    (args : List String) (stdin : String × Option String) (sh : Shell) (w : σ) (L : Listener)
    (hc : ToLower cmd0 = "stop") :
    (sh.shellListener = some L →
      (api.Status w L.Server = .Running →
        stopsOf (menuListener api (cmd0 :: args) stdin sh w).out = [L.Server] ∧
        (menuListener api (cmd0 :: args) stdin sh w).world = (api.Stop w L.Server).2 ∧
        (menuListener api (cmd0 :: args) stdin sh w).out =
          [Event.ServerStop L.Server,
            (match (api.Stop w L.Server).1 with
             | some e => Event.message "warn" (.lit e)
             | none => Event.message "success"
                 (.Sprintf "%s listener was stopped" [.str L.Name]))]) ∧
      (api.Status w L.Server ≠ .Running →
        (menuListener api (cmd0 :: args) stdin sh w).out =
          [.message "note" (.lit "this listener is not running")] ∧
        (menuListener api (cmd0 :: args) stdin sh w).world = w)) ∧
    (sh.shellListener = some L →
      (api.Status w L.Server = .Running →
        stopsOf (menuListenerSetup api (cmd0 :: args) stdin sh w).out = [L.Server] ∧
        (menuListenerSetup api (cmd0 :: args) stdin sh w).world = (api.Stop w L.Server).2 ∧
        (menuListenerSetup api (cmd0 :: args) stdin sh w).out =
          [Event.ServerStop L.Server,
            (match (api.Stop w L.Server).1 with
             | some e => Event.message "warn" (.lit e)
             | none => Event.message "success"
                 (.Sprintf "%s listener was stopped" [.str L.Name]))]) ∧
      (api.Status w L.Server ≠ .Running →
        (menuListenerSetup api (cmd0 :: args) stdin sh w).out =
          [.message "note" (.lit "this listener is not running")] ∧
        (menuListenerSetup api (cmd0 :: args) stdin sh w).world = w)) ∧
    (args ≠ [] → api.GetListenerByName w (Join args " ") = (some L, none) →
      (api.Status w L.Server = .Running →
        stopsOf (menuListeners api (cmd0 :: args) stdin sh w).out = [L.Server] ∧
        (menuListeners api (cmd0 :: args) stdin sh w).world = (api.Stop w L.Server).2 ∧
        (menuListeners api (cmd0 :: args) stdin sh w).out =
          [Event.ServerStop L.Server,
            (match (api.Stop w L.Server).1 with
             | some e => Event.message "warn" (.lit e)
             | none => Event.message "success"
                 (.Sprintf "%s listener stopped" [.str L.Name]))]) ∧
      (api.Status w L.Server = .Stopped →
        (menuListeners api (cmd0 :: args) stdin sh w).out =
          [.message "note" (.Sprintf "%s listener is not running" [.str L.Name])] ∧
        (menuListeners api (cmd0 :: args) stdin sh w).world = w) ∧
      (api.Status w L.Server ≠ .Running → api.Status w L.Server ≠ .Stopped →
        (menuListeners api (cmd0 :: args) stdin sh w).out =
          [.message "warn" (.Sprintf "Server is in an unhandled state: %s"
            [.str (api.GetStateString (api.Status w L.Server))])] ∧
        (menuListeners api (cmd0 :: args) stdin sh w).world = w)) := by
  refine ⟨?_, ?_, ?_⟩
  · intro hL
    constructor
    · intro hrun
      have hrw : menuListener api (cmd0 :: args) stdin sh w =
          ⟨sh, (stopServer api L "%s listener was stopped" w).1,
            (stopServer api L "%s listener was stopped" w).2⟩ := by
        simp [menuListener, hc, hL, hrun]
      refine ⟨by rw [hrw]; exact stopsOf_stopServer _ _ _ _, ?_, ?_⟩
      · rw [hrw, stopServer_eq]
      · rw [hrw, stopServer_eq]
    · intro hrun
      simp [menuListener, hc, hL, hrun]
  · intro hL
    constructor
    · intro hrun
      have hrw : menuListenerSetup api (cmd0 :: args) stdin sh w =
          ⟨sh, (stopServer api L "%s listener was stopped" w).1,
            (stopServer api L "%s listener was stopped" w).2⟩ := by
        rw [menuListenerSetup_stop api cmd0 args stdin sh w hc, hL]
        simp [hrun]
      refine ⟨by rw [hrw]; exact stopsOf_stopServer _ _ _ _, ?_, ?_⟩
      · rw [hrw, stopServer_eq]
      · rw [hrw, stopServer_eq]
    · intro hrun
      rw [menuListenerSetup_stop api cmd0 args stdin sh w hc, hL]
      simp [hrun]
  · intro hargs hget
    have hlen : 0 < args.length := List.length_pos.2 hargs
    refine ⟨?_, ?_, ?_⟩
    · intro hrun
      have hrw : menuListeners api (cmd0 :: args) stdin sh w =
          ⟨sh, (stopServer api L "%s listener stopped" w).1,
            (stopServer api L "%s listener stopped" w).2⟩ := by
        simp [menuListeners, hc, hlen, hget, hrun, errorWarning]
      refine ⟨by rw [hrw]; exact stopsOf_stopServer _ _ _ _, ?_, ?_⟩
      · rw [hrw, stopServer_eq]
      · rw [hrw, stopServer_eq]
    · intro hst
      simp [menuListeners, hc, hlen, hget, hst, errorWarning]
    · intro h1 h2
      cases hst : api.Status w L.Server with
      | Running => exact absurd hst h1
      | Stopped => exact absurd hst h2
      | Configured => simp [menuListeners, hc, hlen, hget, hst, errorWarning]
      | Closed => simp [menuListeners, hc, hlen, hget, hst, errorWarning]

theorem stop_only_when_running_witness :
    stopsOf (menuListener sampleListeners ["stop"] ("", none)
      (sampleShell "listener" (some alpha)) sampleWorld).out = [1] ∧
    (menuListener sampleListeners ["stop"] ("", none)
      (sampleShell "listener" (some alpha)) sampleWorld).world =
      [(alpha, .Stopped), (beta, .Closed)] ∧
    (menuListenerSetup sampleListeners ["STOP"] ("", none)
      (sampleShell "listenersetup" (some beta)) sampleWorld).out =
      [.message "note" (.lit "this listener is not running")] ∧
    (menuListeners sampleListeners ["stop", "beta"] ("", none)
      (sampleShell "listenersmain" none) sampleWorld).out =
      [.message "warn" (.Sprintf "Server is in an unhandled state: %s" [.str "Closed"])] :=
  ⟨(((stop_only_when_running sampleListeners "stop" [] ("", none)
      (sampleShell "listener" (some alpha)) sampleWorld alpha (by decide)).1 rfl).1
      (by decide)).1,
   (((stop_only_when_running sampleListeners "stop" [] ("", none)
      (sampleShell "listener" (some alpha)) sampleWorld alpha (by decide)).1 rfl).1
      (by decide)).2.1.trans (by decide),
   (((stop_only_when_running sampleListeners "STOP" [] ("", none)
      (sampleShell "listenersetup" (some beta)) sampleWorld beta (by decide)).2.1 rfl).2
      (by decide)).1,
   (((stop_only_when_running sampleListeners "stop" ["beta"] ("", none)
      (sampleShell "listenersmain" none) sampleWorld beta (by decide)).2.2
      (by decide) (by decide)).2.2 (by decide) (by decide)).1⟩

/-! ## The listener menus: `start` -/

/-- The `start` case of `menuListener`. -/
theorem menuListener_start {σ : Type} (api : ListenersAPI σ) (cmd0 : String)
    (args : List String) (stdin : String × Option String) (sh : Shell) (w : σ) (L : Listener)
    (hc : ToLower cmd0 = "start") (hL : sh.shellListener = some L) :
    menuListener api (cmd0 :: args) stdin sh w =
      match api.Status w L.Server with
      | .Running => ⟨sh, w, [Event.message "note" (.lit "the server is already running")]⟩
      | .Closed | .Stopped =>
        ⟨sh, (startServer api L.Server (api.Restart w L sh.shellListenerOptions).2).1,
          Event.Restart L sh.shellListenerOptions ::
            errorWarning (api.Restart w L sh.shellListenerOptions).1 ++
            Event.message "success"
              (.Sprintf "%s listener was successfully restarted" [.str L.Name]) ::
            (startServer api L.Server (api.Restart w L sh.shellListenerOptions).2).2⟩
      | _ =>
        ⟨sh, w, [Event.message "warn" (.Sprintf "unhandled server status: %s"
          [.str (api.GetStateString (api.Status w L.Server))])]⟩ := by
  unfold menuListener
  simp only [hc, hL]
  rw [if_neg (by decide), if_neg (by decide), if_neg (by decide), if_neg (by decide),
    if_neg (by decide), if_neg (by decide), if_neg (by decide), if_neg (by decide),
    if_pos trivial]

/-- The `start` case of `menuListeners` when the name resolves to `L`. -/
theorem menuListeners_start {σ : Type} (api : ListenersAPI σ) (cmd0 : String)
    (args : List String) (stdin : String × Option String) (sh : Shell) (w : σ) (L : Listener)
    (hc : ToLower cmd0 = "start") (hargs : args ≠ [])
    (hget : api.GetListenerByName w (Join args " ") = (some L, none)) :
    menuListeners api (cmd0 :: args) stdin sh w =
      match api.Status w L.Server with
      | .Running =>
        match sh.shellListener with
        | none => ⟨sh, w, [nilDereference]⟩
        | some cur =>
          ⟨sh, w, [Event.message "note"
            (.Sprintf "%s listener already running" [.str cur.Name])]⟩
      | .Stopped =>
        match sh.shellListener with
        | none => ⟨sh, w, [nilDereference]⟩
        | some cur =>
          ⟨sh, (startServer api L.Server w).1, Event.message "success"
            (.Sprintf "%s listener was successfully started" [.str cur.Name]) ::
            (startServer api L.Server w).2⟩
      | .Closed =>
        match sh.shellListener with
        | none =>
          ⟨sh, (api.Restart w L (api.GetConfiguredOptions w L)).2,
            Event.Restart L (api.GetConfiguredOptions w L) ::
            errorWarning (api.Restart w L (api.GetConfiguredOptions w L)).1 ++
              [nilDereference]⟩
        | some cur =>
          ⟨sh, (startServer api cur.Server (api.Restart w L (api.GetConfiguredOptions w L)).2).1,
            Event.Restart L (api.GetConfiguredOptions w L) ::
            errorWarning (api.Restart w L (api.GetConfiguredOptions w L)).1 ++
            Event.message "success"
              (.Sprintf "%s listener was successfully started" [.str cur.Name]) ::
            (startServer api cur.Server
              (api.Restart w L (api.GetConfiguredOptions w L)).2).2⟩
      | _ =>
        ⟨sh, w, [Event.message "warn" (.Sprintf "Server is in an unhandled state: %s"
          [.str (api.GetStateString (api.Status w L.Server))])]⟩ := by
  have hlen : 0 < args.length := List.length_pos.2 hargs
  unfold menuListeners
  simp only [hc, hlen, hget]
  rw [if_neg (by decide), if_neg (by decide), if_neg (by decide), if_neg (by decide),
    if_neg (by decide), if_neg (by decide), if_neg (by decide), if_pos trivial]
  simp only [if_true]

theorem startsOf_startServer {σ : Type} (api : ListenersAPI σ) (server : Nat) (w : σ) :
    startsOf (startServer api server w).2 = [server] := by
  unfold startServer errorWarning
  cases api.Start w server with
  | mk err w2 => cases err <;> rfl

theorem startsOf_cons_message (level : String) (text : Text) (tl : List Event) :
    startsOf (Event.message level text :: tl) = startsOf tl := rfl

theorem startsOf_cons_Restart (l : Listener) (o : Option Options) (tl : List Event) :
    startsOf (Event.Restart l o :: tl) = startsOf tl := rfl

theorem startsOf_errorWarning (err : Option String) (tl : List Event) :
    startsOf (errorWarning err ++ tl) = startsOf tl := by
  cases err <;> rfl

/-- What holds of the start of a running listener.  In the listener menu the
trace is the already-running note alone.  In the listeners menu, when a current
listener is selected, the trace is one already-running note (naming the current
listener) and the world is unchanged; when none is selected the handler panics
before any report. -/
theorem start_running {σ : Type} (api : ListenersAPI σ) (cmd0 : String)
    (args : List String) (stdin : String × Option String) (sh : Shell) (w : σ) (L : Listener)
    (hc : ToLower cmd0 = "start") (hrun : api.Status w L.Server = .Running) :
    (sh.shellListener = some L →
      (menuListener api (cmd0 :: args) stdin sh w).out =
        [.message "note" (.lit "the server is already running")] ∧
      (menuListener api (cmd0 :: args) stdin sh w).world = w) ∧
    (args ≠ [] → api.GetListenerByName w (Join args " ") = (some L, none) →
      (menuListeners api (cmd0 :: args) stdin sh w).world = w ∧
      (∀ cur, sh.shellListener = some cur →
        (menuListeners api (cmd0 :: args) stdin sh w).out =
          [.message "note" (.Sprintf "%s listener already running" [.str cur.Name])]) ∧
      (sh.shellListener = none →
        (menuListeners api (cmd0 :: args) stdin sh w).out = [nilDereference])) := by
  constructor
  · intro hL
    rw [menuListener_start api cmd0 args stdin sh w L hc hL, hrun]
    exact ⟨rfl, rfl⟩
  · intro hargs hget
    rw [menuListeners_start api cmd0 args stdin sh w L hc hargs hget, hrun]
    refine ⟨?_, ?_, ?_⟩
    · cases sh.shellListener <;> rfl
    · intro cur hcur; rw [hcur]
    · intro hcur; rw [hcur]

theorem start_running_witness :
    (menuListener sampleListeners ["start"] ("", none)
      (sampleShell "listener" (some alpha)) sampleWorld).out =
      [.message "note" (.lit "the server is already running")] ∧
    (menuListeners sampleListeners ["start", "alpha"] ("", none)
      (sampleShell "listenersmain" (some beta)) sampleWorld).out =
      [.message "note" (.Sprintf "%s listener already running" [.str "beta"])] :=
  ⟨((start_running sampleListeners "start" [] ("", none)
      (sampleShell "listener" (some alpha)) sampleWorld alpha (by decide) (by decide)).1 rfl).1,
   ((start_running sampleListeners "start" ["alpha"] ("", none)
      (sampleShell "listenersmain" (some beta)) sampleWorld alpha (by decide) (by decide)).2
      (by decide) (by decide)).2.1 beta rfl⟩

/-- Claim C12 does not hold of the code.  In the listeners menu with no current
listener, `start alpha` for the running listener `alpha` reports nothing: the
handler reads `shellListener.Name` through the nil pointer and panics.  With the
current listener `beta` the notice names `beta`, not `alpha`. -/
theorem start_running_without_selection_panics :
    sampleListeners.Status sampleWorld alpha.Server = .Running ∧
    (menuListeners sampleListeners ["start", "alpha"] ("", none)
      (sampleShell "listenersmain" none) sampleWorld).out = [nilDereference] ∧
    (menuListeners sampleListeners ["start", "alpha"] ("", none)
      (sampleShell "listenersmain" (some beta)) sampleWorld).out =
      [.message "note" (.Sprintf "%s listener already running" [.str "beta"])] := by
  decide

/-- What holds of `start <name>` in the listeners menu when a current listener
`cur` is selected and the name resolves to `L`: from `Stopped` the server started
is the one of `L`; from `Closed` it is the one of `cur`. -/
theorem start_named {σ : Type} (api : ListenersAPI σ) (cmd0 : String)
    (args : List String) (stdin : String × Option String) (sh : Shell) (w : σ)
    (L cur : Listener) (hc : ToLower cmd0 = "start") (hargs : args ≠ [])
    (hget : api.GetListenerByName w (Join args " ") = (some L, none))
    (hcur : sh.shellListener = some cur) :
    (api.Status w L.Server = .Stopped →
      startsOf (menuListeners api (cmd0 :: args) stdin sh w).out = [L.Server]) ∧
    (api.Status w L.Server = .Closed →
      startsOf (menuListeners api (cmd0 :: args) stdin sh w).out = [cur.Server]) := by
  rw [menuListeners_start api cmd0 args stdin sh w L hc hargs hget, hcur]
  constructor
  · intro hst
    rw [hst]
    show startsOf (Event.message _ _ :: _) = _
    rw [startsOf_cons_message]
    exact startsOf_startServer api L.Server w
  · intro hst
    rw [hst]
    show startsOf (Event.Restart _ _ :: (errorWarning _ ++ Event.message _ _ :: _)) = _
    rw [startsOf_cons_Restart, startsOf_errorWarning, startsOf_cons_message]
    exact startsOf_startServer api cur.Server _

theorem start_named_witness :
    startsOf (menuListeners sampleListeners ["start", "beta"] ("", none)
      (sampleShell "listenersmain" (some alpha)) idleWorld).out = [2] ∧
    startsOf (menuListeners sampleListeners ["start", "beta"] ("", none)
      (sampleShell "listenersmain" (some alpha)) sampleWorld).out = [1] :=
  ⟨(start_named sampleListeners "start" ["beta"] ("", none)
      (sampleShell "listenersmain" (some alpha)) idleWorld beta alpha (by decide) (by decide)
      (by decide) rfl).1 (by decide),
   (start_named sampleListeners "start" ["beta"] ("", none)
      (sampleShell "listenersmain" (some alpha)) sampleWorld beta alpha (by decide) (by decide)
      (by decide) rfl).2 (by decide)⟩

/-- Claim C17 does not hold of the code.  With the current listener `alpha`
(server 1), `start beta` for the closed listener `beta` (server 2) restarts
`beta` and then calls `Server.Start` on server 1, the server of `alpha`, and not
on server 2.  With no current listener, `start beta` for the stopped listener
`beta` panics before any `Server.Start`. -/
theorem start_named_starts_current_listener :
    sampleListeners.GetListenerByName sampleWorld "beta" = (some beta, none) ∧
    sampleListeners.Status sampleWorld beta.Server = .Closed ∧
    startsOf (menuListeners sampleListeners ["start", "beta"] ("", none)
      (sampleShell "listenersmain" (some alpha)) sampleWorld).out = [alpha.Server] ∧
    alpha.Server ≠ beta.Server ∧
    sampleListeners.Status idleWorld beta.Server = .Stopped ∧
    (menuListeners sampleListeners ["start", "beta"] ("", none)
      (sampleShell "listenersmain" none) idleWorld).out = [nilDereference] := by
  decide

/-! ## The listener menus: `delete` -/

/-- The `delete` case of `menuListener` with a current listener `L`. -/
theorem menuListener_delete {σ : Type} (api : ListenersAPI σ) (cmd0 : String)
    (args : List String) (stdin : String × Option String) (sh : Shell) (w : σ) (L : Listener)
    (hc : ToLower cmd0 = "delete") (hL : sh.shellListener = some L) :
    menuListener api (cmd0 :: args) stdin sh w =
      if (confirm stdin).1 = true then
        ⟨{ sh with shellListener := none, shellListenerOptions := none,
                   shellMenuContext := "listenersmain" },
          (api.Remove w L.Name).2,
          (confirm stdin).2 ++ Event.Remove L.Name :: errorWarning (api.Remove w L.Name).1 ++
            [Event.message "success" (.Sprintf "%s listener deleted" [.str L.Name])]⟩
      else ⟨sh, w, (confirm stdin).2⟩ := by
  unfold menuListener
  simp only [hc, hL]
  rw [if_neg (by decide), if_pos trivial]

/-- The `delete` case of `menuListeners` for a name that exists. -/
theorem menuListeners_delete {σ : Type} (api : ListenersAPI σ) (cmd0 : String)
    (args : List String) (stdin : String × Option String) (sh : Shell) (w : σ)
    (hc : ToLower cmd0 = "delete") (hargs : args ≠ [])
    (hex : api.Exists w (Join args " ") = true) :
    menuListeners api (cmd0 :: args) stdin sh w =
      deleteNamed api (Join args " ") stdin sh w := by
  have hlen : 0 < args.length := List.length_pos.2 hargs
  unfold menuListeners
  simp only [hc, hlen, hex]
  rw [if_neg (by decide), if_pos trivial]
  simp only [if_true]

/-- What the code does when `listeners.Remove` fails after the operator
confirmed a `delete`: in the listener menu and in the listeners menu alike the
warning is followed by the `listener deleted` success message, and the current
listener and its options are reset. -/
theorem delete_after_failed_remove {σ : Type} (api : ListenersAPI σ) (cmd0 : String)
    (args : List String) (stdin : String × Option String) (sh : Shell) (w : σ)
    (hc : ToLower cmd0 = "delete") (hyes : (confirm stdin).1 = true) :
    (∀ L e, sh.shellListener = some L → (api.Remove w L.Name).1 = some e →
      (menuListener api (cmd0 :: args) stdin sh w).out =
        (confirm stdin).2 ++ [Event.Remove L.Name, .message "warn" (.lit e),
          .message "success" (.Sprintf "%s listener deleted" [.str L.Name])] ∧
      (menuListener api (cmd0 :: args) stdin sh w).shell.shellListener = none ∧
      (menuListener api (cmd0 :: args) stdin sh w).shell.shellListenerOptions = none) ∧
    (∀ e, args ≠ [] → api.Exists w (Join args " ") = true →
      (api.Remove w (Join args " ")).1 = some e →
      (menuListeners api (cmd0 :: args) stdin sh w).out =
        (confirm stdin).2 ++ [Event.Remove (Join args " "), .message "warn" (.lit e),
          .message "success" (.Sprintf "%s listener deleted" [.str (Join args " ")])] ∧
      (menuListeners api (cmd0 :: args) stdin sh w).shell.shellListener = none ∧
      (menuListeners api (cmd0 :: args) stdin sh w).shell.shellListenerOptions = none) := by
  constructor
  · intro L e hL hrem
    rw [menuListener_delete api cmd0 args stdin sh w L hc hL, if_pos hyes]
    simp [hrem, errorWarning]
  · intro e hargs hex hrem
    rw [menuListeners_delete api cmd0 args stdin sh w hc hargs hex]
    simp [deleteNamed, hyes, hrem, errorWarning]

theorem delete_after_failed_remove_witness :
    (menuListener sampleListeners ["delete"] ("y\n", none)
      (sampleShell "listener" (some alpha)) sampleWorld).shell.shellListener = none ∧
    (menuListeners sampleListeners ["delete", "alpha"] ("y\n", none)
      (sampleShell "listenersmain" (some alpha)) sampleWorld).shell.shellListener = none :=
  ⟨((delete_after_failed_remove sampleListeners "delete" [] ("y\n", none)
      (sampleShell "listener" (some alpha)) sampleWorld (by decide) (by decide)).1
      alpha "the listener is still running" rfl (by decide)).2.1,
   ((delete_after_failed_remove sampleListeners "delete" ["alpha"] ("y\n", none)
      (sampleShell "listenersmain" (some alpha)) sampleWorld (by decide) (by decide)).2
      "the listener is still running" (by decide) (by decide) (by decide)).2.1⟩

/-- Claim C14 does not hold of the code.  `alpha` is running, so
`listeners.Remove` fails; after the operator answers `y`, `delete` in the
listener menu and `delete alpha` in the listeners menu both emit the warning and
then the success message `alpha listener deleted`, and reset the current listener
and its options, although `alpha` is still in the world. -/
theorem delete_reports_success_when_remove_fails :
    (sampleListeners.Remove sampleWorld "alpha").1 = some "the listener is still running" ∧
    (menuListener sampleListeners ["delete"] ("y\n", none)
      (sampleShell "listener" (some alpha)) sampleWorld).out =
      [Event.Remove "alpha", .message "warn" (.lit "the listener is still running"),
       .message "success" (.Sprintf "%s listener deleted" [.str "alpha"])] ∧
    (menuListener sampleListeners ["delete"] ("y\n", none)
      (sampleShell "listener" (some alpha)) sampleWorld).shell =
      sampleShell "listenersmain" none ∧
    (menuListener sampleListeners ["delete"] ("y\n", none)
      (sampleShell "listener" (some alpha)) sampleWorld).world = sampleWorld ∧
    (menuListeners sampleListeners ["delete", "alpha"] ("y\n", none)
      (sampleShell "listenersmain" (some alpha)) sampleWorld).out =
      [Event.Remove "alpha", .message "warn" (.lit "the listener is still running"),
       .message "success" (.Sprintf "%s listener deleted" [.str "alpha"])] ∧
    (menuListeners sampleListeners ["delete", "alpha"] ("y\n", none)
      (sampleShell "listenersmain" (some alpha)) sampleWorld).shell =
      sampleShell "listenersmain" none := by
  decide

/-! ## The listener menus: absent listeners -/

/-- The `stop` case of `menuListeners` for a name that does not resolve: the
error is reported and then the missing listener is dereferenced. -/
theorem stop_missing_listener {σ : Type} (api : ListenersAPI σ) (cmd0 : String)
    (args : List String) (stdin : String × Option String) (sh : Shell) (w : σ)
    (err : Option String) (hc : ToLower cmd0 = "stop") (hargs : args ≠ [])
    (hget : api.GetListenerByName w (Join args " ") = (none, err)) :
    (menuListeners api (cmd0 :: args) stdin sh w).out = errorWarning err ++ [nilDereference] := by
  have hlen : 0 < args.length := List.length_pos.2 hargs
  unfold menuListeners
  simp only [hc, hlen, hget]
  rw [if_neg (by decide), if_neg (by decide), if_neg (by decide), if_neg (by decide),
    if_neg (by decide), if_neg (by decide), if_neg (by decide), if_neg (by decide),
    if_pos trivial]
  simp only [if_true]

theorem stop_missing_listener_witness :
    (menuListeners sampleListeners ["stop", "gamma"] ("", none)
      (sampleShell "listenersmain" none) sampleWorld).out =
      errorWarning (some "invalid listener name") ++ [nilDereference] :=
  stop_missing_listener sampleListeners "stop" ["gamma"] ("", none)
    (sampleShell "listenersmain" none) sampleWorld (some "invalid listener name")
    (by decide) (by decide) (by decide)

/-- The `stop` case of `menuListenerSetup` when no listener was created: the
unset current listener is dereferenced. -/
theorem setup_stop_unset_listener {σ : Type} (api : ListenersAPI σ) (cmd0 : String)
    (args : List String) (stdin : String × Option String) (sh : Shell) (w : σ)
    (hc : ToLower cmd0 = "stop") (hL : sh.shellListener = none) :
    (menuListenerSetup api (cmd0 :: args) stdin sh w).out = [nilDereference] := by
  rw [menuListenerSetup_stop api cmd0 args stdin sh w hc, hL]

theorem setup_stop_unset_listener_witness :
    (menuListenerSetup sampleListeners ["stop"] ("", none)
      (sampleShell "listenersetup" none) []).out = [nilDereference] :=
  setup_stop_unset_listener sampleListeners "stop" [] ("", none)
    (sampleShell "listenersetup" none) [] (by decide) rfl

/-- Claim C15 does not hold of the code.  Each of the three handlers reads a
field of a listener that is absent and panics: (a) `stop gamma` in the listeners
menu, where no listener is named `gamma`, after the warning; (b) `stop` in the
listener-setup menu before any listener was created; (c) `start alpha` in the
listeners menu when no listener is selected. -/
theorem absent_listener_is_dereferenced :
    sampleListeners.GetListenerByName sampleWorld "gamma" =
      (none, some "invalid listener name") ∧
    (menuListeners sampleListeners ["stop", "gamma"] ("", none)
      (sampleShell "listenersmain" none) sampleWorld).out =
      [.message "warn" (.lit "invalid listener name"), nilDereference] ∧
    (menuListenerSetup sampleListeners ["stop"] ("", none)
      (sampleShell "listenersetup" none) []).out = [nilDereference] ∧
    (menuListeners sampleListeners ["start", "alpha"] ("", none)
      (sampleShell "listenersmain" none) sampleWorld).out = [nilDereference] := by
  decide

/-! ## The listener menu: `remove` -/

/-- The listener menu has no `remove` case: the line goes to the `default` case
and is run on the host. -/
theorem menuListener_remove {σ : Type} (api : ListenersAPI σ) (cmd0 : String)
    (args : List String) (stdin : String × Option String) (sh : Shell) (w : σ)
    (hc : ToLower cmd0 = "remove") :
    menuListener api (cmd0 :: args) stdin sh w =
      ⟨sh, (executeSystem api cmd0 args w).1, (executeSystem api cmd0 args w).2⟩ := by
  unfold menuListener
  simp only [hc]
  rw [if_neg (by decide), if_neg (by decide), if_neg (by decide), if_neg (by decide),
    if_neg (by decide), if_neg (by decide), if_neg (by decide), if_neg (by decide),
    if_neg (by decide), if_neg (by decide), if_neg (by decide)]

theorem menuListener_remove_witness :
    menuListener sampleListeners ["Remove"] ("", none)
        (sampleShell "listener" (some alpha)) sampleWorld =
      ⟨sampleShell "listener" (some alpha),
        (executeSystem sampleListeners "Remove" [] sampleWorld).1,
        (executeSystem sampleListeners "Remove" [] sampleWorld).2⟩ :=
  menuListener_remove sampleListeners "Remove" [] ("", none)
    (sampleShell "listener" (some alpha)) sampleWorld (by decide)

/-- Claim C16 does not hold of the code.  In the listener menu with the running
listener `alpha` selected, `remove` calls neither `Server.Stop` nor
`listeners.Remove`: it is announced as a system command and handed to the host
operating system; the console state and the world are unchanged. -/
theorem remove_runs_system_command :
    (menuListener sampleListeners ["remove"] ("", none)
      (sampleShell "listener" (some alpha)) sampleWorld).out =
      [.message "info" (.lit "Executing system command..."),
       Event.executeCommand "remove" [],
       .message "warn" (.lit "executable file not found")] ∧
    stopsOf (menuListener sampleListeners ["remove"] ("", none)
      (sampleShell "listener" (some alpha)) sampleWorld).out = [] ∧
    removesOf (menuListener sampleListeners ["remove"] ("", none)
      (sampleShell "listener" (some alpha)) sampleWorld).out = [] ∧
    (menuListener sampleListeners ["remove"] ("", none)
      (sampleShell "listener" (some alpha)) sampleWorld).shell =
      sampleShell "listener" (some alpha) ∧
    (menuListener sampleListeners ["remove"] ("", none)
      (sampleShell "listener" (some alpha)) sampleWorld).world = sampleWorld := by
  decide

/-! ## The listener menus: a failed `Restart` -/

/-- The `restart` case of `menuListener` with a current listener `L`. -/
theorem menuListener_restart {σ : Type} (api : ListenersAPI σ) (cmd0 : String)
    (args : List String) (stdin : String × Option String) (sh : Shell) (w : σ) (L : Listener)
    (hc : ToLower cmd0 = "restart") (hL : sh.shellListener = some L) :
    menuListener api (cmd0 :: args) stdin sh w =
      match (api.Restart w L sh.shellListenerOptions).1 with
      | some e =>
        ⟨sh, (api.Restart w L sh.shellListenerOptions).2,
          [Event.Restart L sh.shellListenerOptions, Event.message "warn" (.lit e)]⟩
      | none =>
        ⟨sh, (startServer api L.Server (api.Restart w L sh.shellListenerOptions).2).1,
          Event.Restart L sh.shellListenerOptions ::
            Event.message "success"
              (.Sprintf "%s listener was successfully restarted" [.str L.Name]) ::
            (startServer api L.Server (api.Restart w L sh.shellListenerOptions).2).2⟩ := by
  unfold menuListener
  simp only [hc, hL]
  rw [if_neg (by decide), if_neg (by decide), if_neg (by decide), if_neg (by decide),
    if_neg (by decide), if_neg (by decide), if_pos trivial]

/-- What the code does when `Restart` returns the error `e`.  The `restart`
command reports the error and stops there: no `Server.Start`, no success
message.  The listener-menu `start` command from `Stopped` or `Closed`, and the
listeners-menu `start <name>` command from `Closed` with a current listener
`cur`, report the error and then the success message, and start a server. -/
theorem after_failed_restart {σ : Type} (api : ListenersAPI σ) (cmd0 : String)
    (args : List String) (stdin : String × Option String) (sh : Shell) (w : σ)
    (L cur : Listener) (e : String) :
    (ToLower cmd0 = "restart" → sh.shellListener = some L →
      (api.Restart w L sh.shellListenerOptions).1 = some e →
      (menuListener api (cmd0 :: args) stdin sh w).out =
        [Event.Restart L sh.shellListenerOptions, Event.message "warn" (.lit e)]) ∧
    (ToLower cmd0 = "start" → sh.shellListener = some L →
      (api.Status w L.Server = .Stopped ∨ api.Status w L.Server = .Closed) →
      (api.Restart w L sh.shellListenerOptions).1 = some e →
      (menuListener api (cmd0 :: args) stdin sh w).out =
        Event.Restart L sh.shellListenerOptions :: Event.message "warn" (.lit e) ::
          Event.message "success"
            (.Sprintf "%s listener was successfully restarted" [.str L.Name]) ::
          (startServer api L.Server (api.Restart w L sh.shellListenerOptions).2).2) ∧
    (ToLower cmd0 = "start" → args ≠ [] →
      api.GetListenerByName w (Join args " ") = (some L, none) →
      sh.shellListener = some cur → api.Status w L.Server = .Closed →
      (api.Restart w L (api.GetConfiguredOptions w L)).1 = some e →
      (menuListeners api (cmd0 :: args) stdin sh w).out =
        Event.Restart L (api.GetConfiguredOptions w L) :: Event.message "warn" (.lit e) ::
          Event.message "success"
            (.Sprintf "%s listener was successfully started" [.str cur.Name]) ::
          (startServer api cur.Server (api.Restart w L (api.GetConfiguredOptions w L)).2).2) := by
  refine ⟨?_, ?_, ?_⟩
  · intro hc hL he
    rw [menuListener_restart api cmd0 args stdin sh w L hc hL, he]
  · intro hc hL hst he
    rw [menuListener_start api cmd0 args stdin sh w L hc hL]
    rcases hst with hst | hst <;> rw [hst] <;> simp [he, errorWarning]
  · intro hc hargs hget hcur hst he
    rw [menuListeners_start api cmd0 args stdin sh w L hc hargs hget, hst, hcur]
    simp [he, errorWarning]

theorem after_failed_restart_witness :
    (menuListener brokenRestart ["restart"] ("", none)
      (sampleShell "listener" (some beta)) sampleWorld).out =
      [Event.Restart beta (some [("Name", "beta"), ("Protocol", "h2")]),
       Event.message "warn" (.lit "bind: address already in use")] :=
  (after_failed_restart brokenRestart "restart" [] ("", none)
    (sampleShell "listener" (some beta)) sampleWorld beta beta
    "bind: address already in use").1 (by decide) rfl rfl

/-- Claim C21 does not hold of the code.  `Restart` fails for the closed
listener `beta` (server 2).  The `restart` command stops after the warning; but
`start` in the listener menu, and `start beta` in the listeners menu, emit the
warning, then the success message, and then call `Server.Start` on server 2. -/
theorem start_ignores_failed_restart :
    (brokenRestart.Restart sampleWorld beta (some [("Name", "beta"), ("Protocol", "h2")])).1 =
      some "bind: address already in use" ∧
    (menuListener brokenRestart ["restart"] ("", none)
      (sampleShell "listener" (some beta)) sampleWorld).out =
      [Event.Restart beta (some [("Name", "beta"), ("Protocol", "h2")]),
       .message "warn" (.lit "bind: address already in use")] ∧
    (menuListener brokenRestart ["start"] ("", none)
      (sampleShell "listener" (some beta)) sampleWorld).out =
      [Event.Restart beta (some [("Name", "beta"), ("Protocol", "h2")]),
       .message "warn" (.lit "bind: address already in use"),
       .message "success" (.Sprintf "%s listener was successfully restarted" [.str "beta"]),
       Event.ServerStart 2] ∧
    (menuListeners brokenRestart ["start", "beta"] ("", none)
      (sampleShell "listenersmain" (some beta)) sampleWorld).out =
      [Event.Restart beta (some [("Name", "beta"), ("Protocol", "h2")]),
       .message "warn" (.lit "bind: address already in use"),
       .message "success" (.Sprintf "%s listener was successfully started" [.str "beta"]),
       Event.ServerStart 2] := by
  decide

/-! ## The agent menu: `execute-shellcode` -/

/-- The options the switch fills are the expected ones: the map is empty exactly
when none are expected. -/
theorem shellcodeSwitch_options (m a1 : String) (rest : List String) :
    (expectedShellcodeOptions m (a1 :: rest) = none ∧ (shellcodeSwitch m a1 rest).1 = []) ∨
    (expectedShellcodeOptions m (a1 :: rest) = some (shellcodeSwitch m a1 rest).1 ∧
      0 < (shellcodeSwitch m a1 rest).1.length ∧ (shellcodeSwitch m a1 rest).2 = []) := by
  unfold expectedShellcodeOptions shellcodeSwitch
  by_cases h1 : ToLower m = "self"
  · right; simp [h1]
  · by_cases h2 : ToLower m = "remote"
    · cases rest <;> simp [h2]
    · by_cases h3 : ToLower m = "rtlcreateuserthread"
      · cases rest <;> simp [h3]
      · by_cases h4 : ToLower m = "userapc"
        · cases rest <;> simp [h4]
        · left; simp [h1, h2, h3, h4]

theorem parsesOf_append (a b : List Event) : parsesOf (a ++ b) = parsesOf a ++ parsesOf b := by
  simp [parsesOf, List.filterMap_append]

theorem parsesOf_of_jobless (tr : List Event) (h : ∀ e ∈ tr, ∃ l t, e = Event.message l t) :
    parsesOf tr = [] ∧ jobsOf tr = [] := by
  induction tr with
  | nil => exact ⟨rfl, rfl⟩
  | cons e es ih =>
    obtain ⟨l, t, rfl⟩ := h e (List.mem_cons_self _ _)
    have := ih (fun x hx => h x (List.mem_cons_of_mem _ hx))
    exact ⟨this.1, this.2⟩

theorem shellcodeSwitch_messages (m a1 : String) (rest : List String) :
    ∀ e ∈ (shellcodeSwitch m a1 rest).2, ∃ l t, e = Event.message l t := by
  unfold shellcodeSwitch notEnoughArguments
  intro e he
  split_ifs at he <;> simp at he <;> rcases he with rfl | rfl <;> exact ⟨_, _, rfl⟩

/-- Claim C22. For `execute-shellcode m a1 ... ak` in the agent menu:
`shellcode.Parse` is called exactly when options are expected (`self` with
`k >= 1`, or `remote`, `rtlcreateuserthread`, `userapc` with `k >= 2`, ignoring
case), once, with exactly those options; when none are expected, or `Parse`
returns an error, no `AddJob` call is made and the job queue is unchanged; when
`Parse` returns `sh` without error and `sh` is not empty, the `AddJob` calls are
exactly the one call `(currentAgent, sh[0], sh[1:])`, the job queue the command
leaves behind is the one this call returns from the queue before, and the
report of the call (the note with the job identifier it returned, or the warning
with its error) is in the trace.  (An empty `sh` without error would make
`sh[0]` panic; no job is added then.) -/
theorem execute_shellcode_dispatch {σ : Type}
    (ShellcodeParse : σ → Options → List String × Option String) (AddJob : AddJobFn σ)
    (shellAgent : UUID) (c0 m : String) (as : List String) (w : σ) :
    parsesOf (agentExecuteShellcode ShellcodeParse AddJob shellAgent (c0 :: m :: as) w).2 =
      (expectedShellcodeOptions m as).toList ∧
    (expectedShellcodeOptions m as = none →
      jobsOf (agentExecuteShellcode ShellcodeParse AddJob shellAgent (c0 :: m :: as) w).2 = [] ∧
      (agentExecuteShellcode ShellcodeParse AddJob shellAgent (c0 :: m :: as) w).1 = w) ∧
    (∀ o, expectedShellcodeOptions m as = some o → (ShellcodeParse w o).2 ≠ none →
      jobsOf (agentExecuteShellcode ShellcodeParse AddJob shellAgent (c0 :: m :: as) w).2 = [] ∧
      (agentExecuteShellcode ShellcodeParse AddJob shellAgent (c0 :: m :: as) w).1 = w) ∧
    (∀ o s0 srest, expectedShellcodeOptions m as = some o →
      ShellcodeParse w o = (s0 :: srest, none) →
      jobsOf (agentExecuteShellcode ShellcodeParse AddJob shellAgent (c0 :: m :: as) w).2 =
        [(shellAgent, s0, srest)] ∧
      (agentExecuteShellcode ShellcodeParse AddJob shellAgent (c0 :: m :: as) w).1 =
        (AddJob w shellAgent s0 srest).2 ∧
      (match (AddJob w shellAgent s0 srest).1.2 with
       | some e => Event.message "warn" (.lit e)
       | none => createdJob (AddJob w shellAgent s0 srest).1.1 shellAgent) ∈
        (agentExecuteShellcode ShellcodeParse AddJob shellAgent (c0 :: m :: as) w).2) ∧
    (∀ o, expectedShellcodeOptions m as = some o → ShellcodeParse w o = ([], none) →
      jobsOf (agentExecuteShellcode ShellcodeParse AddJob shellAgent (c0 :: m :: as) w).2 = [] ∧
      indexOutOfRange ∈
        (agentExecuteShellcode ShellcodeParse AddJob shellAgent (c0 :: m :: as) w).2 ∧
      (agentExecuteShellcode ShellcodeParse AddJob shellAgent (c0 :: m :: as) w).1 = w) := by
  cases as with
  | nil =>
    have hexp : expectedShellcodeOptions m [] = none := by
      simp [expectedShellcodeOptions]
    rw [hexp]
    refine ⟨rfl, fun _ => ⟨rfl, rfl⟩, ?_, ?_, ?_⟩
    · intro o ho; cases ho
    · intro o s0 srest ho; cases ho
    · intro o ho; cases ho
  | cons a1 rest =>
    have hmsg := parsesOf_of_jobless _ (shellcodeSwitch_messages m a1 rest)
    rcases shellcodeSwitch_options m a1 rest with ⟨hnone, hempty⟩ | ⟨hsome, hlen, hquiet⟩
    · have hrun : agentExecuteShellcode ShellcodeParse AddJob shellAgent
          (c0 :: m :: a1 :: rest) w = (w, (shellcodeSwitch m a1 rest).2) := by
        simp [agentExecuteShellcode, hempty]
      rw [hrun, hnone]
      refine ⟨hmsg.1, fun _ => ⟨hmsg.2, rfl⟩, ?_, ?_, ?_⟩
      · intro o ho; cases ho
      · intro o s0 srest ho; cases ho
      · intro o ho; cases ho
    · rw [hsome]
      generalize hb : shellcodeSwitch m a1 rest = built at hlen hquiet
      obtain ⟨opts, evs⟩ := built
      simp only at hlen hquiet
      subst hquiet
      have hrun : agentExecuteShellcode ShellcodeParse AddJob shellAgent
          (c0 :: m :: a1 :: rest) w =
          match (ShellcodeParse w opts).2 with
          | some e =>
            (w, [Event.Parse opts, Event.message "warn"
              (.Sprintf "there was an error parsing the shellcode:\r\n%s" [.str e])])
          | none =>
            match (ShellcodeParse w opts).1 with
            | [] => (w, [Event.Parse opts, indexOutOfRange])
            | s0 :: srest =>
              ((AddJob w shellAgent s0 srest).2,
                [Event.Parse opts, Event.AddJob shellAgent s0 srest,
                  (match (AddJob w shellAgent s0 srest).1.2 with
                   | some e => Event.message "warn" (.lit e)
                   | none => createdJob (AddJob w shellAgent s0 srest).1.1 shellAgent)]) := by
        simp only [agentExecuteShellcode, hb, hlen, if_true, List.nil_append]
      rw [hrun]
      refine ⟨?_, ?_, ?_, ?_, ?_⟩
      · cases h2 : (ShellcodeParse w opts).2 with
        | some e => rfl
        | none =>
          cases h1 : (ShellcodeParse w opts).1 with
          | nil => rfl
          | cons s0 srest =>
            dsimp only
            generalize (AddJob w shellAgent s0 srest).1.2 = err
            cases err <;> rfl
      · intro h; cases h
      · intro o ho herr
        cases ho
        cases h2 : (ShellcodeParse w opts).2 with
        | some e => exact ⟨rfl, rfl⟩
        | none => exact absurd h2 herr
      · intro o s0 srest ho hres
        cases ho
        rw [hres]
        dsimp only
        refine ⟨?_, rfl, by simp⟩
        generalize (AddJob w shellAgent s0 srest).1.2 = err
        cases err <;> rfl
      · intro o ho hres
        cases ho
        rw [hres]
        exact ⟨rfl, by simp, rfl⟩

theorem execute_shellcode_dispatch_witness :
    jobsOf (agentExecuteShellcode sampleParse countingQueue (UUID.ofByte 9)
      ["execute-shellcode", "Remote", "500", "9090", "c3"] 0).2 =
      [(UUID.ofByte 9, "shellcode", ["remote", "500", "9090 c3"])] ∧
    (agentExecuteShellcode sampleParse countingQueue (UUID.ofByte 9)
      ["execute-shellcode", "Remote", "500", "9090", "c3"] 0).1 = 1 ∧
    jobsOf (agentExecuteShellcode sampleParse countingQueue (UUID.ofByte 9)
      ["execute-shellcode", "remote", "500"] 0).2 = [] ∧
    jobsOf (agentExecuteShellcode sampleParse countingQueue (UUID.ofByte 9)
      ["execute-shellcode", "self", "909"] 0).2 = [] :=
  ⟨((execute_shellcode_dispatch sampleParse countingQueue (UUID.ofByte 9)
      "execute-shellcode" "Remote" ["500", "9090", "c3"] 0).2.2.2.1
      [("method", "remote"), ("pid", "500"), ("shellcode", "9090 c3")]
      "shellcode" ["remote", "500", "9090 c3"] (by decide) (by decide)).1,
   ((execute_shellcode_dispatch sampleParse countingQueue (UUID.ofByte 9)
      "execute-shellcode" "Remote" ["500", "9090", "c3"] 0).2.2.2.1
      [("method", "remote"), ("pid", "500"), ("shellcode", "9090 c3")]
      "shellcode" ["remote", "500", "9090 c3"] (by decide) (by decide)).2.1.trans (by decide),
   ((execute_shellcode_dispatch sampleParse countingQueue (UUID.ofByte 9)
      "execute-shellcode" "remote" ["500"] 0).2.1 (by decide)).1,
   ((execute_shellcode_dispatch sampleParse countingQueue (UUID.ofByte 9)
      "execute-shellcode" "self" ["909"] 0).2.2.1
      [("method", "self"), ("pid", ""), ("shellcode", "909")] (by decide) (by decide)).1⟩


/-! ## Index and slice expressions -/

theorem boundsMenuAgent_ok (a : String) (rest : List String) :
    boundsMenuAgent (a :: rest) = true := by
  cases rest <;> simp [boundsMenuAgent, indexAt, word]

theorem boundsMenuUse_ok (cmd : List String) : boundsMenuUse cmd = true := by
  rcases cmd with _ | ⟨a, _ | ⟨b, rest⟩⟩ <;> simp [boundsMenuUse, indexAt, word]

theorem boundsMenuListener_ok (a : String) (rest : List String) :
    boundsMenuListener (a :: rest) = true := by
  rcases rest with _ | ⟨b, rest⟩ <;>
    simp [boundsMenuListener, boundsExit, boundsDefault, indexAt, sliceAt, word]

theorem boundsMenuListeners_ok (a : String) (rest : List String) :
    boundsMenuListeners (a :: rest) = true := by
  rcases rest with _ | ⟨b, rest⟩ <;>
    simp [boundsMenuListeners, boundsExit, boundsDefault, indexAt, sliceAt, word]

theorem boundsMenuListenerSetup_ok (a : String) (rest : List String) :
    boundsMenuListenerSetup (a :: rest) = true := by
  rcases rest with _ | ⟨b, rest⟩ <;>
    simp [boundsMenuListenerSetup, boundsExit, boundsDefault, indexAt, sliceAt, word]

theorem boundsMain_ok (a : String) (rest : List String) : boundsMain (a :: rest) = true := by
  rcases rest with _ | ⟨b, _ | ⟨c, rest⟩⟩ <;>
    simp [boundsMain, boundsExit, boundsDefault, boundsMenuAgent_ok, boundsMenuUse_ok,
      indexAt, sliceAt, word]

theorem boundsModule_ok (a : String) (rest : List String) (r : List String) :
    boundsModule (a :: rest) r = true := by
  rcases rest with _ | ⟨b, _ | ⟨c, rest⟩⟩ <;> cases r <;>
    simp [boundsModule, boundsExit, boundsDefault, indexAt, sliceAt, word]

theorem boundsAgentMenu_ok (a : String) (rest : List String) :
    boundsAgentMenu (a :: rest) = true := by
  rcases rest with _ | ⟨b, _ | ⟨c, _ | ⟨d, rest⟩⟩⟩ <;>
    simp [boundsAgentMenu, boundsExit, boundsDefault, boundsMethod, boundsSetCase,
      indexAt, sliceAt, word]

/-- Claim C23. For every menu context, every tokenised line `cmd` and every
result `r` of `Run`: every index and slice expression over `cmd` and over `r`
that one turn of `Shell` reaches, in `Shell` itself and in the handlers it
calls, is within bounds; every call of `menuAgent`, `menuListener`,
`menuListeners` and `menuListenerSetup` passes a non-empty command; and each of
the four handlers is within bounds on every non-empty command.  The empty
command is what would put `cmd[0]` out of bounds in a handler. -/
theorem index_expressions_within_bounds (context : String) (cmd r : List String)
    (a : String) (rest : List String) :
    boundsShell context cmd r = true ∧
    (handlerCalls context cmd).all (fun c => !c.isEmpty) = true ∧
    (boundsMenuAgent (a :: rest) = true ∧ boundsMenuListener (a :: rest) = true ∧
     boundsMenuListeners (a :: rest) = true ∧ boundsMenuListenerSetup (a :: rest) = true ∧
     boundsMenuUse cmd = true) ∧
    (boundsMenuAgent [] = false ∧ boundsMenuListener [] = false ∧
     boundsMenuListeners [] = false ∧ boundsMenuListenerSetup [] = false) := by
  refine ⟨?_, ?_, ⟨boundsMenuAgent_ok a rest, boundsMenuListener_ok a rest,
    boundsMenuListeners_ok a rest, boundsMenuListenerSetup_ok a rest, boundsMenuUse_ok cmd⟩,
    by decide⟩
  · cases cmd with
    | nil => rfl
    | cons c cs =>
      simp [boundsShell, boundsMenuListener_ok, boundsMenuListeners_ok,
        boundsMenuListenerSetup_ok, boundsMain_ok, boundsModule_ok, boundsAgentMenu_ok]
  · rcases cmd with _ | ⟨c, _ | ⟨d, cs⟩⟩ <;> simp [handlerCalls, word] <;> split_ifs <;> simp

/-! ## The `listener` context has a current listener -/

theorem ite_prop {α : Type} (P : α → Prop) (c : Prop) [Decidable c] (a b : α)
    (ha : c → P a) (hb : ¬c → P b) : P (if c then a else b) := by
  split
  · exact ha (by assumption)
  · exact hb (by assumption)

theorem menuSetAgent_listener (i : UUID) (reg : Registry) (sh : Shell) :
    (menuSetAgent i reg sh).shellListener = sh.shellListener ∧
    ((menuSetAgent i reg sh).shellMenuContext = "listener" → sh.shellMenuContext = "listener") := by
  unfold menuSetAgent
  induction reg generalizing sh with
  | nil => exact ⟨rfl, id⟩
  | cons e es ih =>
    rw [List.foldl_cons]
    by_cases h : i = e.2.ID
    · rw [if_pos h]
      refine ⟨(ih _).1, fun hc => ?_⟩
      have := (ih _).2 hc
      simp at this
    · rw [if_neg h]
      exact ih sh

theorem menuAgent_context {σ : Type} (api : AgentsAPI σ) (reg : Registry) (cmd : List String)
    (sh : Shell) (w : σ) :
    (menuAgent api reg cmd sh w).shell.shellMenuContext = "listener" →
      sh.shellMenuContext = "listener" := by
  show (fun o : Outcome σ => o.shell.shellMenuContext = "listener" →
    sh.shellMenuContext = "listener") (menuAgent api reg cmd sh w)
  cases cmd with
  | nil => exact id
  | cons cmd0 args =>
    unfold menuAgent
    dsimp only
    repeat' refine ite_prop (fun o : Outcome σ => o.shell.shellMenuContext = "listener" →
      sh.shellMenuContext = "listener") _ _ _ (fun _ => ?_) (fun _ => ?_)
    all_goals (repeat' split)
    all_goals first
      | exact id
      | exact (menuSetAgent_listener _ _ _).2

theorem menuListenerSetup_context {σ : Type} (api : ListenersAPI σ) (cmd : List String)
    (stdin : String × Option String) (sh : Shell) (w : σ) :
    (menuListenerSetup api cmd stdin sh w).shell.shellMenuContext = "listener" →
      sh.shellMenuContext = "listener" := by
  show (fun o : Outcome σ => o.shell.shellMenuContext = "listener" →
    sh.shellMenuContext = "listener") (menuListenerSetup api cmd stdin sh w)
  cases cmd with
  | nil => exact id
  | cons cmd0 args =>
    unfold menuListenerSetup
    dsimp only
    repeat' refine ite_prop (fun o : Outcome σ => o.shell.shellMenuContext = "listener" →
      sh.shellMenuContext = "listener") _ _ _ (fun _ => ?_) (fun _ => ?_)
    all_goals (repeat' split)
    all_goals first
      | exact id
      | (intro h; simp [menuSetMain] at h)

theorem useLoop_context {σ : Type} (api : ListenersAPI σ) (proto : String) (vs : List String)
    (sh : Shell) :
    (useLoop api proto vs sh).1.shellMenuContext = "listener" →
      sh.shellMenuContext = "listener" := by
  induction vs generalizing sh with
  | nil => exact id
  | cons v vs ih =>
    unfold useLoop
    repeat' split
    · exact id
    · intro h
      have := ih _ h
      simp at this
    · exact ih sh

theorem menuListeners_context {σ : Type} (api : ListenersAPI σ)
    (hassume : ∀ w name, api.Exists w name = true →
      ∃ l, api.GetListenerByName w name = (some l, none))
    (cmd : List String) (stdin : String × Option String) (sh : Shell) (w : σ) :
    (menuListeners api cmd stdin sh w).shell.shellMenuContext = "listener" →
      sh.shellMenuContext = "listener" ∨
        (menuListeners api cmd stdin sh w).shell.shellListener ≠ none := by
  show (fun o : Outcome σ => o.shell.shellMenuContext = "listener" →
    sh.shellMenuContext = "listener" ∨ o.shell.shellListener ≠ none)
    (menuListeners api cmd stdin sh w)
  cases cmd with
  | nil => exact Or.inl
  | cons cmd0 args =>
    unfold menuListeners
    dsimp only
    repeat' refine ite_prop (fun o : Outcome σ => o.shell.shellMenuContext = "listener" →
      sh.shellMenuContext = "listener" ∨ o.shell.shellListener ≠ none)
                  _ _ _ (fun _ => ?_) (fun _ => ?_)
    all_goals first
      | (have hex : api.Exists w (Join args " ") = true := by assumption
         obtain ⟨l, hl⟩ := hassume w (Join args " ") hex
         rw [hl]
         exact fun _ => Or.inr (by simp))
      | skip
    all_goals (try dsimp only)
    all_goals (repeat' split)
    all_goals first
      | exact Or.inl
      | exact fun h => Or.inl (useLoop_context _ _ _ _ h)
      | (intro h; simp [menuSetMain] at h)

theorem menuListener_context {σ : Type} (api : ListenersAPI σ) (cmd : List String)
    (stdin : String × Option String) (sh : Shell) (w : σ)
    (hsel : sh.shellListener ≠ none) :
    (menuListener api cmd stdin sh w).shell.shellMenuContext = "listener" →
      (menuListener api cmd stdin sh w).shell.shellListener ≠ none := by
  show (fun o : Outcome σ => o.shell.shellMenuContext = "listener" →
    o.shell.shellListener ≠ none) (menuListener api cmd stdin sh w)
  cases cmd with
  | nil => exact fun _ => hsel
  | cons cmd0 args =>
    unfold menuListener
    dsimp only
    repeat' refine ite_prop (fun o : Outcome σ => o.shell.shellMenuContext = "listener" →
      o.shell.shellListener ≠ none) _ _ _ (fun _ => ?_) (fun _ => ?_)
    all_goals (try dsimp only)
    all_goals (repeat' split)
    all_goals first
      | exact fun _ => hsel
      | (intro h; simp [menuSetMain] at h)

theorem menuSetModule_context {σ : Type} (capi : ConsoleAPI σ) (name : String) (c : Console)
    (w : σ) :
    (menuSetModule capi name c w).1.shell.shellMenuContext = "listener" →
      c.shell.shellMenuContext = "listener" := by
  unfold menuSetModule
  split
  · dsimp only
    cases (capi.Create w name).2 <;> simp
  · exact id

theorem menuUse_context {σ : Type} (capi : ConsoleAPI σ) (cmd : List String) (c : Console)
    (w : σ) :
    (menuUse capi cmd c w).1.shell.shellMenuContext = "listener" →
      c.shell.shellMenuContext = "listener" := by
  unfold menuUse
  repeat' split
  all_goals first
    | exact id
    | exact menuSetModule_context _ _ _ _

theorem mainAgent_context {σ : Type} (api : AgentsAPI σ) (reg : Registry) (cmd : List String)
    (sh : Shell) (w : σ) :
    (mainAgent api reg cmd sh w).shell.shellMenuContext = "listener" →
      sh.shellMenuContext = "listener" := by
  unfold mainAgent
  split
  · exact menuAgent_context _ _ _ _ _
  · exact id

theorem mainInteract_context {σ : Type} (api : AgentsAPI σ) (reg : Registry)
    (cmd : List String) (sh : Shell) (w : σ) :
    (mainInteract api reg cmd sh w).shell.shellMenuContext = "listener" →
      sh.shellMenuContext = "listener" := by
  unfold mainInteract
  split
  · exact menuAgent_context _ _ _ _ _
  · exact id

theorem mainMenu_context {σ : Type} (lapi : ListenersAPI σ) (aapi : AgentsAPI σ)
    (capi : ConsoleAPI σ) (reg : Registry) (cmd : List String)
    (stdin : String × Option String) (c : Console) (w : σ) :
    (mainMenu lapi aapi capi reg cmd stdin c w).console.shell.shellMenuContext = "listener" →
      c.shell.shellMenuContext = "listener" := by
  cases cmd with
  | nil => exact id
  | cons cmd0 args =>
    unfold mainMenu
    dsimp only
    repeat' refine ite_prop (fun s : Step σ => s.console.shell.shellMenuContext = "listener" →
      c.shell.shellMenuContext = "listener") _ _ _ (fun _ => ?_) (fun _ => ?_)
    all_goals (try dsimp only [Outcome.withModule])
    all_goals (repeat' split)
    all_goals first
      | exact id
      | exact mainAgent_context _ _ _ _ _
      | exact mainInteract_context _ _ _ _ _
      | exact menuAgent_context _ _ _ _ _
      | exact menuUse_context _ _ _ _
      | (intro h; simp at h)

theorem moduleMenu_context {σ : Type} (lapi : ListenersAPI σ) (capi : ConsoleAPI σ)
    (reg : Registry) (cmd : List String) (stdin : String × Option String) (c : Console)
    (w : σ) :
    (moduleMenu lapi capi reg cmd stdin c w).console.shell.shellMenuContext = "listener" →
      c.shell.shellMenuContext = "listener" := by
  cases cmd with
  | nil => exact id
  | cons cmd0 args =>
    unfold moduleMenu
    dsimp only
    repeat' refine ite_prop (fun s : Step σ => s.console.shell.shellMenuContext = "listener" →
      c.shell.shellMenuContext = "listener") _ _ _ (fun _ => ?_) (fun _ => ?_)
    all_goals (try dsimp only)
    all_goals (repeat' split)
    all_goals first
      | exact id
      | exact menuSetModule_context _ _ _ _
      | (intro h; simp [menuSetMain] at h)

theorem agentMenu_context {σ : Type} (lapi : ListenersAPI σ) (capi : ConsoleAPI σ)
    (line : String) (cmd : List String) (stdin : String × Option String) (c : Console)
    (w : σ) :
    (agentMenu lapi capi line cmd stdin c w).console.shell.shellMenuContext = "listener" →
      c.shell.shellMenuContext = "listener" := by
  cases cmd with
  | nil => exact id
  | cons cmd0 args =>
    unfold agentMenu
    dsimp only
    repeat' refine ite_prop (fun s : Step σ => s.console.shell.shellMenuContext = "listener" →
      c.shell.shellMenuContext = "listener") _ _ _ (fun _ => ?_) (fun _ => ?_)
    all_goals (try dsimp only)
    all_goals first
      | exact id
      | (intro h; simp [menuSetMain] at h)

theorem shellStep_invariant {σ : Type} (lapi : ListenersAPI σ) (aapi : AgentsAPI σ)
    (capi : ConsoleAPI σ)
    (hassume : ∀ w name, lapi.Exists w name = true →
      ∃ l, lapi.GetListenerByName w name = (some l, none))
    (reg : Registry) (line : String) (cmd : List String) (stdin : String × Option String)
    (c : Console) (w : σ)
    (hinv : c.shell.shellMenuContext = "listener" → c.shell.shellListener ≠ none) :
    (shellStep lapi aapi capi reg line cmd stdin c w).console.shell.shellMenuContext
        = "listener" →
      (shellStep lapi aapi capi reg line cmd stdin c w).console.shell.shellListener ≠ none := by
  unfold shellStep
  by_cases hlen : 0 < cmd.length
  swap
  · rw [if_neg hlen]
    exact hinv
  rw [if_pos hlen]
  by_cases h1 : c.shell.shellMenuContext = "listener"
  · rw [if_pos h1]
    exact menuListener_context lapi cmd stdin c.shell w (hinv h1)
  rw [if_neg h1]
  by_cases h2 : c.shell.shellMenuContext = "listenersmain"
  · rw [if_pos h2]
    intro h
    rcases menuListeners_context lapi hassume cmd stdin c.shell w h with h3 | h3
    · exact absurd h3 h1
    · exact h3
  rw [if_neg h2]
  by_cases h3 : c.shell.shellMenuContext = "listenersetup"
  · rw [if_pos h3]
    exact fun h => absurd (menuListenerSetup_context lapi cmd stdin c.shell w h) h1
  rw [if_neg h3]
  by_cases h4 : c.shell.shellMenuContext = "main"
  · rw [if_pos h4]
    exact fun h => absurd (mainMenu_context _ _ _ _ _ _ _ _ h) h1
  rw [if_neg h4]
  by_cases h5 : c.shell.shellMenuContext = "module"
  · rw [if_pos h5]
    exact fun h => absurd (moduleMenu_context _ _ _ _ _ _ _ h) h1
  rw [if_neg h5]
  by_cases h6 : c.shell.shellMenuContext = "agent"
  · rw [if_pos h6]
    exact fun h => absurd (agentMenu_context _ _ _ _ _ _ _ h) h1
  rw [if_neg h6]
  exact hinv

theorem runShell_invariant {σ : Type} (lapi : ListenersAPI σ) (aapi : AgentsAPI σ)
    (capi : ConsoleAPI σ)
    (hassume : ∀ w name, lapi.Exists w name = true →
      ∃ l, lapi.GetListenerByName w name = (some l, none))
    (inputs : List (Input σ)) (c : Console)
    (hinv : c.shell.shellMenuContext = "listener" → c.shell.shellListener ≠ none) :
    (runShell lapi aapi capi inputs c).shell.shellMenuContext = "listener" →
      (runShell lapi aapi capi inputs c).shell.shellListener ≠ none := by
  induction inputs generalizing c with
  | nil => exact hinv
  | cons i rest ih =>
    have hstep := shellStep_invariant lapi aapi capi hassume i.agentsMap (TrimSpace i.line)
      (Fields (TrimSpace i.line)) i.stdin c i.world hinv
    unfold runShell
    dsimp only
    split
    · exact hstep
    · exact ih _ hstep

theorem sampleListeners_lookup (w : SampleWorld) (name : String)
    (h : sampleListeners.Exists w name = true) :
    ∃ l, sampleListeners.GetListenerByName w name = (some l, none) := by
  have h2 : w.any (fun e => decide (e.1.Name = name)) = true := h
  show ∃ l, (match w.find? fun e => decide (e.1.Name = name) with
    | some e => (some e.1, none)
    | none => (none, some "invalid listener name")) = (some l, none)
  cases hf : w.find? fun e => decide (e.1.Name = name) with
  | some e => exact ⟨e.1, rfl⟩
  | none =>
    rw [List.find?_eq_none] at hf
    rw [List.any_eq_true] at h2
    obtain ⟨x, hx, hp⟩ := h2
    exact absurd hp (hf x hx)

/-- Claim C24. Let `GetListenerByName` succeed for every name for which `Exists`
returns true.  After any sequence of turns of `Shell` from the initial state
(context `main`, no listener selected), whatever the lines read, the answers to
`confirm`, the agent registry and the world at each turn: if the menu context is
`listener` then `shellListener` is set; and whatever line is read next, if that
turn leaves `shellListener` nil then it also leaves the context different from
`listener`. -/
theorem listener_context_has_listener {σ : Type} (lapi : ListenersAPI σ) (aapi : AgentsAPI σ)
    (capi : ConsoleAPI σ)
    (hassume : ∀ w name, lapi.Exists w name = true →
      ∃ l, lapi.GetListenerByName w name = (some l, none))
    (inputs : List (Input σ)) (i : Input σ) :
    ((runShell lapi aapi capi inputs initialConsole).shell.shellMenuContext = "listener" →
      (runShell lapi aapi capi inputs initialConsole).shell.shellListener ≠ none) ∧
    ((shellTurn lapi aapi capi i
        (runShell lapi aapi capi inputs initialConsole)).console.shell.shellListener = none →
      (shellTurn lapi aapi capi i
        (runShell lapi aapi capi inputs initialConsole)).console.shell.shellMenuContext
          ≠ "listener") := by
  have h0 : initialConsole.shell.shellMenuContext = "listener" →
      initialConsole.shell.shellListener ≠ none := fun h => absurd h (by decide)
  have hrun := runShell_invariant lapi aapi capi hassume inputs initialConsole h0
  refine ⟨hrun, fun hnone hctx => ?_⟩
  exact shellStep_invariant lapi aapi capi hassume i.agentsMap (TrimSpace i.line)
    (Fields (TrimSpace i.line)) i.stdin _ i.world hrun hctx hnone

/-- The sample listeners satisfy the assumption; two turns from the start lead
to the context `listener` with the listener `alpha` selected; deleting it
clears the current listener and leaves the context. -/
theorem listener_context_has_listener_witness :
    (∀ w name, sampleListeners.Exists w name = true →
      ∃ l, sampleListeners.GetListenerByName w name = (some l, none)) ∧
    (runShell sampleListeners quietAgents quietConsole sampleInputs
      initialConsole).shell.shellMenuContext = "listener" ∧
    (runShell sampleListeners quietAgents quietConsole sampleInputs
      initialConsole).shell.shellListener ≠ none ∧
    (shellTurn sampleListeners quietAgents quietConsole deleteInput
      (runShell sampleListeners quietAgents quietConsole sampleInputs
        initialConsole)).console.shell.shellListener = none ∧
    (shellTurn sampleListeners quietAgents quietConsole deleteInput
      (runShell sampleListeners quietAgents quietConsole sampleInputs
        initialConsole)).console.shell.shellMenuContext ≠ "listener" :=
  ⟨sampleListeners_lookup, by decide,
    (listener_context_has_listener sampleListeners quietAgents quietConsole
      sampleListeners_lookup sampleInputs deleteInput).1 (by decide),
    by decide,
    (listener_context_has_listener sampleListeners quietAgents quietConsole
      sampleListeners_lookup sampleInputs deleteInput).2 (by decide)⟩

end Merlin
